import Mathlib

/-!
# Register-mapped protocol and stream schedulers of titan_canmore

A shallow embedding of `canmore/src/reg_mapped_server.c` and, further down,
of `canmore/src/reg_mapped_client.c`, of the two schedulers of
`canmore_cpp/src/RemoteTTYStream.cpp` and of a client joined to a server. The
notes below are on the server.

* Bytes and words are natural numbers; a byte read from a request buffer is
  reduced modulo 256, a word assembled from four bytes is below `2 ^ 32`.
* Memory reached through a pointer of a page definition is a list owned by
  the page. A store outside the list is dropped and a load outside the list
  gives 0 (in C both are undefined); theorems that depend on the backing
  storage state its length as a hypothesis.
* `tx_func` and the callbacks of executable registers are the only effects of
  the server on its environment. Both are recorded in the instance: `tx_log`
  holds every transmitted response in order, `exec_log` every callback
  invocation in order. A callback is taken to leave the instance and the page
  memory alone; what it returns may depend on the invocations before it.
* The code is modelled with `CANMORE_CONFIG_DISABLE_MULTIWORD` off.
-/

namespace Canmore

/-! ## Protocol constants -/

/-- Modelled from the spec: `canmore/reg_mapped/protocol.h` is not among the
sources. The result codes of its taxonomy (spec section 6) and the bit fields
of the flags byte (`write`, `multiword`, `bulk_req`, `bulk_end`, `mode`) are
kept abstract: the numeric values and bit positions are fields of this record. -/
structure Protocol where
  REG_MAPPED_RESULT_SUCCESSFUL : Nat
  REG_MAPPED_RESULT_INVALID_REGISTER_ADDRESS : Nat
  REG_MAPPED_RESULT_INVALID_REGISTER_MODE : Nat
  REG_MAPPED_RESULT_INVALID_DATA : Nat
  REG_MAPPED_RESULT_MALFORMED_REQUEST : Nat
  REG_MAPPED_RESULT_INVALID_MODE : Nat
  REG_MAPPED_RESULT_BULK_REQUEST_SEQ_ERROR : Nat
  REG_MAPPED_RESULT_MULTIWORD_UNSUPPORTED : Nat
  REG_MAPPED_RESULT_MULTIWORD_TOO_LARGE : Nat
  flag_write : Nat → Bool
  flag_multiword : Nat → Bool
  flag_bulk_req : Nat → Bool
  flag_bulk_end : Nat → Bool
  flag_mode : Nat → Nat

/-- The assumption the server code makes on the result codes: it stores a
result code in `bulk_error_code` and tests that field against the literal 0
for "no error", so success is 0 and every error code is not. -/
def Protocol.Valid (P : Protocol) : Prop :=
  P.REG_MAPPED_RESULT_SUCCESSFUL = 0 ∧
  P.REG_MAPPED_RESULT_INVALID_REGISTER_ADDRESS ≠ 0 ∧
  P.REG_MAPPED_RESULT_INVALID_REGISTER_MODE ≠ 0 ∧
  P.REG_MAPPED_RESULT_INVALID_DATA ≠ 0 ∧
  P.REG_MAPPED_RESULT_MALFORMED_REQUEST ≠ 0 ∧
  P.REG_MAPPED_RESULT_INVALID_MODE ≠ 0 ∧
  P.REG_MAPPED_RESULT_BULK_REQUEST_SEQ_ERROR ≠ 0 ∧
  P.REG_MAPPED_RESULT_MULTIWORD_UNSUPPORTED ≠ 0 ∧
  P.REG_MAPPED_RESULT_MULTIWORD_TOO_LARGE ≠ 0

instance (P : Protocol) : Decidable P.Valid := by
  unfold Protocol.Valid; infer_instance

/-- Modelled from the spec: one concrete protocol, used to evaluate the model.
The result codes are the taxonomy of spec section 6 numbered from 0 in the
order listed; the flags are the bit fields of spec section 6 in the order
listed, one bit each from bit 0, with the mode tag in the bits above them. -/
def specProtocol : Protocol where
  REG_MAPPED_RESULT_SUCCESSFUL := 0
  REG_MAPPED_RESULT_INVALID_REGISTER_ADDRESS := 1
  REG_MAPPED_RESULT_INVALID_REGISTER_MODE := 2
  REG_MAPPED_RESULT_INVALID_DATA := 3
  REG_MAPPED_RESULT_MALFORMED_REQUEST := 4
  REG_MAPPED_RESULT_INVALID_MODE := 5
  REG_MAPPED_RESULT_BULK_REQUEST_SEQ_ERROR := 6
  REG_MAPPED_RESULT_MULTIWORD_UNSUPPORTED := 7
  REG_MAPPED_RESULT_MULTIWORD_TOO_LARGE := 8
  flag_write := fun b => b % 2 == 1
  flag_multiword := fun b => b / 2 % 2 == 1
  flag_bulk_req := fun b => b / 4 % 2 == 1
  flag_bulk_end := fun b => b / 8 % 2 == 1
  flag_mode := fun b => b / 16 % 16

/-! ## Page table (`canmore/reg_mapped/server.h`, as used by the code) -/

/-- Register permission: `REGISTER_PERM_READ_ONLY`, `REGISTER_PERM_WRITE_ONLY`,
`REGISTER_PERM_READ_WRITE`. -/
inductive Perm where
  | READ_ONLY
  | WRITE_ONLY
  | READ_WRITE
  deriving DecidableEq, Repr

/-- A register of a register-mapped page (`reg_mapped_server_register_def_t`):
`REGISTER_TYPE_MEMORY` with the word behind `reg_ptr`, `REGISTER_TYPE_EXEC`
(its callback is the environment function `Callback`), or
`REGISTER_TYPE_UNIMPLEMENTED`. -/
inductive Register where
  | memory (perm : Perm) (reg : Nat)
  | exec (perm : Perm)
  | unimplemented
  deriving DecidableEq, Repr

/-- A page definition (`reg_mapped_server_page_def_t`). `base_addr` and
`reg_array` are the memory the definition points to. -/
inductive Page where
  | mem_mapped_word (perm : Perm) (num_words : Nat) (base_addr : List Nat)
  | mem_mapped_byte (perm : Perm) (size : Nat) (base_addr : List Nat)
  | reg_mapped (num_registers : Nat) (reg_array : List Register)
  | unimplemented
  deriving DecidableEq, Repr

/-- One invocation of the callback of an executable register:
`callback(reg, is_write, &data)` for the register at `page`, `offset`. -/
structure ExecCall where
  page : Nat
  offset : Nat
  is_write : Bool
  data : Nat
  deriving DecidableEq, Repr

/-- Behaviour of the callbacks of the executable registers: given the
invocations so far and the current one, whether the callback returns true and
the value it leaves in `*data`. -/
abbrev Callback := List ExecCall → ExecCall → Bool × Nat

/-- The multiword response buffer (`multiword_read_pkt` view): the result
byte and the data bytes. -/
structure MultiwordBuffer where
  result : Nat
  data : List Nat
  deriving DecidableEq, Repr

/-- A response handed to `tx_func`: which member of `reg_mapped_response_t`
was filled and sent. A multiword read response is the result byte and the
first `4 * count` data bytes of the multiword response buffer. -/
inductive Response where
  | write_pkt (result : Nat)
  | read_pkt (result : Nat) (data : Nat)
  | write_bulk_pkt (result : Nat) (seq_no : Nat)
  | multiword_read_pkt (result : Nat) (data : List Nat)
  deriving DecidableEq, Repr

/-- The server instance (`reg_mapped_server_inst_t`) together with the trace
of its two effects: `tx_log` (calls of `tx_func`) and `exec_log` (calls of
register callbacks). `multiword_resp_buffer = none` is the NULL pointer.
The declaration of the structure (`server.h`) is not among the sources; the
fields are those the code uses, and `bulk_last_seq_num` is taken to be one
byte wide, like the `count` field of a request it is compared with. -/
structure reg_mapped_server_inst_t where
  num_pages : Nat
  page_array : List Page
  control_interface_mode : Nat
  in_bulk_request : Bool
  bulk_error_code : Nat
  bulk_last_seq_num : Nat
  multiword_resp_buffer : Option MultiwordBuffer
  multiword_resp_buffer_max_count : Nat
  tx_log : List Response
  exec_log : List ExecCall
  deriving DecidableEq, Repr

/-- The fields of `struct reg_mapped_write_request` after the flags byte. -/
structure reg_mapped_write_request where
  count : Nat
  page : Nat
  offset : Nat
  data : Nat
  deriving DecidableEq, Repr

/-- The fields of `struct reg_mapped_read_request` after the flags byte. -/
structure reg_mapped_read_request where
  count : Nat
  page : Nat
  offset : Nat
  deriving DecidableEq, Repr

/-- The fields of `struct reg_mapped_multiword_write_request` after the flags
byte; `data` is the payload as bytes. -/
structure reg_mapped_multiword_write_request where
  count : Nat
  page : Nat
  offset : Nat
  data : List Nat
  deriving DecidableEq, Repr

/-- The page definition `&inst->page_array[page]`. -/
def page_at (inst : reg_mapped_server_inst_t) (page : Nat) : Page :=
  inst.page_array.getD page Page.unimplemented

/-- The instance after the memory behind page `page` became that of `p`. -/
def set_page (inst : reg_mapped_server_inst_t) (page : Nat) (p : Page) :
    reg_mapped_server_inst_t :=
  { inst with page_array := inst.page_array.set page p }

/-! ## Single-word access -/

/-- The store loop of the byte-array branch of the single write:
`for (i = 0; i < n; i++) { base_addr[write_offset++] = write_word; write_word >>= 8; }`. -/
def write_word_bytes : Nat → List Nat → Nat → Nat → List Nat
  | 0, base_addr, _, _ => base_addr
  | n + 1, base_addr, write_offset, write_word =>
    write_word_bytes n (base_addr.set write_offset (write_word % 256)) (write_offset + 1)
      (write_word / 256)

/-- The load loop of the byte-array branch of the single read, from index `i`
for `n` more rounds:
`partial_read |= base_addr[read_offset++] << (8 * i)`. -/
def read_word_bytes : Nat → List Nat → Nat → Nat → Nat → Nat
  | 0, _, _, _, partial_read => partial_read
  | n + 1, base_addr, read_offset, i, partial_read =>
    read_word_bytes n base_addr (read_offset + 1) (i + 1)
      ((partial_read ||| ((base_addr.getD read_offset 0) <<< (8 * i))) % 2 ^ 32)

/-- The number of bytes of the word at `offset` that lie inside a byte array
of `size` bytes: `word_size - extra_bytes`, where
`extra_bytes = offset * 4 + 4 - size`, raised to 0 when negative. Callers have
checked `offset * 4 < size`, so `extra_bytes` is at most 3. -/
def bytes_in_range (offset size : Nat) : Nat :=
  let extra_bytes : Int := ((offset * 4 + 4 : Nat) : Int) - (size : Int)
  let extra_bytes : Int := if extra_bytes < 0 then 0 else extra_bytes
  (4 - extra_bytes).toNat

/-- `reg_mapped_server_handle_single_write`: the result code and the instance
afterwards. -/
def reg_mapped_server_handle_single_write (P : Protocol) (cb : Callback)
    (inst : reg_mapped_server_inst_t) (req : reg_mapped_write_request) :
    Nat × reg_mapped_server_inst_t :=
  if req.page ≥ inst.num_pages then
    (P.REG_MAPPED_RESULT_INVALID_REGISTER_ADDRESS, inst)
  else
    match page_at inst req.page with
    | Page.mem_mapped_word perm num_words base_addr =>
      if req.offset ≥ num_words then
        (P.REG_MAPPED_RESULT_INVALID_REGISTER_ADDRESS, inst)
      else if perm ≠ Perm.READ_WRITE ∧ perm ≠ Perm.WRITE_ONLY then
        (P.REG_MAPPED_RESULT_INVALID_REGISTER_MODE, inst)
      else
        (P.REG_MAPPED_RESULT_SUCCESSFUL,
          set_page inst req.page
            (Page.mem_mapped_word perm num_words (base_addr.set req.offset req.data)))
    | Page.mem_mapped_byte perm size base_addr =>
      if req.offset * 4 ≥ size then
        (P.REG_MAPPED_RESULT_INVALID_REGISTER_ADDRESS, inst)
      else if perm ≠ Perm.READ_WRITE ∧ perm ≠ Perm.WRITE_ONLY then
        (P.REG_MAPPED_RESULT_INVALID_REGISTER_MODE, inst)
      else
        (P.REG_MAPPED_RESULT_SUCCESSFUL,
          set_page inst req.page
            (Page.mem_mapped_byte perm size
              (write_word_bytes (bytes_in_range req.offset size) base_addr (req.offset * 4)
                req.data)))
    | Page.reg_mapped num_registers reg_array =>
      if req.offset ≥ num_registers then
        (P.REG_MAPPED_RESULT_INVALID_REGISTER_ADDRESS, inst)
      else
        match reg_array.getD req.offset Register.unimplemented with
        | Register.memory perm _ =>
          if perm ≠ Perm.READ_WRITE ∧ perm ≠ Perm.WRITE_ONLY then
            (P.REG_MAPPED_RESULT_INVALID_REGISTER_MODE, inst)
          else
            (P.REG_MAPPED_RESULT_SUCCESSFUL,
              set_page inst req.page
                (Page.reg_mapped num_registers
                  (reg_array.set req.offset (Register.memory perm req.data))))
        | Register.exec perm =>
          if perm ≠ Perm.READ_WRITE ∧ perm ≠ Perm.WRITE_ONLY then
            (P.REG_MAPPED_RESULT_INVALID_REGISTER_MODE, inst)
          else
            let call : ExecCall :=
              { page := req.page, offset := req.offset, is_write := true, data := req.data }
            let inst1 := { inst with exec_log := inst.exec_log ++ [call] }
            if (cb inst.exec_log call).1 then
              (P.REG_MAPPED_RESULT_SUCCESSFUL, inst1)
            else
              (P.REG_MAPPED_RESULT_INVALID_DATA, inst1)
        | Register.unimplemented =>
          (P.REG_MAPPED_RESULT_INVALID_REGISTER_ADDRESS, inst)
    | Page.unimplemented =>
      (P.REG_MAPPED_RESULT_INVALID_REGISTER_ADDRESS, inst)

/-- `reg_mapped_server_handle_single_read`: the result code, the value of
`*data_out` afterwards (`data_out` is its value before the call) and the
instance afterwards. -/
def reg_mapped_server_handle_single_read (P : Protocol) (cb : Callback)
    (inst : reg_mapped_server_inst_t) (req : reg_mapped_read_request) (data_out : Nat) :
    Nat × Nat × reg_mapped_server_inst_t :=
  if req.page ≥ inst.num_pages then
    (P.REG_MAPPED_RESULT_INVALID_REGISTER_ADDRESS, data_out, inst)
  else
    match page_at inst req.page with
    | Page.mem_mapped_word perm num_words base_addr =>
      if req.offset ≥ num_words then
        (P.REG_MAPPED_RESULT_INVALID_REGISTER_ADDRESS, data_out, inst)
      else if perm ≠ Perm.READ_WRITE ∧ perm ≠ Perm.READ_ONLY then
        (P.REG_MAPPED_RESULT_INVALID_REGISTER_MODE, data_out, inst)
      else
        (P.REG_MAPPED_RESULT_SUCCESSFUL, base_addr.getD req.offset 0, inst)
    | Page.mem_mapped_byte perm size base_addr =>
      if req.offset * 4 ≥ size then
        (P.REG_MAPPED_RESULT_INVALID_REGISTER_ADDRESS, data_out, inst)
      else if perm ≠ Perm.READ_WRITE ∧ perm ≠ Perm.READ_ONLY then
        (P.REG_MAPPED_RESULT_INVALID_REGISTER_MODE, data_out, inst)
      else
        (P.REG_MAPPED_RESULT_SUCCESSFUL,
          read_word_bytes (bytes_in_range req.offset size) base_addr (req.offset * 4) 0 0, inst)
    | Page.reg_mapped num_registers reg_array =>
      if req.offset ≥ num_registers then
        (P.REG_MAPPED_RESULT_INVALID_REGISTER_ADDRESS, data_out, inst)
      else
        match reg_array.getD req.offset Register.unimplemented with
        | Register.memory perm reg =>
          if perm ≠ Perm.READ_WRITE ∧ perm ≠ Perm.READ_ONLY then
            (P.REG_MAPPED_RESULT_INVALID_REGISTER_MODE, data_out, inst)
          else
            (P.REG_MAPPED_RESULT_SUCCESSFUL, reg, inst)
        | Register.exec perm =>
          if perm ≠ Perm.READ_WRITE ∧ perm ≠ Perm.READ_ONLY then
            (P.REG_MAPPED_RESULT_INVALID_REGISTER_MODE, data_out, inst)
          else
            let call : ExecCall :=
              { page := req.page, offset := req.offset, is_write := false, data := data_out }
            let inst1 := { inst with exec_log := inst.exec_log ++ [call] }
            let r := cb inst.exec_log call
            if r.1 then
              (P.REG_MAPPED_RESULT_SUCCESSFUL, r.2, inst1)
            else
              (P.REG_MAPPED_RESULT_INVALID_DATA, r.2, inst1)
        | Register.unimplemented =>
          (P.REG_MAPPED_RESULT_INVALID_REGISTER_ADDRESS, data_out, inst)
    | Page.unimplemented =>
      (P.REG_MAPPED_RESULT_INVALID_REGISTER_ADDRESS, data_out, inst)

/-! ## Multiword access -/

/-- The `size_t` difference `a - b`; when `b > a` the unsigned subtraction
wraps around (32-bit `size_t`). -/
def size_t_sub (a b : Nat) : Nat :=
  if b ≤ a then a - b else a + 2 ^ 32 - b

/-- Little-endian load of a 32-bit word from four bytes of `bytes` at `i`. -/
def word_at (bytes : List Nat) (i : Nat) : Nat :=
  bytes.getD i 0 % 256 + 256 * (bytes.getD (i + 1) 0 % 256) +
    65536 * (bytes.getD (i + 2) 0 % 256) + 16777216 * (bytes.getD (i + 3) 0 % 256)

/-- The four bytes of a 32-bit word in memory order (little endian). -/
def word_bytes (w : Nat) : List Nat :=
  [w % 256, w / 256 % 256, w / 65536 % 256, w / 16777216 % 256]

/-- The bytes of `count` words of `base_addr` from word index `offset` on. -/
def words_to_bytes : Nat → List Nat → Nat → List Nat
  | 0, _, _ => []
  | n + 1, base_addr, offset =>
    word_bytes (base_addr.getD offset 0) ++ words_to_bytes n base_addr (offset + 1)

/-- Byte-wise `memcpy(&dst[off], src, src.length)`. -/
def memcpy (dst : List Nat) (off : Nat) : List Nat → List Nat
  | [] => dst
  | b :: src => memcpy (dst.set off b) (off + 1) src

/-- The copy `memcpy(&base_addr[offset], data, count * 4)` into a word array:
word `offset + j` becomes the word held by bytes `4 * j .. 4 * j + 3` of `data`. -/
def memcpy_words : Nat → List Nat → Nat → List Nat → List Nat
  | 0, base_addr, _, _ => base_addr
  | n + 1, base_addr, offset, data =>
    memcpy_words n (base_addr.set offset (word_at data 0)) (offset + 1) (data.drop 4)

/-- `reg_mapped_server_handle_multiword_write`: the result code and the
instance afterwards. -/
def reg_mapped_server_handle_multiword_write (P : Protocol)
    (inst : reg_mapped_server_inst_t) (req : reg_mapped_multiword_write_request) :
    Nat × reg_mapped_server_inst_t :=
  if req.page ≥ inst.num_pages then
    (P.REG_MAPPED_RESULT_INVALID_REGISTER_ADDRESS, inst)
  else
    match page_at inst req.page with
    | Page.mem_mapped_word perm num_words base_addr =>
      if req.offset + req.count > num_words then
        (P.REG_MAPPED_RESULT_INVALID_REGISTER_ADDRESS, inst)
      else if perm ≠ Perm.READ_WRITE ∧ perm ≠ Perm.WRITE_ONLY then
        (P.REG_MAPPED_RESULT_INVALID_REGISTER_MODE, inst)
      else
        (P.REG_MAPPED_RESULT_SUCCESSFUL,
          set_page inst req.page
            (Page.mem_mapped_word perm num_words
              (memcpy_words req.count base_addr req.offset req.data)))
    | Page.mem_mapped_byte perm size base_addr =>
      let byte_offset := req.offset * 4
      let copy_len := req.count * 4
      if byte_offset + copy_len ≥ size + 4 then
        (P.REG_MAPPED_RESULT_INVALID_REGISTER_ADDRESS, inst)
      else
        let copy_len := if byte_offset + copy_len > size then size_t_sub size byte_offset
          else copy_len
        if perm ≠ Perm.READ_WRITE ∧ perm ≠ Perm.WRITE_ONLY then
          (P.REG_MAPPED_RESULT_INVALID_REGISTER_MODE, inst)
        else
          (P.REG_MAPPED_RESULT_SUCCESSFUL,
            set_page inst req.page
              (Page.mem_mapped_byte perm size
                (memcpy base_addr byte_offset (req.data.take copy_len))))
    | Page.reg_mapped _ _ =>
      (P.REG_MAPPED_RESULT_INVALID_REGISTER_ADDRESS, inst)
    | Page.unimplemented =>
      (P.REG_MAPPED_RESULT_INVALID_REGISTER_ADDRESS, inst)

/-- `reg_mapped_server_handle_multiword_read`: the result code and the bytes
behind `data_out` afterwards. The page memory is only read. -/
def reg_mapped_server_handle_multiword_read (P : Protocol)
    (inst : reg_mapped_server_inst_t) (req : reg_mapped_read_request) (data_out : List Nat) :
    Nat × List Nat :=
  if req.page ≥ inst.num_pages then
    (P.REG_MAPPED_RESULT_INVALID_REGISTER_ADDRESS, data_out)
  else
    match page_at inst req.page with
    | Page.mem_mapped_word perm num_words base_addr =>
      if req.offset + req.count > num_words then
        (P.REG_MAPPED_RESULT_INVALID_REGISTER_ADDRESS, data_out)
      else if perm ≠ Perm.READ_WRITE ∧ perm ≠ Perm.READ_ONLY then
        (P.REG_MAPPED_RESULT_INVALID_REGISTER_MODE, data_out)
      else
        (P.REG_MAPPED_RESULT_SUCCESSFUL,
          memcpy data_out 0 (words_to_bytes req.count base_addr req.offset))
    | Page.mem_mapped_byte perm size base_addr =>
      let byte_offset := req.offset * 4
      let copy_len := req.count * 4
      if byte_offset + copy_len ≥ size + 4 then
        (P.REG_MAPPED_RESULT_INVALID_REGISTER_ADDRESS, data_out)
      else
        let copy_len := if byte_offset + copy_len > size then size_t_sub size byte_offset
          else copy_len
        if perm ≠ Perm.READ_WRITE ∧ perm ≠ Perm.READ_ONLY then
          (P.REG_MAPPED_RESULT_INVALID_REGISTER_MODE, data_out)
        else
          let data_out := if copy_len % 4 ≠ 0 then
              memcpy data_out (size_t_sub req.count 1 * 4 % 2 ^ 32) [0, 0, 0, 0]
            else data_out
          (P.REG_MAPPED_RESULT_SUCCESSFUL,
            memcpy data_out 0 ((base_addr.drop byte_offset).take copy_len))
    | Page.reg_mapped _ _ =>
      (P.REG_MAPPED_RESULT_INVALID_REGISTER_ADDRESS, data_out)
    | Page.unimplemented =>
      (P.REG_MAPPED_RESULT_INVALID_REGISTER_ADDRESS, data_out)

/-! ## Request handling -/

/-- Byte `i` of a request buffer. -/
def byte_at (msg : List Nat) (i : Nat) : Nat :=
  msg.getD i 0 % 256

/-- Modelled from the spec: the request layouts of `protocol.h` (spec section
6): flags, count, page, offset, one byte each, followed for a single write by
the 32-bit data word and for a multiword write by `count` 32-bit words. This
is `req->write_pkt` read from the buffer. -/
def write_pkt (msg : List Nat) : reg_mapped_write_request :=
  { count := byte_at msg 1, page := byte_at msg 2, offset := byte_at msg 3,
    data := word_at msg 4 }

/-- The view `req->read_pkt` of the buffer (layout as for `write_pkt`). -/
def read_pkt (msg : List Nat) : reg_mapped_read_request :=
  { count := byte_at msg 1, page := byte_at msg 2, offset := byte_at msg 3 }

/-- The view `req->multiword_write_pkt` of the buffer (layout as for
`write_pkt`). -/
def multiword_write_pkt (msg : List Nat) : reg_mapped_multiword_write_request :=
  { count := byte_at msg 1, page := byte_at msg 2, offset := byte_at msg 3,
    data := msg.drop 4 }

/-- The "Check message length" block: `expected_msg_len`, or `none` when a
multiword write is shorter than its header (the first `goto finish_request`). -/
def expected_msg_len (P : Protocol) (msg : List Nat) : Option Nat :=
  let flags := byte_at msg 0
  if !P.flag_write flags then
    some 4
  else if P.flag_multiword flags then
    if msg.length < 4 then none
    else some (4 + 4 * (multiword_write_pkt msg).count)
  else
    some 8

/-- The "Bulk request handling" block of a request tagged bulk: the result
code when the block leaves with `goto finish_request` (`none` when it falls
through) and the instance afterwards. `bulk_last_seq_num++` wraps at one
byte. -/
def bulk_request_handling (P : Protocol) (inst : reg_mapped_server_inst_t)
    (req : reg_mapped_write_request) : Option Nat × reg_mapped_server_inst_t :=
  if !inst.in_bulk_request then
    if req.count ≠ 0 then
      (some P.REG_MAPPED_RESULT_BULK_REQUEST_SEQ_ERROR, inst)
    else
      (none, { inst with in_bulk_request := true, bulk_error_code := 0, bulk_last_seq_num := 0 })
  else if inst.bulk_error_code = 0 then
    let inst1 := { inst with bulk_last_seq_num := (inst.bulk_last_seq_num + 1) % 256 }
    if req.count ≠ inst1.bulk_last_seq_num then
      (some P.REG_MAPPED_RESULT_BULK_REQUEST_SEQ_ERROR, inst1)
    else
      (none, inst1)
  else
    (none, inst)

/-- The branch `if (request_type_multiword)` of
`reg_mapped_server_handle_request` ("Multiword Request Handling"):
`result_code`, `read_data` and the instance at its end. -/
def multiword_request_handling (P : Protocol) (inst : reg_mapped_server_inst_t)
    (msg : List Nat) : Nat × Nat × reg_mapped_server_inst_t :=
  match inst.multiword_resp_buffer with
  | none => (P.REG_MAPPED_RESULT_MULTIWORD_UNSUPPORTED, 0, inst)
  | some buf =>
    if P.flag_write (byte_at msg 0) then
      let r := reg_mapped_server_handle_multiword_write P inst (multiword_write_pkt msg)
      (r.1, 0, r.2)
    else if (read_pkt msg).count > inst.multiword_resp_buffer_max_count then
      (P.REG_MAPPED_RESULT_MULTIWORD_TOO_LARGE, 0, inst)
    else
      let r := reg_mapped_server_handle_multiword_read P inst (read_pkt msg) buf.data
      (r.1, 0, { inst with multiword_resp_buffer := some { buf with data := r.2 } })

/-- The transfer of the "Single & Bulk Requests" branch, after the bulk
request handling: performed when no bulk session is open or no bulk error is
set; otherwise `result_code` keeps its initial value. -/
def perform_transfer (P : Protocol) (cb : Callback) (inst : reg_mapped_server_inst_t)
    (msg : List Nat) : Nat × Nat × reg_mapped_server_inst_t :=
  if !inst.in_bulk_request || inst.bulk_error_code == 0 then
    if P.flag_write (byte_at msg 0) then
      let r := reg_mapped_server_handle_single_write P cb inst (write_pkt msg)
      (r.1, 0, r.2)
    else
      reg_mapped_server_handle_single_read P cb inst (read_pkt msg) 0
  else
    (P.REG_MAPPED_RESULT_MALFORMED_REQUEST, 0, inst)

/-- The branch "Single & Bulk Requests" of `reg_mapped_server_handle_request`:
`result_code`, `read_data` and the instance at its end. -/
def single_bulk_request_handling (P : Protocol) (cb : Callback)
    (inst : reg_mapped_server_inst_t) (msg : List Nat) :
    Nat × Nat × reg_mapped_server_inst_t :=
  if P.flag_bulk_req (byte_at msg 0) then
    match bulk_request_handling P inst (write_pkt msg) with
    | (some result_code, inst1) => (result_code, 0, inst1)
    | (none, inst1) => perform_transfer P cb inst1 msg
  else
    perform_transfer P cb inst msg

/-- The part of `reg_mapped_server_handle_request` between the length test
`len < 1` and the label `finish_request`, for a buffer of at least one byte:
`result_code`, `read_data` and the instance on arrival at the label. -/
def reg_mapped_server_handle_request_body (P : Protocol) (cb : Callback)
    (inst : reg_mapped_server_inst_t) (msg : List Nat) :
    Nat × Nat × reg_mapped_server_inst_t :=
  let flags := byte_at msg 0
  let request_type_write := P.flag_write flags
  let request_type_bulk := P.flag_bulk_req flags
  let request_type_bulk_end := P.flag_bulk_end flags
  let request_type_multiword := P.flag_multiword flags
  match expected_msg_len P msg with
  | none => (P.REG_MAPPED_RESULT_MALFORMED_REQUEST, 0, inst)
  | some expected =>
    if msg.length ≠ expected then
      (P.REG_MAPPED_RESULT_MALFORMED_REQUEST, 0, inst)
    else if inst.in_bulk_request && !request_type_bulk then
      (P.REG_MAPPED_RESULT_BULK_REQUEST_SEQ_ERROR, 0, { inst with in_bulk_request := false })
    else if request_type_multiword && request_type_bulk then
      (P.REG_MAPPED_RESULT_MALFORMED_REQUEST, 0, inst)
    else if request_type_bulk && !request_type_write then
      (P.REG_MAPPED_RESULT_MALFORMED_REQUEST, 0, inst)
    else if request_type_bulk_end && !request_type_bulk then
      (P.REG_MAPPED_RESULT_MALFORMED_REQUEST, 0, inst)
    else if P.flag_mode flags ≠ inst.control_interface_mode then
      (P.REG_MAPPED_RESULT_INVALID_MODE, 0, inst)
    else if request_type_multiword then
      multiword_request_handling P inst msg
    else
      single_bulk_request_handling P cb inst msg

/-- The call `inst->tx_func(...)`: the response is appended to the trace. -/
def tx_func (inst : reg_mapped_server_inst_t) (r : Response) : reg_mapped_server_inst_t :=
  { inst with tx_log := inst.tx_log ++ [r] }

/-- The part of `reg_mapped_server_handle_request` from the label
`finish_request` on. A successful multiword read with a NULL
`multiword_resp_buffer` does not occur when every error code differs from
`REG_MAPPED_RESULT_SUCCESSFUL`; the model sends an empty data part there. -/
def reg_mapped_server_finish_request (P : Protocol) (msg : List Nat) (result_code : Nat)
    (read_data : Nat) (inst : reg_mapped_server_inst_t) : reg_mapped_server_inst_t :=
  let flags := byte_at msg 0
  let request_type_write := P.flag_write flags
  let request_type_bulk := P.flag_bulk_req flags
  let request_type_bulk_end := P.flag_bulk_end flags
  let request_type_multiword := P.flag_multiword flags
  if request_type_bulk then
    if request_type_bulk_end then
      let result := if inst.bulk_error_code ≠ 0 then inst.bulk_error_code else result_code
      let inst1 := tx_func inst (Response.write_bulk_pkt result inst.bulk_last_seq_num)
      { inst1 with in_bulk_request := false }
    else if inst.bulk_error_code = 0 then
      { inst with bulk_error_code := result_code }
    else
      inst
  else
    if request_type_multiword && !request_type_write &&
        result_code == P.REG_MAPPED_RESULT_SUCCESSFUL then
      match inst.multiword_resp_buffer with
      | some buf =>
        let inst1 :=
          { inst with multiword_resp_buffer := some { buf with result := result_code } }
        tx_func inst1
          (Response.multiword_read_pkt result_code (buf.data.take (4 * (read_pkt msg).count)))
      | none => tx_func inst (Response.multiword_read_pkt result_code [])
    else if request_type_write then
      tx_func inst (Response.write_pkt result_code)
    else
      tx_func inst (Response.read_pkt result_code read_data)

/-- `reg_mapped_server_handle_request(inst, msg, len)` with `len = msg.length`:
the instance afterwards. -/
def reg_mapped_server_handle_request (P : Protocol) (cb : Callback)
    (inst : reg_mapped_server_inst_t) (msg : List Nat) : reg_mapped_server_inst_t :=
  if msg.length < 1 then
    inst
  else
    let r := reg_mapped_server_handle_request_body P cb inst msg
    reg_mapped_server_finish_request P msg r.1 r.2.1 r.2.2

/-- Handling a sequence of requests one after the other. -/
def handle_requests (P : Protocol) (cb : Callback) :
    reg_mapped_server_inst_t → List (List Nat) → reg_mapped_server_inst_t
  | inst, [] => inst
  | inst, msg :: msgs => handle_requests P cb (reg_mapped_server_handle_request P cb inst msg) msgs

/-! ## Vocabulary of the claims -/

/-- The permission of the register addressed by `page` and `offset`, or `none`
when the address names no implemented register: the page index is not below
`num_pages`, the page is unimplemented, the offset lies outside the page
(word array: `offset ≥ num_words`; byte array: `offset * 4 ≥ size`; register
array: `offset ≥ num_registers`) or the register is unimplemented. -/
def target_perm (inst : reg_mapped_server_inst_t) (page offset : Nat) : Option Perm :=
  if page ≥ inst.num_pages then none
  else
    match page_at inst page with
    | Page.mem_mapped_word perm num_words _ => if offset ≥ num_words then none else some perm
    | Page.mem_mapped_byte perm size _ => if offset * 4 ≥ size then none else some perm
    | Page.reg_mapped num_registers reg_array =>
      if offset ≥ num_registers then none
      else
        match reg_array.getD offset Register.unimplemented with
        | Register.memory perm _ => some perm
        | Register.exec perm => some perm
        | Register.unimplemented => none
    | Page.unimplemented => none

/-- An instance with one page of each kind, used to evaluate the model: page
0 a read-write word array of 3 words, page 1 a read-write byte array of 7
bytes, page 2 a register array (read-only memory, write-only memory,
read-only executable, write-only executable, unimplemented, read-write
memory), page 3 unimplemented, page 4 a read-only word array, page 5 a
write-only byte array. -/
def demo_inst : reg_mapped_server_inst_t where
  num_pages := 6
  page_array :=
    [Page.mem_mapped_word Perm.READ_WRITE 3 [10, 20, 30],
     Page.mem_mapped_byte Perm.READ_WRITE 7 [1, 2, 3, 4, 5, 6, 7],
     Page.reg_mapped 6
       [Register.memory Perm.READ_ONLY 5, Register.memory Perm.WRITE_ONLY 6,
        Register.exec Perm.READ_ONLY, Register.exec Perm.WRITE_ONLY,
        Register.unimplemented, Register.memory Perm.READ_WRITE 9],
     Page.unimplemented,
     Page.mem_mapped_word Perm.READ_ONLY 2 [7, 8],
     Page.mem_mapped_byte Perm.WRITE_ONLY 4 [0, 0, 0, 0]]
  control_interface_mode := 1
  in_bulk_request := false
  bulk_error_code := 0
  bulk_last_seq_num := 0
  multiword_resp_buffer := some { result := 0, data := [0, 0, 0, 0, 0, 0, 0, 0] }
  multiword_resp_buffer_max_count := 2
  tx_log := []
  exec_log := []

/-- A callback behaviour used to evaluate the model: every callback accepts
and a read callback delivers 77. -/
def demo_cb : Callback := fun _ _ => (true, 77)

/-- Whether the register addressed by `page` and `offset` is an executable
register of a register-array page. -/
def target_is_exec (inst : reg_mapped_server_inst_t) (page offset : Nat) : Bool :=
  match page_at inst page with
  | Page.reg_mapped _ reg_array =>
    match reg_array.getD offset Register.unimplemented with
    | Register.exec _ => true
    | _ => false
  | _ => false

/-- A correctly sized single-word write request tagged bulk that carries the
mode tag of the server and the count field `count`; `last` tells whether it is
tagged bulk-end. -/
def bulk_write_packet (P : Protocol) (inst : reg_mapped_server_inst_t) (msg : List Nat)
    (count : Nat) (last : Bool) : Prop :=
  msg.length = 8 ∧ P.flag_write (byte_at msg 0) = true ∧
  P.flag_multiword (byte_at msg 0) = false ∧ P.flag_bulk_req (byte_at msg 0) = true ∧
  P.flag_bulk_end (byte_at msg 0) = last ∧
  P.flag_mode (byte_at msg 0) = inst.control_interface_mode ∧ (write_pkt msg).count = count

/-- The write request addresses a valid writable register: an implemented
register whose permission is read-write or write-only and, when it is an
executable register, whose callback accepts the written value. -/
def valid_writable (cb : Callback) (inst : reg_mapped_server_inst_t)
    (req : reg_mapped_write_request) : Prop :=
  (target_perm inst req.page req.offset = some Perm.READ_WRITE ∨
    target_perm inst req.page req.offset = some Perm.WRITE_ONLY) ∧
  (target_is_exec inst req.page req.offset = true →
    ∀ log,
      (cb log { page := req.page, offset := req.offset, is_write := true, data := req.data }).1 =
        true)

/-- Bulk write packets not tagged bulk-end whose count fields are `c`, `c + 1`,
... in order, each addressing a valid writable register. -/
def bulk_write_packets (P : Protocol) (cb : Callback) (inst : reg_mapped_server_inst_t) :
    Nat → List (List Nat) → Prop
  | _, [] => True
  | c, msg :: msgs =>
    bulk_write_packet P inst msg c false ∧ valid_writable cb inst (write_pkt msg) ∧
      bulk_write_packets P cb inst (c + 1) msgs

/-- The instance after the single-word writes `reqs`, performed in order by
`reg_mapped_server_handle_single_write`. -/
def apply_writes (P : Protocol) (cb : Callback) :
    reg_mapped_server_inst_t → List reg_mapped_write_request → reg_mapped_server_inst_t
  | inst, [] => inst
  | inst, req :: reqs =>
    apply_writes P cb (reg_mapped_server_handle_single_write P cb inst req).2 reqs

/-- The instance with the three fields of the bulk session replaced. -/
def with_bulk (inst : reg_mapped_server_inst_t) (in_bulk_request : Bool)
    (bulk_error_code bulk_last_seq_num : Nat) : reg_mapped_server_inst_t :=
  { inst with in_bulk_request := in_bulk_request, bulk_error_code := bulk_error_code,
              bulk_last_seq_num := bulk_last_seq_num }

/-- The state of the bulk session that a bulk packet with count field `c`
continues: no session open when `c = 0`; otherwise a session open, no error
latched and `c - 1` the last sequence number. -/
def bulk_session_at (inst : reg_mapped_server_inst_t) (c : Nat) : Prop :=
  (c = 0 ∧ inst.in_bulk_request = false) ∨
  (0 < c ∧ inst.in_bulk_request = true ∧ inst.bulk_error_code = 0 ∧
    inst.bulk_last_seq_num + 1 = c)

/-- Every write of `reqs`, performed in order, returns SUCCESSFUL. -/
def writes_accepted (P : Protocol) (cb : Callback) :
    reg_mapped_server_inst_t → List reg_mapped_write_request → Prop
  | _, [] => True
  | inst, req :: reqs =>
    (reg_mapped_server_handle_single_write P cb inst req).1 = P.REG_MAPPED_RESULT_SUCCESSFUL ∧
      writes_accepted P cb (reg_mapped_server_handle_single_write P cb inst req).2 reqs

/-- A run of non-empty requests all tagged bulk, of which exactly the last is
tagged bulk-end; nothing else is asked of their content. -/
def bulk_tagged_run (P : Protocol) : List (List Nat) → Prop
  | [] => True
  | msg :: msgs =>
    msg ≠ [] ∧ P.flag_bulk_req (byte_at msg 0) = true ∧
      P.flag_bulk_end (byte_at msg 0) = msgs.isEmpty ∧ bulk_tagged_run P msgs

/-- The response of the non-bulk path for a request that is not a successful
multiword read: a write response or a single-read response with `result`. -/
def small_response (P : Protocol) (msg : List Nat) (result read_data : Nat) : Response :=
  if P.flag_write (byte_at msg 0) then Response.write_pkt result
  else Response.read_pkt result read_data

/-! ## Register-mapped client (`canmore/src/reg_mapped_client.c`)

The client reaches its transport through `clear_rx_func`, `tx_func` and
`rx_func` of its configuration. Every call of one of them is recorded, in
order, in a trace; what a call returns is given by a `Transport`, which may
depend on the calls made before. Requests and responses are kept as the
members of `reg_mapped_request_t` and `reg_mapped_response_t` that the code
fills and reads, not as bytes. -/

/-- Modelled from the spec: constants, sizes and macros of
`canmore/reg_mapped/client.h` and `canmore/reg_mapped/protocol.h`, which are
not among the sources: the page width, the client-only result codes (spec
section 6), the sizes of the multiword request and response structures and the
macros that give the largest word count fitting a scratch buffer. They are
kept abstract as the fields of this record. -/
structure ClientConsts where
  REG_MAPPED_PAGE_NUM_WORDS : Nat
  REG_MAPPED_CLIENT_RESULT_RX_CLEAR_FAIL : Int
  REG_MAPPED_CLIENT_RESULT_TX_FAIL : Int
  REG_MAPPED_CLIENT_RESULT_RX_FAIL : Int
  REG_MAPPED_CLIENT_RESULT_INVALID_ARG : Int
  REG_MAPPED_CLIENT_RESULT_MULTIWORD_ALLOC_TOO_SMALL : Int
  REG_MAPPED_CLIENT_RESULT_INVALID_BULK_COUNT : Int
  sizeof_multiword_write_request : Nat
  sizeof_multiword_read_response : Nat
  REG_MAPPED_COMPUTE_MAX_REQ_WORD_COUNT : Nat → Nat
  REG_MAPPED_COMPUTE_MAX_RESP_WORD_COUNT : Nat → Nat

/-- Modelled from the spec: one concrete set of client constants, used to
evaluate the model: a page of 256 words (offsets are one byte), negative
client-only result codes, a 4-byte multiword request header and a 1-byte
multiword response header (spec section 6), and word counts
`(len - header) / 4`. -/
def specClientConsts : ClientConsts where
  REG_MAPPED_PAGE_NUM_WORDS := 256
  REG_MAPPED_CLIENT_RESULT_RX_CLEAR_FAIL := -1
  REG_MAPPED_CLIENT_RESULT_TX_FAIL := -2
  REG_MAPPED_CLIENT_RESULT_RX_FAIL := -3
  REG_MAPPED_CLIENT_RESULT_INVALID_ARG := -4
  REG_MAPPED_CLIENT_RESULT_MULTIWORD_ALLOC_TOO_SMALL := -5
  REG_MAPPED_CLIENT_RESULT_INVALID_BULK_COUNT := -6
  sizeof_multiword_write_request := 4
  sizeof_multiword_read_response := 1
  REG_MAPPED_COMPUTE_MAX_REQ_WORD_COUNT := fun len => (len - 4) / 4
  REG_MAPPED_COMPUTE_MAX_RESP_WORD_COUNT := fun len => (len - 1) / 4

/-- The bit fields of `union reg_mapped_request_flags` as the client sets
them. -/
structure request_flags where
  write : Bool
  multiword : Bool
  bulk_req : Bool
  bulk_end : Bool
  mode : Nat
  deriving DecidableEq, Repr

/-- A request handed to the transmit function: the member of
`reg_mapped_request_t` that was filled, with its fields. The payload of a
multiword write is a list of words. -/
inductive ClientRequest where
  | read_pkt (flags : request_flags) (count page offset : Nat)
  | write_pkt (flags : request_flags) (count page offset data : Nat)
  | multiword_write_pkt (flags : request_flags) (count page offset : Nat) (data : List Nat)
  deriving DecidableEq, Repr

/-- The member of `reg_mapped_response_t` whose size a receive call asks
for; a multiword read response is asked for with its word count. -/
inductive ResponseKind where
  | read_pkt
  | write_pkt
  | write_bulk_pkt
  | multiword_read_pkt (count : Nat)
  deriving DecidableEq, Repr

/-- What a successful receive call left in the response buffer, seen through
the members of `reg_mapped_response_t` the client reads: the result byte, the
data word of a read response, the sequence number of a bulk response and the
data words of a multiword read response. -/
structure reg_mapped_response_t where
  result : Nat
  data : Nat
  seq_no : Nat
  words : List Nat
  deriving DecidableEq, Repr

/-- One call of a transport primitive. -/
inductive TransportCall where
  | clear_rx
  | tx (req : ClientRequest)
  | rx (kind : ResponseKind)
  deriving DecidableEq, Repr

/-- Behaviour of the transport: given the calls made so far, whether
`clear_rx_func` and `tx_func` succeed, and what `rx_func` delivers (`none`
when it fails). -/
structure Transport where
  clear_rx_func : List TransportCall → Bool
  tx_func : List TransportCall → ClientRequest → Bool
  rx_func : List TransportCall → ResponseKind → Option reg_mapped_response_t

/-- The transfer mode of a client: `TRANSFER_MODE_SINGLE`,
`TRANSFER_MODE_BULK`, `TRANSFER_MODE_MULTIWORD`. -/
inductive TransferMode where
  | SINGLE
  | BULK
  | MULTIWORD
  deriving DecidableEq, Repr

/-- The fields of `reg_mapped_client_cfg_t` the code reads (the three
function pointers are the `Transport`). -/
structure reg_mapped_client_cfg_t where
  control_interface_mode : Nat
  transfer_mode : TransferMode
  multiword_scratch_len : Nat
  max_in_flight : Nat
  deriving DecidableEq, Repr

/-- `reg_mapped_client_read_register`: the return value, the word behind
`data_out` afterwards and the trace afterwards. -/
def reg_mapped_client_read_register (K : ClientConsts) (P : Protocol) (T : Transport)
    (cfg : reg_mapped_client_cfg_t) (page offset data_out : Nat) (log : List TransportCall) :
    Int × Nat × List TransportCall :=
  let flags : request_flags :=
    { write := false, multiword := false, bulk_req := false, bulk_end := false, mode := cfg.control_interface_mode }
  let req := ClientRequest.read_pkt flags 0 page offset
  let log1 := log ++ [TransportCall.clear_rx]
  if !T.clear_rx_func log then
    (K.REG_MAPPED_CLIENT_RESULT_RX_CLEAR_FAIL, data_out, log1)
  else
    let log2 := log1 ++ [TransportCall.tx req]
    if !T.tx_func log1 req then
      (K.REG_MAPPED_CLIENT_RESULT_TX_FAIL, data_out, log2)
    else
      let log3 := log2 ++ [TransportCall.rx ResponseKind.read_pkt]
      match T.rx_func log2 ResponseKind.read_pkt with
      | none => (K.REG_MAPPED_CLIENT_RESULT_RX_FAIL, data_out, log3)
      | some resp =>
        if resp.result ≠ P.REG_MAPPED_RESULT_SUCCESSFUL then
          ((resp.result : Int), data_out, log3)
        else
          ((P.REG_MAPPED_RESULT_SUCCESSFUL : Int), resp.data, log3)

/-- `reg_mapped_client_write_register`: the return value and the trace
afterwards. -/
def reg_mapped_client_write_register (K : ClientConsts) (T : Transport)
    (cfg : reg_mapped_client_cfg_t) (page offset data : Nat) (log : List TransportCall) :
    Int × List TransportCall :=
  let flags : request_flags :=
    { write := true, multiword := false, bulk_req := false, bulk_end := false, mode := cfg.control_interface_mode }
  let req := ClientRequest.write_pkt flags 0 page offset data
  let log1 := log ++ [TransportCall.clear_rx]
  if !T.clear_rx_func log then
    (K.REG_MAPPED_CLIENT_RESULT_RX_CLEAR_FAIL, log1)
  else
    let log2 := log1 ++ [TransportCall.tx req]
    if !T.tx_func log1 req then
      (K.REG_MAPPED_CLIENT_RESULT_TX_FAIL, log2)
    else
      let log3 := log2 ++ [TransportCall.rx ResponseKind.write_pkt]
      match T.rx_func log2 ResponseKind.write_pkt with
      | none => (K.REG_MAPPED_CLIENT_RESULT_RX_FAIL, log3)
      | some resp => ((resp.result : Int), log3)

/-- The words `data_array[start]`, ..., `data_array[start + count - 1]`, as
read by a `memcpy` of `count` words from `&data_array[start]`. -/
def words_from (data_array : List Nat) (start count : Nat) : List Nat :=
  (List.range count).map (fun j => data_array.getD (start + j) 0)

/-- The copy `memcpy(&data_array[start], src, count * 4)` of `count` words
into a word array. -/
def copy_words (data_array : List Nat) (start : Nat) (src : List Nat) : Nat → List Nat
  | 0 => data_array
  | count + 1 => (copy_words data_array start src count).set (start + count) (src.getD count 0)

/-- The `while (remaining_words > 0)` loop of the multiword branch of
`reg_mapped_client_write_array`. The first argument bounds the number of
iterations still possible: every iteration sends at least one word
(`max_req_count ≥ 1`), the loop is entered with it equal to
`remaining_words`, and it has ended when the bound is used up. -/
def write_array_multiword_loop (K : ClientConsts) (P : Protocol) (T : Transport)
    (cfg : reg_mapped_client_cfg_t) (page max_req_count : Nat) (data_array : List Nat) :
    Nat → Nat → Nat → List TransportCall → Int × List TransportCall
  | 0, _, _, log => ((P.REG_MAPPED_RESULT_SUCCESSFUL : Int), log)
  | fuel + 1, offset, remaining_words, log =>
    if remaining_words > 0 then
      let count :=
        (if remaining_words > max_req_count then max_req_count else remaining_words) % 256
      let flags : request_flags :=
        { write := true, multiword := true, bulk_req := false, bulk_end := false, mode := cfg.control_interface_mode }
      let req := ClientRequest.multiword_write_pkt flags count page offset
        (words_from data_array offset count)
      let log1 := log ++ [TransportCall.tx req]
      if !T.tx_func log req then
        (K.REG_MAPPED_CLIENT_RESULT_TX_FAIL, log1)
      else
        let log2 := log1 ++ [TransportCall.rx ResponseKind.write_pkt]
        match T.rx_func log1 ResponseKind.write_pkt with
        | none => (K.REG_MAPPED_CLIENT_RESULT_RX_FAIL, log2)
        | some resp =>
          if resp.result ≠ P.REG_MAPPED_RESULT_SUCCESSFUL then
            ((resp.result : Int), log2)
          else
            write_array_multiword_loop K P T cfg page max_req_count data_array fuel
              ((offset + count) % 256) ((remaining_words + 256 - count) % 256) log2
    else
      ((P.REG_MAPPED_RESULT_SUCCESSFUL : Int), log)

/-- The `while (num_words--)` loop of the bulk branch of
`reg_mapped_client_write_array`: the first argument is `num_words` before the
test, `idx` is how far `data_array` has advanced, `count` and `offset` are the
fields of `req.write_pkt`. -/
def write_array_bulk_loop (K : ClientConsts) (P : Protocol) (T : Transport)
    (cfg : reg_mapped_client_cfg_t) (page : Nat) (data_array : List Nat) :
    Nat → Nat → Nat → Nat → List TransportCall → Int × List TransportCall
  | 0, _, _, _, log => ((P.REG_MAPPED_RESULT_SUCCESSFUL : Int), log)
  | num_words + 1, idx, count, offset, log =>
    let bulk_end : Bool := num_words == 0 || decide (count + 1 ≥ cfg.max_in_flight)
    let flags : request_flags :=
      { write := true, multiword := false, bulk_req := true, bulk_end := bulk_end, mode := cfg.control_interface_mode }
    let req := ClientRequest.write_pkt flags count page offset (data_array.getD idx 0)
    let log1 := log ++ [TransportCall.tx req]
    if !T.tx_func log req then
      (K.REG_MAPPED_CLIENT_RESULT_TX_FAIL, log1)
    else
      let count1 := (count + 1) % 256
      let offset1 := (offset + 1) % 256
      if bulk_end then
        let log2 := log1 ++ [TransportCall.rx ResponseKind.write_bulk_pkt]
        match T.rx_func log1 ResponseKind.write_bulk_pkt with
        | none => (K.REG_MAPPED_CLIENT_RESULT_RX_FAIL, log2)
        | some resp =>
          if resp.result ≠ P.REG_MAPPED_RESULT_SUCCESSFUL then
            ((resp.result : Int), log2)
          else if resp.seq_no + 1 ≠ count1 then
            (K.REG_MAPPED_CLIENT_RESULT_INVALID_BULK_COUNT, log2)
          else
            write_array_bulk_loop K P T cfg page data_array num_words (idx + 1) 0 offset1 log2
      else
        write_array_bulk_loop K P T cfg page data_array num_words (idx + 1) count1 offset1 log1

/-- The `for` loop of the single branch of `reg_mapped_client_write_array`:
the first argument is the number of iterations left. -/
def write_array_single_loop (K : ClientConsts) (P : Protocol) (T : Transport)
    (cfg : reg_mapped_client_cfg_t) (page : Nat) (data_array : List Nat) :
    Nat → Nat → Nat → List TransportCall → Int × List TransportCall
  | 0, _, _, log => ((P.REG_MAPPED_RESULT_SUCCESSFUL : Int), log)
  | n + 1, idx, offset, log =>
    let r := reg_mapped_client_write_register K T cfg page offset (data_array.getD idx 0) log
    if r.1 ≠ (P.REG_MAPPED_RESULT_SUCCESSFUL : Int) then r
    else write_array_single_loop K P T cfg page data_array n (idx + 1) ((offset + 1) % 256) r.2

/-- `reg_mapped_client_write_array` (`offset_start` and `num_words` are
bytes): the return value and the trace afterwards. -/
def reg_mapped_client_write_array (K : ClientConsts) (P : Protocol) (T : Transport)
    (cfg : reg_mapped_client_cfg_t) (page offset_start : Nat) (data_array : List Nat)
    (num_words : Nat) (log : List TransportCall) : Int × List TransportCall :=
  if offset_start + num_words > K.REG_MAPPED_PAGE_NUM_WORDS then
    (K.REG_MAPPED_CLIENT_RESULT_INVALID_ARG, log)
  else
    let log1 := log ++ [TransportCall.clear_rx]
    if !T.clear_rx_func log then
      (K.REG_MAPPED_CLIENT_RESULT_RX_CLEAR_FAIL, log1)
    else if cfg.transfer_mode = TransferMode.MULTIWORD then
      if cfg.multiword_scratch_len < K.sizeof_multiword_write_request then
        (K.REG_MAPPED_CLIENT_RESULT_MULTIWORD_ALLOC_TOO_SMALL, log1)
      else
        let max_req_count := K.REG_MAPPED_COMPUTE_MAX_REQ_WORD_COUNT cfg.multiword_scratch_len
        if max_req_count < 1 then
          (K.REG_MAPPED_CLIENT_RESULT_MULTIWORD_ALLOC_TOO_SMALL, log1)
        else
          write_array_multiword_loop K P T cfg page max_req_count data_array num_words
            offset_start num_words log1
    else if cfg.transfer_mode = TransferMode.BULK then
      write_array_bulk_loop K P T cfg page data_array num_words 0 0 offset_start log1
    else
      write_array_single_loop K P T cfg page data_array num_words 0 offset_start log1

/-- The `while (remaining_words > 0)` loop of the multiword branch of
`reg_mapped_client_read_array`; the first argument bounds the number of
iterations as in `write_array_multiword_loop`. Returns the return value, the
output array and the trace. -/
def read_array_multiword_loop (K : ClientConsts) (P : Protocol) (T : Transport)
    (cfg : reg_mapped_client_cfg_t) (page max_req_count : Nat) :
    Nat → Nat → Nat → List Nat → List TransportCall → Int × List Nat × List TransportCall
  | 0, _, _, data_array, log => ((P.REG_MAPPED_RESULT_SUCCESSFUL : Int), data_array, log)
  | fuel + 1, offset, remaining_words, data_array, log =>
    if remaining_words > 0 then
      let count :=
        (if remaining_words > max_req_count then max_req_count else remaining_words) % 256
      let flags : request_flags :=
        { write := false, multiword := true, bulk_req := false, bulk_end := false, mode := cfg.control_interface_mode }
      let req := ClientRequest.read_pkt flags count page offset
      let log1 := log ++ [TransportCall.tx req]
      if !T.tx_func log req then
        (K.REG_MAPPED_CLIENT_RESULT_TX_FAIL, data_array, log1)
      else
        let log2 := log1 ++ [TransportCall.rx (ResponseKind.multiword_read_pkt count)]
        match T.rx_func log1 (ResponseKind.multiword_read_pkt count) with
        | none => (K.REG_MAPPED_CLIENT_RESULT_RX_FAIL, data_array, log2)
        | some resp =>
          if resp.result ≠ P.REG_MAPPED_RESULT_SUCCESSFUL then
            ((resp.result : Int), data_array, log2)
          else
            read_array_multiword_loop K P T cfg page max_req_count fuel
              ((offset + count) % 256) ((remaining_words + 256 - count) % 256)
              (copy_words data_array offset resp.words count) log2
    else
      ((P.REG_MAPPED_RESULT_SUCCESSFUL : Int), data_array, log)

/-- The `for` loop of the single-read fallback of
`reg_mapped_client_read_array`: the first argument is the number of
iterations left, `idx` is how far `data_array` has advanced. -/
def read_array_single_loop (K : ClientConsts) (P : Protocol) (T : Transport)
    (cfg : reg_mapped_client_cfg_t) (page : Nat) :
    Nat → Nat → Nat → List Nat → List TransportCall → Int × List Nat × List TransportCall
  | 0, _, _, data_array, log => ((P.REG_MAPPED_RESULT_SUCCESSFUL : Int), data_array, log)
  | n + 1, idx, offset, data_array, log =>
    let r := reg_mapped_client_read_register K P T cfg page offset (data_array.getD idx 0) log
    if r.1 ≠ (P.REG_MAPPED_RESULT_SUCCESSFUL : Int) then
      (r.1, data_array, r.2.2)
    else
      read_array_single_loop K P T cfg page n (idx + 1) ((offset + 1) % 256)
        (data_array.set idx r.2.1) r.2.2

/-- `reg_mapped_client_read_array` (`offset_start` is a byte, `num_words` an
`unsigned int`): the return value, the output array and the trace
afterwards. The sum of the page-boundary test,
`((unsigned int) offset_start) + num_words`, is computed in `unsigned int` (32
bits) and wraps around. -/
def reg_mapped_client_read_array (K : ClientConsts) (P : Protocol) (T : Transport)
    (cfg : reg_mapped_client_cfg_t) (page offset_start : Nat) (data_array : List Nat)
    (num_words : Nat) (log : List TransportCall) : Int × List Nat × List TransportCall :=
  if (offset_start + num_words) % 2 ^ 32 > K.REG_MAPPED_PAGE_NUM_WORDS then
    (K.REG_MAPPED_CLIENT_RESULT_INVALID_ARG, data_array, log)
  else if cfg.transfer_mode = TransferMode.MULTIWORD then
    if cfg.multiword_scratch_len < K.sizeof_multiword_read_response then
      (K.REG_MAPPED_CLIENT_RESULT_MULTIWORD_ALLOC_TOO_SMALL, data_array, log)
    else
      let max_req_count := K.REG_MAPPED_COMPUTE_MAX_RESP_WORD_COUNT cfg.multiword_scratch_len
      if max_req_count < 1 then
        (K.REG_MAPPED_CLIENT_RESULT_MULTIWORD_ALLOC_TOO_SMALL, data_array, log)
      else
        read_array_multiword_loop K P T cfg page max_req_count (num_words % 256) offset_start
          (num_words % 256) data_array log
  else
    read_array_single_loop K P T cfg page num_words 0 offset_start data_array log

/-- The inner `for` loop of `reg_mapped_client_read_string_page` over the
bytes `i`, `i + 1`, ... of the word read for `word_num` (the first argument is
the number of bytes left): the value returned from inside the loop, if any,
and `str_out` afterwards. `read_data.bytes[i]` is byte `i` of the word in
memory order (little endian). -/
def read_string_bytes (max_len word_num word : Nat) :
    Nat → Nat → List Nat → Option Nat × List Nat
  | 0, _, str_out => (none, str_out)
  | n + 1, i, str_out =>
    let byte := (word_bytes word).getD i 0
    let str_offset := word_num * 4 + i
    let str_out := str_out.set str_offset byte
    if byte = 0 then
      (some str_offset, str_out)
    else
      let str_offset := str_offset + 1
      if str_offset + 1 = max_len then
        (some str_offset, str_out.set str_offset 0)
      else
        read_string_bytes max_len word_num word n (i + 1) str_out

/-- The outer `for` loop of `reg_mapped_client_read_string_page` from
`word_num` on (the first argument is the number of words left) followed by
the code after the loop: the return value, `str_out` and the trace. -/
def read_string_words (K : ClientConsts) (P : Protocol) (T : Transport)
    (cfg : reg_mapped_client_cfg_t) (page_num max_len : Nat) :
    Nat → Nat → List Nat → List TransportCall → Int × List Nat × List TransportCall
  | 0, word_num, str_out, log =>
    (((word_num * 4 : Nat) : Int), str_out.set (word_num * 4) 0, log)
  | n + 1, word_num, str_out, log =>
    let r := reg_mapped_client_read_register K P T cfg page_num (word_num % 256) 0 log
    if r.1 ≠ (P.REG_MAPPED_RESULT_SUCCESSFUL : Int) then
      ((if r.1 < 0 then r.1 else -r.1), str_out, r.2.2)
    else
      match read_string_bytes max_len word_num r.2.1 4 0 str_out with
      | (some ret, str_out1) => ((ret : Int), str_out1, r.2.2)
      | (none, str_out1) =>
        read_string_words K P T cfg page_num max_len n (word_num + 1) str_out1 r.2.2

/-- `reg_mapped_client_read_string_page`: the return value, `str_out` and the
trace afterwards. -/
def reg_mapped_client_read_string_page (K : ClientConsts) (P : Protocol) (T : Transport)
    (cfg : reg_mapped_client_cfg_t) (page_num : Nat) (str_out : List Nat) (max_len : Nat)
    (log : List TransportCall) : Int × List Nat × List TransportCall :=
  if max_len < 2 then
    (0, (if max_len > 0 then str_out.set 0 0 else str_out), log)
  else
    read_string_words K P T cfg page_num max_len K.REG_MAPPED_PAGE_NUM_WORDS 0 str_out log


/-- Whether a call of a transport primitive is a transmit call. -/
def TransportCall.is_tx : TransportCall → Bool
  | TransportCall.tx _ => true
  | _ => false

/-- The number of transmit calls at the end of a trace: the requests
transmitted since the last receive or receive-clear call. -/
def tx_since_rx (log : List TransportCall) : Nat :=
  (log.reverse.takeWhile TransportCall.is_tx).length

/-- The offset and count fields of the last transmitted request of a trace
(`(0, 0)` when nothing has been transmitted). -/
def last_tx_offset_count (log : List TransportCall) : Nat × Nat :=
  match log.reverse.find? TransportCall.is_tx with
  | some (TransportCall.tx (ClientRequest.read_pkt _ count _ offset)) => (offset, count)
  | some (TransportCall.tx (ClientRequest.write_pkt _ count _ offset _)) => (offset, count)
  | some (TransportCall.tx (ClientRequest.multiword_write_pkt _ count _ offset _)) =>
    (offset, count)
  | _ => (0, 0)

/-- A transport used to evaluate the model, behind which a server holds the
words `words` of one page: every call succeeds, every response is successful;
a read response carries the word at the offset of the last request, a
multiword read response the words from that offset on, a bulk response the
number of requests transmitted since the last receive or receive-clear call,
less one. -/
def page_transport (P : Protocol) (words : List Nat) : Transport where
  clear_rx_func := fun _ => true
  tx_func := fun _ _ => true
  rx_func := fun log _ =>
    some { result := P.REG_MAPPED_RESULT_SUCCESSFUL,
           data := words.getD (last_tx_offset_count log).1 0,
           seq_no := tx_since_rx log - 1,
           words := words_from words (last_tx_offset_count log).1 (last_tx_offset_count log).2 }

/-- A client configuration used to evaluate the model. -/
def demo_cfg (mode : TransferMode) : reg_mapped_client_cfg_t :=
  { control_interface_mode := 1, transfer_mode := mode, multiword_scratch_len := 12, max_in_flight := 2 }

/-- The trace the bulk branch of `reg_mapped_client_write_array` is to
produce for the words `words`, from the count field `count` and the register
`offset` on: one single-word write packet tagged bulk per word, for
consecutive registers; a packet is tagged bulk-end exactly when it carries the
last word or `count + 1 ≥ max_in_flight`; a response is awaited exactly after a
bulk-end packet; the count field is 0 after a bulk-end packet and otherwise
one more than on the previous packet. -/
def bulk_write_trace (cfg : reg_mapped_client_cfg_t) (page : Nat) :
    List Nat → Nat → Nat → List TransportCall
  | [], _, _ => []
  | w :: ws, count, offset =>
    let bulk_end : Bool := ws.isEmpty || decide (count + 1 ≥ cfg.max_in_flight)
    let flags : request_flags :=
      { write := true, multiword := false, bulk_req := true, bulk_end := bulk_end, mode := cfg.control_interface_mode }
    TransportCall.tx (ClientRequest.write_pkt flags count page offset w) ::
      (if bulk_end then
        TransportCall.rx ResponseKind.write_bulk_pkt :: bulk_write_trace cfg page ws 0 (offset + 1)
      else bulk_write_trace cfg page ws (count + 1) (offset + 1))

/-- Every call of the transport succeeds and every bulk response is
successful with the expected sequence number: the number of requests
transmitted since the last receive or receive-clear call, less one. -/
def acknowledges_bulk (P : Protocol) (T : Transport) : Prop :=
  (∀ log, T.clear_rx_func log = true) ∧ (∀ log req, T.tx_func log req = true) ∧
  ∀ log, ∃ resp, T.rx_func log ResponseKind.write_bulk_pkt = some resp ∧
    resp.result = P.REG_MAPPED_RESULT_SUCCESSFUL ∧ resp.seq_no = tx_since_rx log - 1

/-- Byte `p` of a page holding the words `words`, taken as the bytes of the
words 0, 1, 2, ... least significant byte first. -/
def page_byte (words : List Nat) (p : Nat) : Nat :=
  (word_bytes (words.getD (p / 4) 0)).getD (p % 4) 0

/-- Every register read of page `page` succeeds: every transport call
succeeds and the response to a read request for `offset` is successful and
carries the word of `words` at `offset`. -/
def serves_page (P : Protocol) (T : Transport) (page : Nat) (words : List Nat) : Prop :=
  (∀ log, T.clear_rx_func log = true) ∧ (∀ log req, T.tx_func log req = true) ∧
  ∀ log flags count offset, ∃ resp,
    T.rx_func (log ++ [TransportCall.tx (ClientRequest.read_pkt flags count page offset)])
      ResponseKind.read_pkt = some resp ∧
    resp.result = P.REG_MAPPED_RESULT_SUCCESSFUL ∧ resp.data = words.getD offset 0

/-- The state of `str_out` when the scan of `reg_mapped_client_read_string_page`
stands before byte `p`: the bytes before `p` are non-zero and copied, the rest
of `str_out` is untouched, and the buffer has room for one more byte and the
terminator. -/
def scan_inv (words str0 : List Nat) (max_len p : Nat) (out : List Nat) : Prop :=
  out.length = str0.length ∧ (∀ q, q < p → out.getD q 0 = page_byte words q) ∧
  (∀ q, p ≤ q → out.getD q 0 = str0.getD q 0) ∧ (∀ q, q < p → page_byte words q ≠ 0) ∧
  p + 1 < max_len

/-- What the claim says of the returned length `ret` and of `str_out`. -/
def scan_post (words str0 : List Nat) (max_len z ret : Nat) (out : List Nat) : Prop :=
  ret = min z (max_len - 1) ∧ out.length = str0.length ∧
  (∀ i, i < ret → out.getD i 0 = page_byte words i) ∧ out.getD ret 0 = 0 ∧
  (∀ i, ret < i → out.getD i 0 = str0.getD i 0)

/-! ## Remote TTY stream schedulers (`canmore_cpp/src/RemoteTTYStream.cpp`)

The two schedulers reach their owner through a callback object; every call
of it is recorded, in order, in a trace kept with the scheduler state.
Sequence numbers are `uint16_t`; bytes and stream ids are natural numbers.
An exception thrown by `write` is a value of `WriteOutcome`. Time points are
counted in ticks of the steady clock and are inputs of the operations that
read the clock. -/

/-- Modelled from the spec: `canmore_fd_len2dlc` and `canmore_fd_dlc2len` of
`canmore/msg_encoding.h`, which is not among the sources. Together they round
a length up to a valid frame size (spec section 4.4); they are kept abstract
as the fields of this record. -/
structure FrameEncoding where
  canmore_fd_len2dlc : Nat → Nat
  canmore_fd_dlc2len : Nat → Nat

/-- Modelled from the spec: one concrete frame encoding, used to evaluate the
model: the data length codes of CAN FD, whose frames carry 0 to 8, 12, 16, 20,
24, 32, 48 or 64 bytes. -/
def canfdEncoding : FrameEncoding where
  canmore_fd_len2dlc := fun len =>
    if len ≤ 8 then len else if len ≤ 12 then 9 else if len ≤ 16 then 10
    else if len ≤ 20 then 11 else if len ≤ 24 then 12 else if len ≤ 32 then 13
    else if len ≤ 48 then 14 else 15
  canmore_fd_dlc2len := fun dlc =>
    [0, 1, 2, 3, 4, 5, 6, 7, 8, 12, 16, 20, 24, 32, 48, 64].getD dlc 64

/-- One call of the transmit scheduler's callback object. -/
inductive TXCallbackCall where
  | transmitStreamPacket (streamId seqNum : Nat) (data : List Nat)
  | notifyBufferAvailable
  deriving DecidableEq, Repr

/-- The members of `RemoteTTYStreamTXScheduler` the code reads and writes:
the queue of `(stream id, bytes)` entries, the last acknowledged sequence
number, the capacity of the queue, and the trace of the calls made on
`callback`. -/
structure RemoteTTYStreamTXScheduler where
  unackedBuffer : List (Nat × List Nat)
  lastAckedSeqNum : Nat
  maxInFlight : Nat
  callback : List TXCallbackCall
  deriving DecidableEq, Repr

/-- How a call of `write` ends: it returns, or it throws one of its two
`std::logic_error`s. -/
inductive WriteOutcome where
  | returned
  | full_buffer_error
  | frame_size_error
  deriving DecidableEq, Repr

/-- The expected sequence number computed at the head of
`RemoteTTYStreamRXScheduler::checkPacket`: `lastReceivedSeqNum + 1` as a
`uint16_t`, and one more when that is 0. -/
def expectedSeqNum (lastReceivedSeqNum : Nat) : Nat :=
  let expectedSeqNum := (lastReceivedSeqNum + 1) % 65536
  if expectedSeqNum = 0 then (expectedSeqNum + 1) % 65536 else expectedSeqNum

/-- Modelled from the spec: `RemoteTTYStreamTXScheduler::spaceAvailable`, which
is defined in `canmore_cpp/RemoteTTYStream.hpp`, not among the sources. A
write fails "if the unacked buffer is already at its configured maximum". -/
def spaceAvailable (s : RemoteTTYStreamTXScheduler) : Bool :=
  decide (s.unackedBuffer.length < s.maxInFlight)

/-- Modelled from the spec: `RemoteTTYStreamTXScheduler::computeSeqNum`, which
is defined in `canmore_cpp/RemoteTTYStream.hpp`, not among the sources, for
the entry at position `position` of the queue. "Sequence numbers are assigned
as `lastAckedSeqNum + position_in_queue + 1`, modulo the sequence space,
skipping the value 0": `position + 1` steps from `lastAckedSeqNum`, each to the
next sequence number, which is never 0. -/
def computeSeqNum (lastAckedSeqNum position : Nat) : Nat :=
  Nat.iterate expectedSeqNum (position + 1) lastAckedSeqNum

/-- The `do ... while` loop of `write`, started with `endItr` at index
`endItr` of `data`: `none` when the loop returns from `write` (every byte
before `endItr` is 0), else the index of `endItr` after the loop and the
increment that follows it. -/
def write_find_end (data : List Nat) : Nat → Option Nat
  | 0 => none
  | endItr + 1 => if data.getD endItr 0 = 0 then write_find_end data endItr else some (endItr + 1)

/-- `std::vector<uint8_t>::resize(n)`: cut to `n` bytes or filled up with
zero bytes. -/
def vector_resize (v : List Nat) (n : Nat) : List Nat :=
  v.take n ++ List.replicate (n - v.length) 0

/-- `RemoteTTYStreamTXScheduler::write`: how the call ends and the scheduler
afterwards. -/
def RemoteTTYStreamTXScheduler.write (E : FrameEncoding) (s : RemoteTTYStreamTXScheduler)
    (streamId : Nat) (data : List Nat) : WriteOutcome × RemoteTTYStreamTXScheduler :=
  if !spaceAvailable s then
    (WriteOutcome.full_buffer_error, s)
  else
    match write_find_end data data.length with
    | none => (WriteOutcome.returned, s)
    | some endItr =>
      let msgSize := endItr
      let frameSize := E.canmore_fd_dlc2len (E.canmore_fd_len2dlc msgSize)
      if msgSize > frameSize then
        (WriteOutcome.frame_size_error, s)
      else
        let newEntry : Nat × List Nat := (streamId, vector_resize (data.take endItr) frameSize)
        let unackedBuffer := s.unackedBuffer ++ [newEntry]
        let seqNum := computeSeqNum s.lastAckedSeqNum (unackedBuffer.length - 1)
        (WriteOutcome.returned,
          { s with unackedBuffer := unackedBuffer,
                   callback := s.callback ++
                     [TXCallbackCall.transmitStreamPacket streamId seqNum newEntry.2] })

/-- The retransmission loop of `notifyAck` over the entries `rest` of the
queue, the first of which stands at position `position`: the calls made on
`callback`. -/
def retransmit_loop (lastAckedSeqNum : Nat) : Nat → List (Nat × List Nat) → List TXCallbackCall
  | _, [] => []
  | position, itr :: rest =>
    TXCallbackCall.transmitStreamPacket itr.1 (computeSeqNum lastAckedSeqNum position) itr.2 ::
      retransmit_loop lastAckedSeqNum (position + 1) rest

/-- The index `ackedIdx` computed by the last branch of `notifyAck`:
`seqNum - lastAckedSeqNum - 1` is computed in `int` and stored in a
`uint16_t`, which is decremented (as a `uint16_t`) when it is not below
`seqNum`. -/
def notifyAck_ackedIdx (lastAckedSeqNum seqNum : Nat) : Nat :=
  let ackedIdx := (((seqNum : Int) - (lastAckedSeqNum : Int) - 1) % 65536).toNat
  if ackedIdx ≥ seqNum then (ackedIdx + 65535) % 65536 else ackedIdx

/-- `RemoteTTYStreamTXScheduler::notifyAck`: the scheduler afterwards. -/
def RemoteTTYStreamTXScheduler.notifyAck (s : RemoteTTYStreamTXScheduler) (seqNum : Nat) :
    RemoteTTYStreamTXScheduler :=
  if seqNum = 0 then
    { s with lastAckedSeqNum := 0, unackedBuffer := [],
             callback := s.callback ++ [TXCallbackCall.notifyBufferAvailable] }
  else if seqNum = s.lastAckedSeqNum then
    { s with callback := s.callback ++ retransmit_loop s.lastAckedSeqNum 0 s.unackedBuffer }
  else
    let ackedIdx := notifyAck_ackedIdx s.lastAckedSeqNum seqNum
    let unackedBuffer :=
      if ackedIdx ≥ s.unackedBuffer.length then [] else s.unackedBuffer.drop (ackedIdx + 1)
    { s with unackedBuffer := unackedBuffer, lastAckedSeqNum := seqNum,
             callback := s.callback ++ [TXCallbackCall.notifyBufferAvailable] }

/-- The members of `RemoteTTYStreamRXScheduler` the code reads and writes:
the last received sequence number, the count of packets accepted since the
last acknowledgement, the batch threshold, the deadline of the next periodic
acknowledgement (in clock ticks), the acknowledgement interval (in
milliseconds), and the sequence numbers passed to `callback.transmitAck`, in
order. The counter is not bounded here: its type is declared in
`canmore_cpp/RemoteTTYStream.hpp`, which is not among the sources. -/
structure RemoteTTYStreamRXScheduler where
  lastReceivedSeqNum : Nat
  unackedPackets : Nat
  maxBeforeAck : Nat
  nextScheduledAck : Nat
  ackTransmitInterval : Nat
  transmitAck : List Nat
  deriving DecidableEq, Repr

/-- Modelled from the spec: `RemoteTTYStreamRXScheduler::updateNextScheduledAck`,
which is defined in `canmore_cpp/RemoteTTYStream.hpp`, not among the sources.
It "recomputes the next deadline": the time `now` read from the steady clock
plus the acknowledgement interval, `ticks_per_ms` clock ticks to the
millisecond. -/
def updateNextScheduledAck (ticks_per_ms : Nat) (s : RemoteTTYStreamRXScheduler) (now : Nat) :
    RemoteTTYStreamRXScheduler :=
  { s with nextScheduledAck := now + s.ackTransmitInterval * ticks_per_ms }

/-- `RemoteTTYStreamRXScheduler::checkPacket`: the return value and the
scheduler afterwards; `now` is the time at which the deadline is
recomputed. -/
def RemoteTTYStreamRXScheduler.checkPacket (ticks_per_ms : Nat) (s : RemoteTTYStreamRXScheduler)
    (seqNum now : Nat) : Bool × RemoteTTYStreamRXScheduler :=
  if seqNum ≠ expectedSeqNum s.lastReceivedSeqNum then
    (false, s)
  else
    let s1 := { s with lastReceivedSeqNum := seqNum, unackedPackets := s.unackedPackets + 1 }
    let s2 :=
      if s1.unackedPackets ≥ s1.maxBeforeAck then
        { s1 with unackedPackets := 0, transmitAck := s1.transmitAck ++ [seqNum] }
      else s1
    (true, updateNextScheduledAck ticks_per_ms s2 now)

/-- `RemoteTTYStreamRXScheduler::handleTimer`: the return value and the
scheduler afterwards. `now` is the time read at the head of the function,
`now_update` the time at which the deadline is recomputed; the difference of
two time points is cast to whole milliseconds by a division that drops the
remainder. -/
def RemoteTTYStreamRXScheduler.handleTimer (ticks_per_ms : Nat) (s : RemoteTTYStreamRXScheduler)
    (now now_update : Nat) : Nat × RemoteTTYStreamRXScheduler :=
  if s.nextScheduledAck ≤ now then
    let s1 := { s with transmitAck := s.transmitAck ++ [s.lastReceivedSeqNum] }
    let s2 := updateNextScheduledAck ticks_per_ms s1 now_update
    (s.ackTransmitInterval, { s2 with unackedPackets := 0 })
  else
    let ms := (s.nextScheduledAck - now) / ticks_per_ms
    (if ms > 0 then ms else 1, s)

/-- A valid frame size `f` that is the smallest one not below `m`, for the
frame sizes `valid`. -/
def smallest_frame_size (valid : Nat → Prop) (m f : Nat) : Prop :=
  valid f ∧ m ≤ f ∧ ∀ g, valid g → m ≤ g → f ≤ g

/-- The frame sizes of `canfdEncoding`. -/
def canfd_frame_size (f : Nat) : Prop :=
  f ∈ [0, 1, 2, 3, 4, 5, 6, 7, 8, 12, 16, 20, 24, 32, 48, 64]

/-- The calls `checkPacket` is made with, one after the other, from `s` on:
the scheduler afterwards. -/
def checkPackets (ticks_per_ms : Nat) (s : RemoteTTYStreamRXScheduler) :
    List (Nat × Nat) → RemoteTTYStreamRXScheduler
  | [] => s
  | (seqNum, now) :: rest =>
    checkPackets ticks_per_ms (s.checkPacket ticks_per_ms seqNum now).2 rest

/-- The sequence numbers of the calls of a run of `checkPacket` from `s` on
that return true, in order. -/
def accepted_packets (ticks_per_ms : Nat) (s : RemoteTTYStreamRXScheduler) :
    List (Nat × Nat) → List Nat
  | [] => []
  | (seqNum, now) :: rest =>
    (if (s.checkPacket ticks_per_ms seqNum now).1 then [seqNum] else []) ++
      accepted_packets ticks_per_ms (s.checkPacket ticks_per_ms seqNum now).2 rest

/-- The two functions of a frame encoding round every length up to `largest`
up to the smallest frame size of `valid` that holds it. -/
def FrameEncoding.rounds_up (E : FrameEncoding) (valid : Nat → Prop) (largest : Nat) : Prop :=
  ∀ m, m ≤ largest → smallest_frame_size valid m (E.canmore_fd_dlc2len (E.canmore_fd_len2dlc m))

/-- The sequence numbers of the entries of the queue, by position. -/
def queue_seq_nums (s : RemoteTTYStreamTXScheduler) : List Nat :=
  (List.range s.unackedBuffer.length).map (computeSeqNum s.lastAckedSeqNum)

/-- A call made on a transmit scheduler. -/
inductive TXCall where
  | write (streamId : Nat) (data : List Nat)
  | notifyAck (seqNum : Nat)
  deriving DecidableEq, Repr

/-- The scheduler after a call. -/
def tx_call (E : FrameEncoding) (s : RemoteTTYStreamTXScheduler) : TXCall → RemoteTTYStreamTXScheduler
  | TXCall.write streamId data => (s.write E streamId data).2
  | TXCall.notifyAck seqNum => s.notifyAck seqNum

/-- The sequence number of the last packet handed to `transmitStreamPacket`
in a trace, 0 when there is none. -/
def last_transmitted_seq_num (calls : List TXCallbackCall) : Nat :=
  match calls.getLast? with
  | some (TXCallbackCall.transmitStreamPacket _ seqNum _) => seqNum
  | _ => 0

/-- The sequence numbers the entries of the queue were first transmitted
with, after one call: `first_sent` holds these numbers for the entries of
`s`. An entry appended by `write` gets the number of the packet transmitted by
that call; an acknowledgement drops the numbers of the entries it removes from
the front. -/
def first_sent_call (E : FrameEncoding) (s : RemoteTTYStreamTXScheduler) (first_sent : List Nat) :
    TXCall → List Nat
  | TXCall.write streamId data =>
    if (s.write E streamId data).2.unackedBuffer.length > s.unackedBuffer.length then
      first_sent ++ [last_transmitted_seq_num (s.write E streamId data).2.callback]
    else first_sent
  | TXCall.notifyAck seqNum =>
    first_sent.drop (s.unackedBuffer.length - (s.notifyAck seqNum).unackedBuffer.length)

/-- A run of calls from `s` on: the scheduler afterwards and, for each entry
of its queue, the sequence number the entry was first transmitted with. -/
def first_sent_run (E : FrameEncoding) (s : RemoteTTYStreamTXScheduler) (first_sent : List Nat) :
    List TXCall → RemoteTTYStreamTXScheduler × List Nat
  | [] => (s, first_sent)
  | call :: rest => first_sent_run E (tx_call E s call) (first_sent_call E s first_sent call) rest

/-- The transmit scheduler as constructed: nothing queued, nothing
acknowledged. -/
def tx_init (maxInFlight : Nat) : RemoteTTYStreamTXScheduler :=
  { unackedBuffer := [], lastAckedSeqNum := 0, maxInFlight := maxInFlight, callback := [] }

/-- A receive scheduler used to evaluate the model. -/
def demo_rx (maxBeforeAck : Nat) : RemoteTTYStreamRXScheduler :=
  { lastReceivedSeqNum := 65534, unackedPackets := 0, maxBeforeAck := maxBeforeAck,
    nextScheduledAck := 5000, ackTransmitInterval := 200, transmitAck := [] }

/-! ## Vocabulary of the claims on multiword transfers -/

/-- The copy length of the byte-array branch of
`reg_mapped_server_handle_multiword_write` and
`reg_mapped_server_handle_multiword_read` for a page of `size` bytes, as it
stands after the two tests on `byte_offset + copy_len`: `none` when the
request is answered INVALID_REGISTER_ADDRESS, else `copy_len`, trimmed by the
`size_t` subtraction `size - byte_offset` when the request reaches beyond the
page. -/
def multiword_byte_copy_len (size offset count : Nat) : Option Nat :=
  let byte_offset := offset * 4
  let copy_len := count * 4
  if byte_offset + copy_len ≥ size + 4 then none
  else some (if byte_offset + copy_len > size then size_t_sub size byte_offset else copy_len)

/-- The offset in `data_out` of the word that the `memset` of the byte-array
branch of `reg_mapped_server_handle_multiword_read` clears:
`(req->count - 1) * word_size` as a `size_t`. -/
def multiword_read_clear_offset (count : Nat) : Nat :=
  size_t_sub count 1 * 4 % 2 ^ 32

/-- The count fields of the multiword read requests transmitted in a trace,
in order. -/
def multiword_read_counts : List TransportCall → List Nat
  | [] => []
  | TransportCall.tx (ClientRequest.read_pkt flags count _ _) :: log =>
    if flags.multiword then count :: multiword_read_counts log else multiword_read_counts log
  | _ :: log => multiword_read_counts log

/-- Every exchange succeeds: every transmit call succeeds and every receive
call delivers a response whose result code is SUCCESSFUL. -/
def exchanges_succeed (P : Protocol) (T : Transport) : Prop :=
  (∀ log req, T.tx_func log req = true) ∧
  ∀ log kind, ∃ resp, T.rx_func log kind = some resp ∧
    resp.result = P.REG_MAPPED_RESULT_SUCCESSFUL

/-- The `count` words carried by the payload bytes `data` of a multiword
write, word `j` held by the bytes `4 * j .. 4 * j + 3`. -/
def payload_words : Nat → List Nat → List Nat
  | 0, _ => []
  | count + 1, data => word_at data 0 :: payload_words count (data.drop 4)

/-- The single-word write requests that write the words `words` to the
registers `offset`, `offset + 1`, ... of page `page`, in order. -/
def single_write_requests (page : Nat) : Nat → List Nat → List reg_mapped_write_request
  | _, [] => []
  | offset, w :: words =>
    { count := 0, page := page, offset := offset, data := w } ::
      single_write_requests page (offset + 1) words

/-! ## Client and server joined

The requests a client transmits are handed, as bytes, to
`reg_mapped_server_handle_request`; the responses the server transmits wait,
in order, until the client receives them. -/

/-- The flags byte agrees with the flag decoders of `P` for every request
that carries the mode tag `mode`: `enc` gives a byte that the server decodes
to the flags the client set. -/
def encodes_flags (P : Protocol) (enc : request_flags → Nat) (mode : Nat) : Prop :=
  ∀ f : request_flags, f.mode = mode →
    enc f < 256 ∧ P.flag_write (enc f) = f.write ∧ P.flag_multiword (enc f) = f.multiword ∧
    P.flag_bulk_req (enc f) = f.bulk_req ∧ P.flag_bulk_end (enc f) = f.bulk_end ∧
    P.flag_mode (enc f) = f.mode

/-- Modelled from the spec: the flags byte of `specProtocol` for the flags of
a request: one bit each for `write`, `multiword`, `bulk_req`, `bulk_end` from
bit 0 on, and the mode tag in the four bits above them. -/
def spec_flags_byte (f : request_flags) : Nat :=
  (if f.write then 1 else 0) + (if f.multiword then 2 else 0) + (if f.bulk_req then 4 else 0) +
    (if f.bulk_end then 8 else 0) + 16 * (f.mode % 16)

/-- The bytes of the words of a multiword payload, in order. -/
def words_bytes : List Nat → List Nat
  | [] => []
  | w :: words => word_bytes w ++ words_bytes words

/-- Modelled from the spec: the bytes of a request as the client hands them
to `tx_func`, in the layout of `protocol.h` that `write_pkt`, `read_pkt` and
`multiword_write_pkt` read: the flags byte (given by `enc`), count, page and
offset, one byte each, then the data word or words, least significant byte
first. -/
def request_bytes (enc : request_flags → Nat) : ClientRequest → List Nat
  | ClientRequest.read_pkt flags count page offset =>
    [enc flags, count % 256, page % 256, offset % 256]
  | ClientRequest.write_pkt flags count page offset data =>
    [enc flags, count % 256, page % 256, offset % 256] ++ word_bytes data
  | ClientRequest.multiword_write_pkt flags count page offset data =>
    [enc flags, count % 256, page % 256, offset % 256] ++ words_bytes data

/-- What a receive call that asks for the member `kind` of
`reg_mapped_response_t` delivers when the response `r` of the server arrives:
the fields of `r`, or nothing when `r` is a response of another kind (its
length is not the length asked for). -/
def received (kind : ResponseKind) (r : Response) : Option reg_mapped_response_t :=
  match kind, r with
  | ResponseKind.write_pkt, Response.write_pkt result =>
    some { result := result, data := 0, seq_no := 0, words := [] }
  | ResponseKind.read_pkt, Response.read_pkt result data =>
    some { result := result, data := data, seq_no := 0, words := [] }
  | ResponseKind.write_bulk_pkt, Response.write_bulk_pkt result seq_no =>
    some { result := result, data := 0, seq_no := seq_no, words := [] }
  | ResponseKind.multiword_read_pkt count, Response.multiword_read_pkt result data =>
    some { result := result, data := 0, seq_no := 0, words := payload_words count data }
  | _, _ => none

/-- A client and a server joined by a transport: the server instance, the
responses the server has transmitted that the client has not received yet, and
for every request transmitted so far, in order, the responses the server
transmitted while it handled that request. -/
structure LinkState where
  server : reg_mapped_server_inst_t
  waiting : List Response
  answers : List (List Response)
  deriving DecidableEq, Repr

/-- One transport call of the client on a joined client and server: a
receive-clear call discards the waiting responses, a transmit call hands the
bytes of the request to `reg_mapped_server_handle_request`, a receive call
takes the oldest waiting response. -/
def link_step (P : Protocol) (cb : Callback) (enc : request_flags → Nat) (L : LinkState) :
    TransportCall → LinkState
  | TransportCall.clear_rx => { L with waiting := [] }
  | TransportCall.tx req =>
    let server1 := reg_mapped_server_handle_request P cb L.server (request_bytes enc req)
    let sent := server1.tx_log.drop L.server.tx_log.length
    { server := server1, waiting := L.waiting ++ sent, answers := L.answers ++ [sent] }
  | TransportCall.rx _ => { L with waiting := L.waiting.tail }

/-- The joined client and server after the transport calls `log`, from the
server instance `inst`. -/
def link_state (P : Protocol) (cb : Callback) (enc : request_flags → Nat)
    (inst : reg_mapped_server_inst_t) (log : List TransportCall) : LinkState :=
  log.foldl (link_step P cb enc) { server := inst, waiting := [], answers := [] }

/-- The transport of a client joined to the server instance `inst`: a
receive-clear and a transmit call succeed; a receive call delivers the oldest
waiting response, and fails when none waits (the timeout). -/
def server_transport (P : Protocol) (cb : Callback) (enc : request_flags → Nat)
    (inst : reg_mapped_server_inst_t) : Transport where
  clear_rx_func := fun _ => true
  tx_func := fun _ _ => true
  rx_func := fun log kind =>
    match (link_state P cb enc inst log).waiting with
    | [] => none
    | r :: _ => received kind r

/-- The answers a client expects for the requests transmitted in a trace,
request by request: none to a request not tagged bulk-end, and to a request
tagged bulk-end one bulk response carrying SUCCESSFUL and the sequence number
`k`, where `k + 1` is the number of requests transmitted since the previous
request tagged bulk-end; `since` is that number before the trace. -/
def expected_bulk_answers (P : Protocol) : List TransportCall → Nat → List (List Response)
  | [], _ => []
  | TransportCall.tx (ClientRequest.write_pkt flags _ _ _ _) :: log, since =>
    if flags.bulk_end then
      [Response.write_bulk_pkt P.REG_MAPPED_RESULT_SUCCESSFUL since] ::
        expected_bulk_answers P log 0
    else [] :: expected_bulk_answers P log (since + 1)
  | TransportCall.tx _ :: log, since => [] :: expected_bulk_answers P log (since + 1)
  | _ :: log, since => expected_bulk_answers P log since

/-- The joined client and server stand before a bulk packet with the count
field `count`: no response waits, `page` is a read-write word array of
`num_words` words with the memory `base_addr`, the server has the mode tag of
the client and the state of its bulk session is the one that packet
continues. -/
def link_ready (cfg : reg_mapped_client_cfg_t) (page num_words : Nat) (L : LinkState)
    (count : Nat) (base_addr : List Nat) : Prop :=
  L.waiting = [] ∧ page < L.server.num_pages ∧
  page_at L.server page = Page.mem_mapped_word Perm.READ_WRITE num_words base_addr ∧
  L.server.control_interface_mode = cfg.control_interface_mode ∧
  bulk_session_at L.server count

/-! ## Basic facts on the page table -/

theorem page_at_lt_length {inst : reg_mapped_server_inst_t} {page : Nat}
    (h : page_at inst page ≠ Page.unimplemented) : page < inst.page_array.length := by
  by_contra hlt
  apply h
  simp [page_at, List.getD_eq_getElem?_getD, List.getElem?_eq_none (Nat.le_of_not_lt hlt)]

theorem page_at_set_page_same (inst : reg_mapped_server_inst_t) {page : Nat} (p : Page)
    (h : page < inst.page_array.length) : page_at (set_page inst page p) page = p := by
  simp [page_at, set_page, List.getD_eq_getElem?_getD, List.getElem?_set, h]

theorem page_at_set_page_other (inst : reg_mapped_server_inst_t) {page other : Nat} (p : Page)
    (h : other ≠ page) : page_at (set_page inst page p) other = page_at inst other := by
  simp [page_at, set_page, List.getD_eq_getElem?_getD, List.getElem?_set, Ne.symm h]

@[simp] theorem set_page_num_pages (inst : reg_mapped_server_inst_t) (page : Nat) (p : Page) :
    (set_page inst page p).num_pages = inst.num_pages := rfl

/-! ## Frame lemmas: what each block leaves untouched -/

theorem single_write_frame (P : Protocol) (cb : Callback) (inst : reg_mapped_server_inst_t)
    (req : reg_mapped_write_request) :
    (reg_mapped_server_handle_single_write P cb inst req).2 =
      { inst with
        page_array := (reg_mapped_server_handle_single_write P cb inst req).2.page_array,
        exec_log := (reg_mapped_server_handle_single_write P cb inst req).2.exec_log } := by
  unfold reg_mapped_server_handle_single_write
  simp only
  repeat' split
  all_goals rfl

theorem single_read_frame (P : Protocol) (cb : Callback) (inst : reg_mapped_server_inst_t)
    (req : reg_mapped_read_request) (d : Nat) :
    (reg_mapped_server_handle_single_read P cb inst req d).2.2 =
      { inst with
        exec_log := (reg_mapped_server_handle_single_read P cb inst req d).2.2.exec_log } := by
  unfold reg_mapped_server_handle_single_read
  simp only
  repeat' split
  all_goals rfl

theorem multiword_write_frame (P : Protocol) (inst : reg_mapped_server_inst_t)
    (req : reg_mapped_multiword_write_request) :
    (reg_mapped_server_handle_multiword_write P inst req).2 =
      { inst with
        page_array := (reg_mapped_server_handle_multiword_write P inst req).2.page_array } := by
  unfold reg_mapped_server_handle_multiword_write
  simp only
  repeat' split
  all_goals rfl

theorem bulk_request_handling_frame (P : Protocol) (inst : reg_mapped_server_inst_t)
    (req : reg_mapped_write_request) :
    (bulk_request_handling P inst req).2 =
      { inst with
        in_bulk_request := (bulk_request_handling P inst req).2.in_bulk_request,
        bulk_error_code := (bulk_request_handling P inst req).2.bulk_error_code,
        bulk_last_seq_num := (bulk_request_handling P inst req).2.bulk_last_seq_num } := by
  unfold bulk_request_handling
  simp only
  repeat' split
  all_goals rfl

theorem multiword_request_handling_tx_log (P : Protocol) (inst : reg_mapped_server_inst_t)
    (msg : List Nat) : (multiword_request_handling P inst msg).2.2.tx_log = inst.tx_log := by
  unfold multiword_request_handling
  split
  · rfl
  · split_ifs
    · show (reg_mapped_server_handle_multiword_write P inst _).2.tx_log = _
      rw [multiword_write_frame]
    · rfl
    · rfl

theorem perform_transfer_tx_log (P : Protocol) (cb : Callback) (inst : reg_mapped_server_inst_t)
    (msg : List Nat) : (perform_transfer P cb inst msg).2.2.tx_log = inst.tx_log := by
  unfold perform_transfer
  split_ifs
  · show (reg_mapped_server_handle_single_write P cb inst _).2.tx_log = _
    rw [single_write_frame]
  · rw [single_read_frame]
  · rfl

theorem single_bulk_request_handling_tx_log (P : Protocol) (cb : Callback)
    (inst : reg_mapped_server_inst_t) (msg : List Nat) :
    (single_bulk_request_handling P cb inst msg).2.2.tx_log = inst.tx_log := by
  unfold single_bulk_request_handling
  split_ifs
  · have hf := bulk_request_handling_frame P inst (write_pkt msg)
    split
    · rename_i rc inst1 heq
      rw [heq] at hf
      simp only at hf
      show inst1.tx_log = _
      rw [hf]
    · rename_i inst1 heq
      rw [heq] at hf
      simp only at hf
      rw [perform_transfer_tx_log, hf]
  · exact perform_transfer_tx_log P cb inst msg

theorem body_tx_log (P : Protocol) (cb : Callback) (inst : reg_mapped_server_inst_t)
    (msg : List Nat) :
    (reg_mapped_server_handle_request_body P cb inst msg).2.2.tx_log = inst.tx_log := by
  unfold reg_mapped_server_handle_request_body
  simp only
  split
  · rfl
  · split_ifs
    all_goals first
      | rfl
      | exact multiword_request_handling_tx_log P inst msg
      | exact single_bulk_request_handling_tx_log P cb inst msg

theorem page_at_set_page (inst : reg_mapped_server_inst_t) (page q : Nat) (p : Page)
    (h : page < inst.page_array.length) :
    page_at (set_page inst page p) q = if q = page then p else page_at inst q := by
  split_ifs with hq
  · subst hq
    exact page_at_set_page_same inst p h
  · exact page_at_set_page_other inst p hq

theorem single_write_target (P : Protocol) (cb : Callback) (inst : reg_mapped_server_inst_t)
    (req : reg_mapped_write_request) (p o : Nat) :
    target_perm (reg_mapped_server_handle_single_write P cb inst req).2 p o =
        target_perm inst p o ∧
      target_is_exec (reg_mapped_server_handle_single_write P cb inst req).2 p o =
        target_is_exec inst p o := by
  unfold reg_mapped_server_handle_single_write
  simp only
  split
  · exact ⟨rfl, rfl⟩
  · split
    · rename_i perm n base hp
      have hlt : req.page < inst.page_array.length :=
        page_at_lt_length (by rw [hp]; exact fun h => Page.noConfusion h)
      split_ifs
      · exact ⟨rfl, rfl⟩
      · exact ⟨rfl, rfl⟩
      · simp only [target_perm, target_is_exec, set_page_num_pages, page_at_set_page inst _ _ _ hlt]
        by_cases hq : p = req.page
        · subst hq
          simp [hp]
        · simp [hq]
    · rename_i perm n base hp
      have hlt : req.page < inst.page_array.length :=
        page_at_lt_length (by rw [hp]; exact fun h => Page.noConfusion h)
      split_ifs
      · exact ⟨rfl, rfl⟩
      · exact ⟨rfl, rfl⟩
      · simp only [target_perm, target_is_exec, set_page_num_pages, page_at_set_page inst _ _ _ hlt]
        by_cases hq : p = req.page
        · subst hq
          simp [hp]
        · simp [hq]
    · rename_i n regs hp
      have hlt : req.page < inst.page_array.length :=
        page_at_lt_length (by rw [hp]; exact fun h => Page.noConfusion h)
      by_cases hoff : req.offset ≥ n
      · rw [if_pos hoff]
        exact ⟨rfl, rfl⟩
      · rw [if_neg hoff]
        cases hr : regs.getD req.offset Register.unimplemented with
        | memory perm reg =>
          simp only
          split_ifs
          · exact ⟨rfl, rfl⟩
          · simp only [target_perm, target_is_exec, set_page_num_pages,
              page_at_set_page inst _ _ _ hlt]
            by_cases hq : p = req.page
            · subst hq
              simp only [if_true, hp]
              by_cases ho : o = req.offset
              · subst ho
                have hol : req.offset < regs.length := by
                  by_contra hol
                  rw [List.getD_eq_default _ _ (Nat.le_of_not_lt hol)] at hr
                  exact Register.noConfusion hr
                have hr1 : regs[req.offset] = Register.memory perm reg := by
                  simpa [List.getD_eq_getElem?_getD, hol] using hr
                simp [List.getD_eq_getElem?_getD, List.getElem?_set, hol, hr1]
              · simp [List.getD_eq_getElem?_getD, List.getElem?_set, Ne.symm ho]
            · simp [hq]
        | exec perm =>
          simp only
          split_ifs <;> exact ⟨rfl, rfl⟩
        | unimplemented => exact ⟨rfl, rfl⟩
    · exact ⟨rfl, rfl⟩

/-! ## Bulk sessions: one packet, and a run of accepted packets -/

theorem single_write_with_bulk (P : Protocol) (cb : Callback) (inst : reg_mapped_server_inst_t)
    (req : reg_mapped_write_request) (b : Bool) (e s : Nat) :
    reg_mapped_server_handle_single_write P cb (with_bulk inst b e s) req =
      ((reg_mapped_server_handle_single_write P cb inst req).1,
        with_bulk (reg_mapped_server_handle_single_write P cb inst req).2 b e s) := by
  unfold reg_mapped_server_handle_single_write
  simp only [page_at, with_bulk]
  repeat' split
  all_goals rfl

theorem apply_writes_with_bulk (P : Protocol) (cb : Callback) (b : Bool) (e s : Nat) :
    ∀ (reqs : List reg_mapped_write_request) (inst : reg_mapped_server_inst_t),
      apply_writes P cb (with_bulk inst b e s) reqs =
        with_bulk (apply_writes P cb inst reqs) b e s
  | [], _ => rfl
  | req :: reqs, inst => by
    simp only [apply_writes, single_write_with_bulk]
    exact apply_writes_with_bulk P cb b e s reqs _

theorem valid_writable_success (P : Protocol) (cb : Callback) (inst : reg_mapped_server_inst_t)
    (req : reg_mapped_write_request) (h : valid_writable cb inst req) :
    (reg_mapped_server_handle_single_write P cb inst req).1 = P.REG_MAPPED_RESULT_SUCCESSFUL := by
  obtain ⟨hperm, hexec⟩ := h
  unfold target_perm at hperm
  unfold target_is_exec at hexec
  unfold reg_mapped_server_handle_single_write
  simp only
  by_cases hpage : req.page ≥ inst.num_pages
  · simp [hpage] at hperm
  · rw [if_neg hpage] at hperm
    rw [if_neg hpage]
    cases hp : page_at inst req.page with
    | mem_mapped_word perm n base =>
      rw [hp] at hperm
      simp only at hperm ⊢
      by_cases hoff : req.offset ≥ n
      · simp [hoff] at hperm
      · rw [if_neg hoff] at hperm
        rw [if_neg hoff]
        rcases hperm with h | h <;> · simp only [Option.some.injEq] at h; subst h; simp
    | mem_mapped_byte perm n base =>
      rw [hp] at hperm
      simp only at hperm ⊢
      by_cases hoff : req.offset * 4 ≥ n
      · simp [hoff] at hperm
      · rw [if_neg hoff] at hperm
        rw [if_neg hoff]
        rcases hperm with h | h <;> · simp only [Option.some.injEq] at h; subst h; simp
    | reg_mapped n regs =>
      rw [hp] at hperm hexec
      simp only at hperm hexec ⊢
      by_cases hoff : req.offset ≥ n
      · simp [hoff] at hperm
      · rw [if_neg hoff] at hperm
        rw [if_neg hoff]
        cases hr : regs.getD req.offset Register.unimplemented with
        | memory perm reg =>
          rw [hr] at hperm
          simp only at hperm ⊢
          rcases hperm with h | h <;> · simp only [Option.some.injEq] at h; subst h; simp
        | exec perm =>
          rw [hr] at hperm hexec
          simp only at hperm hexec ⊢
          have hc := hexec trivial inst.exec_log
          rcases hperm with h | h <;> · simp only [Option.some.injEq] at h; subst h; simp [hc]
        | unimplemented =>
          rw [hr] at hperm
          simp at hperm
    | unimplemented =>
      rw [hp] at hperm
      simp at hperm

theorem valid_writable_congr (cb : Callback) (a b : reg_mapped_server_inst_t)
    (req : reg_mapped_write_request)
    (h : ∀ p o, target_perm a p o = target_perm b p o ∧ target_is_exec a p o = target_is_exec b p o)
    (hv : valid_writable cb b req) : valid_writable cb a req := by
  unfold valid_writable at *
  rw [(h req.page req.offset).1, (h req.page req.offset).2]
  exact hv

theorem bulk_write_packets_congr (P : Protocol) (cb : Callback) (a b : reg_mapped_server_inst_t)
    (h : ∀ p o, target_perm a p o = target_perm b p o ∧ target_is_exec a p o = target_is_exec b p o)
    (hm : a.control_interface_mode = b.control_interface_mode) :
    ∀ (msgs : List (List Nat)) (c : Nat),
      bulk_write_packets P cb b c msgs → bulk_write_packets P cb a c msgs
  | [], _, _ => trivial
  | msg :: msgs, c, hb => by
    obtain ⟨h1, h2, h3⟩ := hb
    refine ⟨?_, valid_writable_congr cb a b _ h h2, bulk_write_packets_congr P cb a b h hm msgs _ h3⟩
    unfold bulk_write_packet at *
    rw [hm]
    exact h1

@[simp] theorem with_bulk_in_bulk_request (inst : reg_mapped_server_inst_t) (b : Bool)
    (e s : Nat) : (with_bulk inst b e s).in_bulk_request = b := rfl

@[simp] theorem with_bulk_bulk_error_code (inst : reg_mapped_server_inst_t) (b : Bool)
    (e s : Nat) : (with_bulk inst b e s).bulk_error_code = e := rfl

@[simp] theorem with_bulk_bulk_last_seq_num (inst : reg_mapped_server_inst_t) (b : Bool)
    (e s : Nat) : (with_bulk inst b e s).bulk_last_seq_num = s := rfl

@[simp] theorem with_bulk_tx_log (inst : reg_mapped_server_inst_t) (b : Bool)
    (e s : Nat) : (with_bulk inst b e s).tx_log = inst.tx_log := rfl

@[simp] theorem with_bulk_with_bulk (inst : reg_mapped_server_inst_t) (b b1 : Bool)
    (e s e1 s1 : Nat) : with_bulk (with_bulk inst b e s) b1 e1 s1 = with_bulk inst b1 e1 s1 := rfl

theorem bulk_request_handling_in_sequence (P : Protocol) (inst : reg_mapped_server_inst_t)
    (req : reg_mapped_write_request) (c : Nat) (hs : bulk_session_at inst c) (hc : c < 256)
    (hcount : req.count = c) :
    bulk_request_handling P inst req = (none, with_bulk inst true 0 c) := by
  unfold bulk_request_handling
  rcases hs with ⟨h0, hb⟩ | ⟨hpos, hb, he, hl⟩
  · subst h0
    simp [hb, hcount, with_bulk]
  · have hmod : (inst.bulk_last_seq_num + 1) % 256 = c := by
      rw [hl]; exact Nat.mod_eq_of_lt hc
    simp only [hb, he, hmod, hcount]
    simp only [Bool.not_true, Bool.false_eq_true, if_false, if_true, ne_eq, not_true_eq_false]
    simp only [with_bulk, ← hb, ← he]

theorem perform_transfer_write (P : Protocol) (cb : Callback) (inst : reg_mapped_server_inst_t)
    (msg : List Nat) (c : Nat) (hw : P.flag_write (byte_at msg 0) = true) :
    perform_transfer P cb (with_bulk inst true 0 c) msg =
      ((reg_mapped_server_handle_single_write P cb inst (write_pkt msg)).1, 0,
        with_bulk (reg_mapped_server_handle_single_write P cb inst (write_pkt msg)).2 true 0 c) := by
  unfold perform_transfer
  rw [single_write_with_bulk]
  simp [hw]

theorem body_bulk_write (P : Protocol) (cb : Callback) (inst : reg_mapped_server_inst_t)
    (msg : List Nat) (c : Nat) (last : Bool) (hs : bulk_session_at inst c) (hc : c < 256)
    (hm : bulk_write_packet P inst msg c last) :
    reg_mapped_server_handle_request_body P cb inst msg =
      ((reg_mapped_server_handle_single_write P cb inst (write_pkt msg)).1, 0,
        with_bulk (reg_mapped_server_handle_single_write P cb inst (write_pkt msg)).2 true 0 c) := by
  obtain ⟨hlen, hw, hmw, hbulk, hend, hmode, hcount⟩ := hm
  have hexp : expected_msg_len P msg = some 8 := by
    simp [expected_msg_len, hw, hmw]
  unfold reg_mapped_server_handle_request_body
  simp only [hexp, hlen, hw, hmw, hbulk, hmode]
  simp only [single_bulk_request_handling, hbulk,
    bulk_request_handling_in_sequence P inst (write_pkt msg) c hs hc hcount]
  simp [perform_transfer_write P cb inst msg c hw]

theorem length_not_lt_one_of_bulk_write_packet {P : Protocol} {inst : reg_mapped_server_inst_t}
    {msg : List Nat} {c : Nat} {last : Bool} (hm : bulk_write_packet P inst msg c last) :
    ¬ msg.length < 1 := by
  rw [hm.1]; decide

theorem handle_bulk_write_nonfinal (P : Protocol) (hP : P.Valid) (cb : Callback)
    (inst : reg_mapped_server_inst_t) (msg : List Nat) (c : Nat)
    (hs : bulk_session_at inst c) (hc : c < 256) (hm : bulk_write_packet P inst msg c false)
    (hv : valid_writable cb inst (write_pkt msg)) :
    reg_mapped_server_handle_request P cb inst msg =
      with_bulk (reg_mapped_server_handle_single_write P cb inst (write_pkt msg)).2 true 0 c := by
  unfold reg_mapped_server_handle_request
  rw [if_neg (length_not_lt_one_of_bulk_write_packet hm), body_bulk_write P cb inst msg c false hs hc hm]
  obtain ⟨hlen, hw, hmw, hbulk, hend, hmode, hcount⟩ := hm
  simp only [reg_mapped_server_finish_request, hbulk, hend, valid_writable_success P cb inst _ hv,
    hP.1]
  rfl

theorem handle_bulk_write_final (P : Protocol) (hP : P.Valid) (cb : Callback)
    (inst : reg_mapped_server_inst_t) (msg : List Nat) (c : Nat)
    (hs : bulk_session_at inst c) (hc : c < 256) (hm : bulk_write_packet P inst msg c true)
    (hv : valid_writable cb inst (write_pkt msg)) :
    reg_mapped_server_handle_request P cb inst msg =
      tx_func (with_bulk (reg_mapped_server_handle_single_write P cb inst (write_pkt msg)).2
        false 0 c) (Response.write_bulk_pkt P.REG_MAPPED_RESULT_SUCCESSFUL c) := by
  unfold reg_mapped_server_handle_request
  rw [if_neg (length_not_lt_one_of_bulk_write_packet hm), body_bulk_write P cb inst msg c true hs hc hm]
  obtain ⟨hlen, hw, hmw, hbulk, hend, hmode, hcount⟩ := hm
  simp only [reg_mapped_server_finish_request, hbulk, hend, valid_writable_success P cb inst _ hv,
    hP.1]
  rfl

theorem with_bulk_self (inst : reg_mapped_server_inst_t) :
    with_bulk inst inst.in_bulk_request inst.bulk_error_code inst.bulk_last_seq_num = inst := rfl

theorem target_after_write (P : Protocol) (cb : Callback) (inst : reg_mapped_server_inst_t)
    (req : reg_mapped_write_request) (b : Bool) (e s : Nat) (p o : Nat) :
    target_perm (with_bulk (reg_mapped_server_handle_single_write P cb inst req).2 b e s) p o =
        target_perm inst p o ∧
      target_is_exec (with_bulk (reg_mapped_server_handle_single_write P cb inst req).2 b e s) p o =
        target_is_exec inst p o :=
  single_write_target P cb inst req p o

theorem mode_after_write (P : Protocol) (cb : Callback) (inst : reg_mapped_server_inst_t)
    (req : reg_mapped_write_request) (b : Bool) (e s : Nat) :
    (with_bulk (reg_mapped_server_handle_single_write P cb inst req).2 b e
      s).control_interface_mode = inst.control_interface_mode := by
  show (reg_mapped_server_handle_single_write P cb inst req).2.control_interface_mode = _
  rw [single_write_frame]

theorem handle_bulk_prefix (P : Protocol) (hP : P.Valid) (cb : Callback) :
    ∀ (msgs : List (List Nat)) (c : Nat) (inst : reg_mapped_server_inst_t),
      bulk_session_at inst c → c + msgs.length ≤ 256 → bulk_write_packets P cb inst c msgs →
      bulk_session_at (handle_requests P cb inst msgs) (c + msgs.length) ∧
      ∃ b e s, handle_requests P cb inst msgs =
        with_bulk (apply_writes P cb inst (msgs.map write_pkt)) b e s
  | [], c, inst, hs, _, _ => ⟨hs, _, _, _, (with_bulk_self inst).symm⟩
  | msg :: msgs, c, inst, hs, hlen, hpk => by
    obtain ⟨hm, hv, hrest⟩ := hpk
    have hc : c < 256 := by simp only [List.length_cons] at hlen; omega
    have hstep := handle_bulk_write_nonfinal P hP cb inst msg c hs hc hm hv
    have hs1 : bulk_session_at (reg_mapped_server_handle_request P cb inst msg) (c + 1) := by
      rw [hstep]
      exact Or.inr ⟨Nat.succ_pos c, rfl, rfl, rfl⟩
    have hrest1 : bulk_write_packets P cb (reg_mapped_server_handle_request P cb inst msg)
        (c + 1) msgs := by
      rw [hstep]
      exact bulk_write_packets_congr P cb _ inst (target_after_write P cb inst _ true 0 c)
        (mode_after_write P cb inst _ true 0 c) msgs (c + 1) hrest
    have hlen1 : c + 1 + msgs.length ≤ 256 := by simp only [List.length_cons] at hlen; omega
    obtain ⟨ih1, b, e, s, ih2⟩ := handle_bulk_prefix P hP cb msgs (c + 1)
      (reg_mapped_server_handle_request P cb inst msg) hs1 hlen1 hrest1
    refine ⟨?_, b, e, s, ?_⟩
    · have : c + (msg :: msgs).length = c + 1 + msgs.length := by
        simp only [List.length_cons]; omega
      rw [this]
      exact ih1
    · show handle_requests P cb (reg_mapped_server_handle_request P cb inst msg) msgs = _
      rw [ih2, hstep, apply_writes_with_bulk]
      rfl

theorem handle_requests_append (P : Protocol) (cb : Callback) :
    ∀ (a b : List (List Nat)) (inst : reg_mapped_server_inst_t),
      handle_requests P cb inst (a ++ b) = handle_requests P cb (handle_requests P cb inst a) b
  | [], _, _ => rfl
  | m :: a, b, inst => handle_requests_append P cb a b (reg_mapped_server_handle_request P cb inst m)

theorem apply_writes_append (P : Protocol) (cb : Callback) :
    ∀ (a b : List reg_mapped_write_request) (inst : reg_mapped_server_inst_t),
      apply_writes P cb inst (a ++ b) = apply_writes P cb (apply_writes P cb inst a) b
  | [], _, _ => rfl
  | r :: a, b, inst =>
    apply_writes_append P cb a b (reg_mapped_server_handle_single_write P cb inst r).2

theorem apply_writes_frame (P : Protocol) (cb : Callback) :
    ∀ (reqs : List reg_mapped_write_request) (inst : reg_mapped_server_inst_t),
      apply_writes P cb inst reqs =
        { inst with page_array := (apply_writes P cb inst reqs).page_array,
                    exec_log := (apply_writes P cb inst reqs).exec_log }
  | [], _ => rfl
  | r :: reqs, inst => by
    have h := apply_writes_frame P cb reqs (reg_mapped_server_handle_single_write P cb inst r).2
    have h1 := single_write_frame P cb inst r
    simp only [apply_writes]
    rw [h, h1]

theorem apply_writes_target (P : Protocol) (cb : Callback) :
    ∀ (reqs : List reg_mapped_write_request) (inst : reg_mapped_server_inst_t) (p o : Nat),
      target_perm (apply_writes P cb inst reqs) p o = target_perm inst p o ∧
        target_is_exec (apply_writes P cb inst reqs) p o = target_is_exec inst p o
  | [], _, _, _ => ⟨rfl, rfl⟩
  | r :: reqs, inst, p, o => by
    have h := apply_writes_target P cb reqs (reg_mapped_server_handle_single_write P cb inst r).2 p o
    have h1 := single_write_target P cb inst r p o
    simp only [apply_writes]
    exact ⟨h.1.trans h1.1, h.2.trans h1.2⟩

theorem writes_accepted_of_valid_writable (P : Protocol) (cb : Callback) :
    ∀ (reqs : List reg_mapped_write_request) (inst : reg_mapped_server_inst_t),
      (∀ r ∈ reqs, valid_writable cb inst r) → writes_accepted P cb inst reqs
  | [], _, _ => trivial
  | r :: reqs, inst, h => by
    refine ⟨valid_writable_success P cb inst r (h r (List.mem_cons_self _ _)), ?_⟩
    apply writes_accepted_of_valid_writable P cb reqs
    intro r1 hr1
    exact valid_writable_congr cb _ inst r1 (single_write_target P cb inst r)
      (h r1 (List.mem_cons_of_mem _ hr1))

theorem valid_writable_of_bulk_write_packets (P : Protocol) (cb : Callback)
    (inst : reg_mapped_server_inst_t) :
    ∀ (msgs : List (List Nat)) (c : Nat), bulk_write_packets P cb inst c msgs →
      ∀ r ∈ msgs.map write_pkt, valid_writable cb inst r
  | [], _, _, r, hr => by simp at hr
  | m :: msgs, c, h, r, hr => by
    obtain ⟨_, hv, hrest⟩ := h
    simp only [List.map_cons, List.mem_cons] at hr
    rcases hr with hr | hr
    · rw [hr]; exact hv
    · exact valid_writable_of_bulk_write_packets P cb inst msgs (c + 1) hrest r hr

theorem bulk_write_packets_take (P : Protocol) (cb : Callback) (inst : reg_mapped_server_inst_t) :
    ∀ (msgs : List (List Nat)) (c j : Nat), bulk_write_packets P cb inst c msgs →
      bulk_write_packets P cb inst c (msgs.take j)
  | [], _, _, _ => by simp [bulk_write_packets]
  | _ :: _, _, 0, _ => by simp [bulk_write_packets]
  | m :: msgs, c, j + 1, h => by
    obtain ⟨h1, h2, h3⟩ := h
    exact ⟨h1, h2, bulk_write_packets_take P cb inst msgs (c + 1) j h3⟩

/-! ## Bulk sessions: a latched error, a skipped count -/

theorem body_latched (P : Protocol) (cb : Callback) (inst : reg_mapped_server_inst_t)
    (msg : List Nat) (hb : inst.in_bulk_request = true) (he : inst.bulk_error_code ≠ 0)
    (hbulk : P.flag_bulk_req (byte_at msg 0) = true) :
    (reg_mapped_server_handle_request_body P cb inst msg).2.2 = inst := by
  unfold reg_mapped_server_handle_request_body
  simp only [hbulk, hb]
  split
  · rfl
  · split_ifs
    · rfl
    · rename_i h
      simp at h
    · rfl
    · rfl
    · rfl
    · rfl
    · rename_i h1 h2 h3 h4 h5
      simp [h5] at h1
    · simp [single_bulk_request_handling, hbulk, bulk_request_handling, hb, he, perform_transfer]

theorem handle_latched_nonfinal (P : Protocol) (cb : Callback) (inst : reg_mapped_server_inst_t)
    (msg : List Nat) (hb : inst.in_bulk_request = true) (he : inst.bulk_error_code ≠ 0)
    (hbulk : P.flag_bulk_req (byte_at msg 0) = true)
    (hend : P.flag_bulk_end (byte_at msg 0) = false) :
    reg_mapped_server_handle_request P cb inst msg = inst := by
  unfold reg_mapped_server_handle_request
  split_ifs
  · rfl
  · simp only [reg_mapped_server_finish_request, hbulk, hend, body_latched P cb inst msg hb he hbulk]
    simp [he]

theorem handle_latched_final (P : Protocol) (cb : Callback) (inst : reg_mapped_server_inst_t)
    (msg : List Nat) (hne : msg ≠ []) (hb : inst.in_bulk_request = true)
    (he : inst.bulk_error_code ≠ 0) (hbulk : P.flag_bulk_req (byte_at msg 0) = true)
    (hend : P.flag_bulk_end (byte_at msg 0) = true) :
    reg_mapped_server_handle_request P cb inst msg =
      tx_func (with_bulk inst false inst.bulk_error_code inst.bulk_last_seq_num)
        (Response.write_bulk_pkt inst.bulk_error_code inst.bulk_last_seq_num) := by
  have hlen : ¬ msg.length < 1 := by
    cases msg with
    | nil => exact absurd rfl hne
    | cons a l => simp
  unfold reg_mapped_server_handle_request
  rw [if_neg hlen]
  simp only [reg_mapped_server_finish_request, hbulk, hend, body_latched P cb inst msg hb he hbulk]
  simp [he]
  rfl

theorem handle_latched_run (P : Protocol) (cb : Callback) :
    ∀ (msgs : List (List Nat)) (inst : reg_mapped_server_inst_t),
      inst.in_bulk_request = true → inst.bulk_error_code ≠ 0 → bulk_tagged_run P msgs →
      msgs ≠ [] →
      handle_requests P cb inst msgs.dropLast = inst ∧
      handle_requests P cb inst msgs =
        tx_func (with_bulk inst false inst.bulk_error_code inst.bulk_last_seq_num)
          (Response.write_bulk_pkt inst.bulk_error_code inst.bulk_last_seq_num)
  | [], _, _, _, _, hne => absurd rfl hne
  | [msg], inst, hb, he, hrun, _ => by
    obtain ⟨hne, hbulk, hend, _⟩ := hrun
    exact ⟨rfl, handle_latched_final P cb inst msg hne hb he hbulk hend⟩
  | msg :: m2 :: msgs, inst, hb, he, hrun, _ => by
    obtain ⟨hne, hbulk, hend, hrest⟩ := hrun
    have hstep := handle_latched_nonfinal P cb inst msg hb he hbulk hend
    have ih := handle_latched_run P cb (m2 :: msgs) inst hb he hrest (by simp)
    constructor
    · show handle_requests P cb (reg_mapped_server_handle_request P cb inst msg)
        (m2 :: msgs).dropLast = inst
      rw [hstep]
      exact ih.1
    · show handle_requests P cb (reg_mapped_server_handle_request P cb inst msg)
        (m2 :: msgs) = _
      rw [hstep]
      exact ih.2

theorem body_bulk_skip (P : Protocol) (cb : Callback) (inst : reg_mapped_server_inst_t)
    (msg : List Nat) (k c : Nat) (last : Bool) (hs : bulk_session_at inst k) (hk0 : 0 < k)
    (hk : k < 256) (hm : bulk_write_packet P inst msg c last) (hc : c ≠ k) :
    reg_mapped_server_handle_request_body P cb inst msg =
      (P.REG_MAPPED_RESULT_BULK_REQUEST_SEQ_ERROR, 0, with_bulk inst true 0 k) := by
  obtain ⟨hlen, hw, hmw, hbulk, hend, hmode, hcount⟩ := hm
  have hexp : expected_msg_len P msg = some 8 := by
    simp [expected_msg_len, hw, hmw]
  rcases hs with ⟨h0, _⟩ | ⟨_, hb, he, hl⟩
  · omega
  · have hmod : (inst.bulk_last_seq_num + 1) % 256 = k := by
      rw [hl]; exact Nat.mod_eq_of_lt hk
    unfold reg_mapped_server_handle_request_body
    simp only [hexp, hlen, hw, hmw, hbulk, hmode]
    simp only [single_bulk_request_handling, hbulk, bulk_request_handling, hb, he, hmod, hcount]
    simp only [Bool.not_true, Bool.false_eq_true, if_false, if_true, ne_eq, not_true_eq_false,
      hc, not_false_eq_true, Bool.and_false, Bool.and_true, Bool.and_self]
    simp only [with_bulk, ← hb, ← he]

theorem handle_bulk_skip_nonfinal (P : Protocol) (cb : Callback)
    (inst : reg_mapped_server_inst_t) (msg : List Nat) (k c : Nat)
    (hs : bulk_session_at inst k) (hk0 : 0 < k) (hk : k < 256)
    (hm : bulk_write_packet P inst msg c false) (hc : c ≠ k) :
    reg_mapped_server_handle_request P cb inst msg =
      with_bulk inst true P.REG_MAPPED_RESULT_BULK_REQUEST_SEQ_ERROR k := by
  unfold reg_mapped_server_handle_request
  rw [if_neg (length_not_lt_one_of_bulk_write_packet hm),
    body_bulk_skip P cb inst msg k c false hs hk0 hk hm hc]
  obtain ⟨hlen, hw, hmw, hbulk, hend, hmode, hcount⟩ := hm
  simp only [reg_mapped_server_finish_request, hbulk, hend]
  rfl

theorem handle_bulk_skip_final (P : Protocol) (cb : Callback)
    (inst : reg_mapped_server_inst_t) (msg : List Nat) (k c : Nat)
    (hs : bulk_session_at inst k) (hk0 : 0 < k) (hk : k < 256)
    (hm : bulk_write_packet P inst msg c true) (hc : c ≠ k) :
    reg_mapped_server_handle_request P cb inst msg =
      tx_func (with_bulk inst false 0 k)
        (Response.write_bulk_pkt P.REG_MAPPED_RESULT_BULK_REQUEST_SEQ_ERROR k) := by
  unfold reg_mapped_server_handle_request
  rw [if_neg (length_not_lt_one_of_bulk_write_packet hm),
    body_bulk_skip P cb inst msg k c true hs hk0 hk hm hc]
  obtain ⟨hlen, hw, hmw, hbulk, hend, hmode, hcount⟩ := hm
  simp only [reg_mapped_server_finish_request, hbulk, hend]
  rfl

theorem handle_latched_prefix (P : Protocol) (cb : Callback) :
    ∀ (msgs : List (List Nat)) (inst : reg_mapped_server_inst_t) (j : Nat),
      inst.in_bulk_request = true → inst.bulk_error_code ≠ 0 → bulk_tagged_run P msgs →
      j < msgs.length → handle_requests P cb inst (msgs.take j) = inst
  | [], _, _, _, _, _, hj => by simp at hj
  | _ :: _, _, 0, _, _, _, _ => rfl
  | msg :: msgs, inst, j + 1, hb, he, hrun, hj => by
    obtain ⟨_, hbulk, hend, hrest⟩ := hrun
    have hj1 : j < msgs.length := by simpa using hj
    have hne : msgs ≠ [] := by
      intro h; rw [h] at hj1; simp at hj1
    have hend1 : P.flag_bulk_end (byte_at msg 0) = false := by
      rw [hend]; cases msgs with
      | nil => exact absurd rfl hne
      | cons a l => rfl
    show handle_requests P cb (reg_mapped_server_handle_request P cb inst msg) (msgs.take j) = inst
    rw [handle_latched_nonfinal P cb inst msg hb he hbulk hend1]
    exact handle_latched_prefix P cb msgs inst j hb he hrest hj1

theorem perform_transfer_bulk_fields (P : Protocol) (cb : Callback)
    (inst : reg_mapped_server_inst_t) (msg : List Nat) :
    (perform_transfer P cb inst msg).2.2.in_bulk_request = inst.in_bulk_request ∧
    (perform_transfer P cb inst msg).2.2.bulk_error_code = inst.bulk_error_code ∧
    (perform_transfer P cb inst msg).2.2.bulk_last_seq_num = inst.bulk_last_seq_num := by
  unfold perform_transfer
  split_ifs
  · show (reg_mapped_server_handle_single_write P cb inst _).2.in_bulk_request = _ ∧
      (reg_mapped_server_handle_single_write P cb inst _).2.bulk_error_code = _ ∧
      (reg_mapped_server_handle_single_write P cb inst _).2.bulk_last_seq_num = _
    rw [single_write_frame]
    exact ⟨rfl, rfl, rfl⟩
  · rw [single_read_frame]
    exact ⟨rfl, rfl, rfl⟩
  · exact ⟨rfl, rfl, rfl⟩

theorem body_no_error_latched (P : Protocol) (cb : Callback) (inst : reg_mapped_server_inst_t)
    (msg : List Nat) (hbulk : P.flag_bulk_req (byte_at msg 0) = true)
    (hsession : (reg_mapped_server_handle_request_body P cb inst msg).2.2.in_bulk_request = true)
    (hclean : inst.in_bulk_request = true → inst.bulk_error_code = 0) :
    (reg_mapped_server_handle_request_body P cb inst msg).2.2.bulk_error_code = 0 := by
  unfold reg_mapped_server_handle_request_body at hsession ⊢
  simp only [hbulk] at hsession ⊢
  split at hsession
  · exact hclean hsession
  · split_ifs at hsession ⊢
    all_goals try exact hclean hsession
    · rename_i h1 h2 h3 h4 h5
      simp [h5] at h1
    · unfold single_bulk_request_handling at hsession ⊢
      simp only [hbulk, if_true] at hsession ⊢
      unfold bulk_request_handling at hsession ⊢
      by_cases hb : inst.in_bulk_request = true
      · have he := hclean hb
        simp only [hb, he, Bool.not_true, Bool.false_eq_true, if_false, if_true] at hsession ⊢
        split_ifs at hsession ⊢
        · rfl
        · simp only
          rw [(perform_transfer_bulk_fields P cb _ msg).2.1]
      · simp only [hb, Bool.not_false, if_true] at hsession ⊢
        simp only [Bool.not_eq_true] at hb
        split_ifs at hsession ⊢
        · simp [hb] at hsession
        · simp only
          rw [(perform_transfer_bulk_fields P cb _ msg).2.1]

/-! ## The non-bulk response path -/

theorem finish_request_small (P : Protocol) (msg : List Nat) (result read_data : Nat)
    (inst : reg_mapped_server_inst_t) (hbulk : P.flag_bulk_req (byte_at msg 0) = false)
    (hres : result ≠ P.REG_MAPPED_RESULT_SUCCESSFUL) :
    reg_mapped_server_finish_request P msg result read_data inst =
      tx_func inst (small_response P msg result read_data) := by
  unfold reg_mapped_server_finish_request small_response
  simp only [hbulk, Bool.false_eq_true, if_false]
  have : (result == P.REG_MAPPED_RESULT_SUCCESSFUL) = false := by simpa using hres
  simp only [this, Bool.and_false, Bool.false_eq_true, if_false]
  split_ifs <;> rfl

theorem length_not_lt_one_of_ne_nil {msg : List Nat} (hne : msg ≠ []) : ¬ msg.length < 1 := by
  cases msg with
  | nil => exact absurd rfl hne
  | cons a l => simp

/-! ## Single-word access: round trip, permissions, addresses -/

/-- Claim C1. On a read-write word-array page, for every offset below
`num_words` (the backing array holding that many words) and every value `v`: a
single-word write of `v` returns SUCCESSFUL; a following single-word read of
the same offset returns SUCCESSFUL with data `v` and changes nothing; every
other word of the page, every other page and every other field of the instance
are as before the write. -/
theorem single_write_read_round_trip (P : Protocol) (cb : Callback)
    (inst : reg_mapped_server_inst_t) (page offset v count num_words : Nat)
    (base_addr : List Nat)
    (hpage : page < inst.num_pages)
    (hp : page_at inst page = Page.mem_mapped_word Perm.READ_WRITE num_words base_addr)
    (hoff : offset < num_words) (hlen : num_words ≤ base_addr.length) :
    let w := reg_mapped_server_handle_single_write P cb inst
      { count := count, page := page, offset := offset, data := v }
    w.1 = P.REG_MAPPED_RESULT_SUCCESSFUL ∧
    (∀ c d, reg_mapped_server_handle_single_read P cb w.2
        { count := c, page := page, offset := offset } d =
      (P.REG_MAPPED_RESULT_SUCCESSFUL, v, w.2)) ∧
    (∃ base1, page_at w.2 page = Page.mem_mapped_word Perm.READ_WRITE num_words base1 ∧
      base1.length = base_addr.length ∧ base1.getD offset 0 = v ∧
      ∀ j, j ≠ offset → base1.getD j 0 = base_addr.getD j 0) ∧
    (∀ q, q ≠ page → page_at w.2 q = page_at inst q) ∧
    w.2 = { inst with page_array := w.2.page_array } := by
  have hlt : page < inst.page_array.length :=
    page_at_lt_length (by rw [hp]; exact fun h => Page.noConfusion h)
  have hol : offset < base_addr.length := Nat.lt_of_lt_of_le hoff hlen
  have hw : reg_mapped_server_handle_single_write P cb inst
      { count := count, page := page, offset := offset, data := v } =
      (P.REG_MAPPED_RESULT_SUCCESSFUL, set_page inst page
        (Page.mem_mapped_word Perm.READ_WRITE num_words (base_addr.set offset v))) := by
    simp [reg_mapped_server_handle_single_write, hp, Nat.not_le.mpr hpage, Nat.not_le.mpr hoff]
  intro w
  rw [show w = _ from hw]
  have hp1 := page_at_set_page_same inst
    (Page.mem_mapped_word Perm.READ_WRITE num_words (base_addr.set offset v)) hlt
  refine ⟨rfl, ?_, ⟨base_addr.set offset v, hp1, by simp, ?_, ?_⟩, ?_, rfl⟩
  · intro c d
    simp [reg_mapped_server_handle_single_read, hp1, Nat.not_le.mpr hpage,
      Nat.not_le.mpr hoff, List.getD_eq_getElem?_getD, List.getElem?_set, hol]
  · simp [List.getD_eq_getElem?_getD, List.getElem?_set, hol]
  · intro j hj
    simp [List.getD_eq_getElem?_getD, List.getElem?_set, Ne.symm hj]
  · intro q hq
    exact page_at_set_page_other inst _ hq

/-- Witness of claim C1: the last word (offset 2) of the 3-word page 0 of
`demo_inst`. -/
theorem single_write_read_round_trip_witness :
    (0 < demo_inst.num_pages ∧
      page_at demo_inst 0 = Page.mem_mapped_word Perm.READ_WRITE 3 [10, 20, 30]) ∧
    (reg_mapped_server_handle_single_write specProtocol demo_cb demo_inst
      { count := 0, page := 0, offset := 2, data := 4000000000 }).1 = 0 :=
  ⟨⟨by decide, by rfl⟩,
    (single_write_read_round_trip specProtocol demo_cb demo_inst 0 2 4000000000 0 3 [10, 20, 30]
      (by decide) (by rfl) (by decide) (by decide)).1⟩

/-- Claim C2. For every page kind and every in-range offset (`target_perm`
gives the permission of the addressed word, byte-array word, memory register
or executable register): a single-word write to a read-only target and a
single-word read of a write-only target return INVALID_REGISTER_MODE and leave
the whole instance as it was; page memory is unchanged and no callback has
been invoked (`exec_log` is part of the instance). -/
theorem permission_violation_rejected (P : Protocol) (cb : Callback)
    (inst : reg_mapped_server_inst_t) (page offset : Nat) :
    (target_perm inst page offset = some Perm.READ_ONLY →
      ∀ count v, reg_mapped_server_handle_single_write P cb inst
          { count := count, page := page, offset := offset, data := v } =
        (P.REG_MAPPED_RESULT_INVALID_REGISTER_MODE, inst)) ∧
    (target_perm inst page offset = some Perm.WRITE_ONLY →
      ∀ count d, reg_mapped_server_handle_single_read P cb inst
          { count := count, page := page, offset := offset } d =
        (P.REG_MAPPED_RESULT_INVALID_REGISTER_MODE, d, inst)) := by
  constructor
  · intro h count v
    unfold target_perm at h
    unfold reg_mapped_server_handle_single_write
    simp only
    split at h
    · exact absurd h (by simp)
    · rename_i hpage
      rw [if_neg hpage]
      split at h
      · split at h
        · exact absurd h (by simp)
        · rename_i hoff
          simp only [Option.some.injEq] at h
          subst h
          simp [hoff]
      · split at h
        · exact absurd h (by simp)
        · rename_i hoff
          simp only [Option.some.injEq] at h
          subst h
          simp [hoff]
      · split at h
        · exact absurd h (by simp)
        · rename_i hoff
          rw [if_neg hoff]
          split at h
          · simp only [Option.some.injEq] at h
            subst h
            simp
          · simp only [Option.some.injEq] at h
            subst h
            simp
          · exact absurd h (by simp)
      · exact absurd h (by simp)
  · intro h count d
    unfold target_perm at h
    unfold reg_mapped_server_handle_single_read
    simp only
    split at h
    · exact absurd h (by simp)
    · rename_i hpage
      rw [if_neg hpage]
      split at h
      · split at h
        · exact absurd h (by simp)
        · rename_i hoff
          simp only [Option.some.injEq] at h
          subst h
          simp [hoff]
      · split at h
        · exact absurd h (by simp)
        · rename_i hoff
          simp only [Option.some.injEq] at h
          subst h
          simp [hoff]
      · split at h
        · exact absurd h (by simp)
        · rename_i hoff
          rw [if_neg hoff]
          split at h
          · simp only [Option.some.injEq] at h
            subst h
            simp
          · simp only [Option.some.injEq] at h
            subst h
            simp
          · exact absurd h (by simp)
      · exact absurd h (by simp)

/-- Witness of claim C2: in `demo_inst`, a write to the read-only executable
register (page 2, offset 2) and a read of the write-only executable register
(page 2, offset 3). -/
theorem permission_violation_rejected_witness :
    (target_perm demo_inst 2 2 = some Perm.READ_ONLY ∧
      reg_mapped_server_handle_single_write specProtocol demo_cb demo_inst
        { count := 0, page := 2, offset := 2, data := 5 } = (2, demo_inst)) ∧
    (target_perm demo_inst 2 3 = some Perm.WRITE_ONLY ∧
      reg_mapped_server_handle_single_read specProtocol demo_cb demo_inst
        { count := 0, page := 2, offset := 3 } 0 = (2, 0, demo_inst)) :=
  ⟨⟨by rfl, (permission_violation_rejected specProtocol demo_cb demo_inst 2 2).1 (by rfl) 0 5⟩,
    ⟨by rfl, (permission_violation_rejected specProtocol demo_cb demo_inst 2 3).2 (by rfl) 0 0⟩⟩

/-- Claim C3. A single-word read or write returns INVALID_REGISTER_ADDRESS and
leaves the whole instance (page memory, callback trace) as it was whenever the
address names no implemented register (`target_perm` is `none`: page index not
below `num_pages`, unimplemented page, offset outside the page, unimplemented
register), whatever permission the page or register has; and a multiword write
or read returns INVALID_REGISTER_ADDRESS, changing neither the instance nor
the output buffer, for every register-array page and every unimplemented
page. -/
theorem invalid_address_rejected (P : Protocol) (cb : Callback)
    (inst : reg_mapped_server_inst_t) (page offset : Nat) :
    (target_perm inst page offset = none →
      (∀ count v, reg_mapped_server_handle_single_write P cb inst
          { count := count, page := page, offset := offset, data := v } =
        (P.REG_MAPPED_RESULT_INVALID_REGISTER_ADDRESS, inst)) ∧
      (∀ count d, reg_mapped_server_handle_single_read P cb inst
          { count := count, page := page, offset := offset } d =
        (P.REG_MAPPED_RESULT_INVALID_REGISTER_ADDRESS, d, inst))) ∧
    (((∃ n regs, page_at inst page = Page.reg_mapped n regs) ∨
        page_at inst page = Page.unimplemented) →
      (∀ count data, reg_mapped_server_handle_multiword_write P inst
          { count := count, page := page, offset := offset, data := data } =
        (P.REG_MAPPED_RESULT_INVALID_REGISTER_ADDRESS, inst)) ∧
      (∀ count data_out, reg_mapped_server_handle_multiword_read P inst
          { count := count, page := page, offset := offset } data_out =
        (P.REG_MAPPED_RESULT_INVALID_REGISTER_ADDRESS, data_out))) := by
  constructor
  · intro h
    unfold target_perm at h
    constructor
    · intro count v
      unfold reg_mapped_server_handle_single_write
      simp only
      split at h
      · rename_i hpage
        rw [if_pos hpage]
      · rename_i hpage
        rw [if_neg hpage]
        split at h
        · split at h
          · rename_i hoff
            simp [hoff]
          · exact absurd h (by simp)
        · split at h
          · rename_i hoff
            simp [hoff]
          · exact absurd h (by simp)
        · split at h
          · rename_i hoff
            simp [hoff]
          · rename_i hoff
            rw [if_neg hoff]
            split at h
            · exact absurd h (by simp)
            · exact absurd h (by simp)
            · simp
        · simp
    · intro count d
      unfold reg_mapped_server_handle_single_read
      simp only
      split at h
      · rename_i hpage
        rw [if_pos hpage]
      · rename_i hpage
        rw [if_neg hpage]
        split at h
        · split at h
          · rename_i hoff
            simp [hoff]
          · exact absurd h (by simp)
        · split at h
          · rename_i hoff
            simp [hoff]
          · exact absurd h (by simp)
        · split at h
          · rename_i hoff
            simp [hoff]
          · rename_i hoff
            rw [if_neg hoff]
            split at h
            · exact absurd h (by simp)
            · exact absurd h (by simp)
            · simp
        · simp
  · intro h
    constructor
    · intro count data
      unfold reg_mapped_server_handle_multiword_write
      simp only
      split
      · rfl
      · rcases h with ⟨n, regs, h⟩ | h <;> simp [h]
    · intro count data_out
      unfold reg_mapped_server_handle_multiword_read
      simp only
      split
      · rfl
      · rcases h with ⟨n, regs, h⟩ | h <;> simp [h]

/-- Witness of claim C3: in `demo_inst`, the unimplemented register (page 2,
offset 4) for single access, and the register-array page 2 for multiword
access. -/
theorem invalid_address_rejected_witness :
    (target_perm demo_inst 2 4 = none ∧
      reg_mapped_server_handle_single_write specProtocol demo_cb demo_inst
        { count := 0, page := 2, offset := 4, data := 5 } = (1, demo_inst)) ∧
    (page_at demo_inst 2 = Page.reg_mapped 6
        [Register.memory Perm.READ_ONLY 5, Register.memory Perm.WRITE_ONLY 6,
          Register.exec Perm.READ_ONLY, Register.exec Perm.WRITE_ONLY,
          Register.unimplemented, Register.memory Perm.READ_WRITE 9] ∧
      reg_mapped_server_handle_multiword_read specProtocol demo_inst
        { count := 1, page := 2, offset := 0 } [9, 9, 9, 9] = (1, [9, 9, 9, 9])) :=
  ⟨⟨by rfl, ((invalid_address_rejected specProtocol demo_cb demo_inst 2 4).1 (by rfl)).1 0 5⟩,
    ⟨by rfl, ((invalid_address_rejected specProtocol demo_cb demo_inst 2 0).2
      (Or.inl ⟨_, _, rfl⟩)).2 1 [9, 9, 9, 9]⟩⟩

/-! ## Requests and responses -/

/-- Claim C4. For every instance and every request buffer: an empty buffer
leaves the whole instance unchanged (so nothing is transmitted); a non-empty
buffer whose flags have `bulk_req` set and `bulk_end` clear transmits nothing;
every other non-empty buffer makes exactly one call of the transmit function
(the trace of transmitted responses grows by exactly one entry). -/
theorem handle_request_transmit_count (P : Protocol) (cb : Callback)
    (inst : reg_mapped_server_inst_t) (msg : List Nat) :
    (msg = [] → reg_mapped_server_handle_request P cb inst msg = inst) ∧
    (msg ≠ [] →
      (P.flag_bulk_req (byte_at msg 0) = true ∧ P.flag_bulk_end (byte_at msg 0) = false) →
      (reg_mapped_server_handle_request P cb inst msg).tx_log = inst.tx_log) ∧
    (msg ≠ [] →
      ¬ (P.flag_bulk_req (byte_at msg 0) = true ∧ P.flag_bulk_end (byte_at msg 0) = false) →
      ∃ r, (reg_mapped_server_handle_request P cb inst msg).tx_log = inst.tx_log ++ [r]) := by
  have hbody := body_tx_log P cb inst msg
  refine ⟨?_, ?_, ?_⟩
  · intro h
    subst h
    rfl
  · intro hne hflags
    have hlen : ¬ msg.length < 1 := by
      cases msg with
      | nil => exact absurd rfl hne
      | cons a l => simp
    unfold reg_mapped_server_handle_request
    rw [if_neg hlen]
    simp only [reg_mapped_server_finish_request]
    rw [if_pos hflags.1, if_neg (by simp [hflags.2])]
    split_ifs
    · exact hbody
    · exact hbody
  · intro hne hflags
    have hlen : ¬ msg.length < 1 := by
      cases msg with
      | nil => exact absurd rfl hne
      | cons a l => simp
    unfold reg_mapped_server_handle_request
    rw [if_neg hlen]
    simp only [reg_mapped_server_finish_request]
    by_cases hb : P.flag_bulk_req (byte_at msg 0) = true
    · have he : P.flag_bulk_end (byte_at msg 0) = true := by
        by_contra he
        exact hflags ⟨hb, by simpa using he⟩
      rw [if_pos hb, if_pos he]
      exact ⟨_, congrArg (fun l => l ++ [_]) hbody⟩
    · rw [if_neg hb]
      split_ifs
      · split
        · exact ⟨_, congrArg (fun l => l ++ [_]) hbody⟩
        · exact ⟨_, congrArg (fun l => l ++ [_]) hbody⟩
      · exact ⟨_, congrArg (fun l => l ++ [_]) hbody⟩
      · exact ⟨_, congrArg (fun l => l ++ [_]) hbody⟩

/-- Witness of claim C4: a single-word read request (not tagged bulk) handled
by `demo_inst`. -/
theorem handle_request_transmit_count_witness :
    ([16, 0, 0, 1] ≠ [] ∧
      ¬ (specProtocol.flag_bulk_req (byte_at [16, 0, 0, 1] 0) = true ∧
        specProtocol.flag_bulk_end (byte_at [16, 0, 0, 1] 0) = false)) ∧
    ∃ r, (reg_mapped_server_handle_request specProtocol demo_cb demo_inst [16, 0, 0, 1]).tx_log =
      demo_inst.tx_log ++ [r] :=
  ⟨⟨by decide, by decide⟩,
    (handle_request_transmit_count specProtocol demo_cb demo_inst [16, 0, 0, 1]).2.2
      (by decide) (by decide)⟩

/-- Claim C5. Let no bulk session be open and let `pre ++ [fin]` be `N ≤ 256`
correctly sized single-word write requests tagged bulk with the mode tag of
the server, with count fields `0, 1, ..., N - 1`, only `fin` tagged bulk-end,
each addressing a valid writable register. Then no response has been sent
after any of the first `N - 1` packets; after the last packet exactly one
response has been sent, a bulk response carrying SUCCESSFUL and sequence
number `N - 1`; the instance is the one reached by the `N` single-word writes
in order, each of which returned SUCCESSFUL, with no bulk session open. -/
theorem bulk_write_sequence_succeeds (P : Protocol) (hP : P.Valid) (cb : Callback)
    (inst : reg_mapped_server_inst_t) (pre : List (List Nat)) (fin : List Nat)
    (hN : pre.length + 1 ≤ 256) (hopen : inst.in_bulk_request = false)
    (hpre : bulk_write_packets P cb inst 0 pre)
    (hfin : bulk_write_packet P inst fin pre.length true)
    (hfinv : valid_writable cb inst (write_pkt fin)) :
    (∀ j, j ≤ pre.length → (handle_requests P cb inst (pre.take j)).tx_log = inst.tx_log) ∧
    handle_requests P cb inst (pre ++ [fin]) =
      tx_func
        (with_bulk (apply_writes P cb inst ((pre ++ [fin]).map write_pkt)) false 0 pre.length)
        (Response.write_bulk_pkt P.REG_MAPPED_RESULT_SUCCESSFUL pre.length) ∧
    (handle_requests P cb inst (pre ++ [fin])).tx_log =
      inst.tx_log ++ [Response.write_bulk_pkt P.REG_MAPPED_RESULT_SUCCESSFUL pre.length] ∧
    (handle_requests P cb inst (pre ++ [fin])).in_bulk_request = false ∧
    writes_accepted P cb inst ((pre ++ [fin]).map write_pkt) := by
  have hs0 : bulk_session_at inst 0 := Or.inl ⟨rfl, hopen⟩
  have hfinal : handle_requests P cb inst (pre ++ [fin]) =
      tx_func
        (with_bulk (apply_writes P cb inst ((pre ++ [fin]).map write_pkt)) false 0 pre.length)
        (Response.write_bulk_pkt P.REG_MAPPED_RESULT_SUCCESSFUL pre.length) := by
    obtain ⟨hs, b, e, s, hmid⟩ := handle_bulk_prefix P hP cb pre 0 inst hs0 (by omega) hpre
    rw [Nat.zero_add] at hs
    rw [handle_requests_append]
    show reg_mapped_server_handle_request P cb (handle_requests P cb inst pre) fin = _
    have hfin1 : bulk_write_packet P (handle_requests P cb inst pre) fin pre.length true := by
      unfold bulk_write_packet at hfin ⊢
      rw [hmid]
      have : (with_bulk (apply_writes P cb inst (pre.map write_pkt)) b e
          s).control_interface_mode = inst.control_interface_mode := by
        show (apply_writes P cb inst (pre.map write_pkt)).control_interface_mode = _
        rw [apply_writes_frame]
      rw [this]
      exact hfin
    have hfinv1 : valid_writable cb (handle_requests P cb inst pre) (write_pkt fin) := by
      rw [hmid]
      exact valid_writable_congr cb _ inst _ (apply_writes_target P cb _ inst) hfinv
    rw [handle_bulk_write_final P hP cb _ fin pre.length hs (by omega) hfin1 hfinv1, hmid,
      single_write_with_bulk, List.map_append, apply_writes_append]
    rfl
  refine ⟨?_, hfinal, ?_, ?_, ?_⟩
  · intro j hj
    obtain ⟨_, b, e, s, hmid⟩ := handle_bulk_prefix P hP cb (pre.take j) 0 inst hs0
      (by have := List.length_take_le j pre; omega) (bulk_write_packets_take P cb inst pre 0 j hpre)
    rw [hmid, with_bulk_tx_log, apply_writes_frame]
  · rw [hfinal]
    show (apply_writes P cb inst ((pre ++ [fin]).map write_pkt)).tx_log ++ [_] = _
    rw [apply_writes_frame]
  · rw [hfinal]
    rfl
  · apply writes_accepted_of_valid_writable
    intro r hr
    rw [List.map_append, List.mem_append] at hr
    rcases hr with hr | hr
    · exact valid_writable_of_bulk_write_packets P cb inst pre 0 hpre r hr
    · simp only [List.map_cons, List.map_nil, List.mem_singleton] at hr
      rw [hr]; exact hfinv

/-- Witness of claim C5: three bulk packets writing 5, 6, 7 to the words 0, 1,
2 of page 0 of `demo_inst`; the response carries SUCCESSFUL and sequence
number 2. -/
theorem bulk_write_sequence_succeeds_witness :
    (specProtocol.Valid ∧ demo_inst.in_bulk_request = false) ∧
    (handle_requests specProtocol demo_cb demo_inst
      ([[21, 0, 0, 0, 5, 0, 0, 0], [21, 1, 0, 1, 6, 0, 0, 0]] ++
        [[29, 2, 0, 2, 7, 0, 0, 0]])).tx_log = [Response.write_bulk_pkt 0 2] :=
  ⟨⟨by decide, rfl⟩,
    (bulk_write_sequence_succeeds specProtocol (by decide) demo_cb demo_inst
      [[21, 0, 0, 0, 5, 0, 0, 0], [21, 1, 0, 1, 6, 0, 0, 0]] [29, 2, 0, 2, 7, 0, 0, 0]
      (by decide) rfl
      ⟨by unfold bulk_write_packet; decide, ⟨Or.inl rfl, fun _ _ => rfl⟩,
        by unfold bulk_write_packet; decide, ⟨Or.inl rfl, fun _ _ => rfl⟩, trivial⟩
      (by unfold bulk_write_packet; decide) ⟨Or.inl rfl, fun _ _ => rfl⟩).2.2.1⟩

/-- Claim C6. Let no bulk session be open and let the sequence
`pre ++ bad :: tail` be handled, where `pre` holds `k` packets (`1 ≤ k < 256`,
the count field being one byte) that are correctly sized bulk writes with
counts `0 .. k - 1` to valid writable registers, `bad` is a correctly sized
bulk write whose count differs from `k`, every packet of `tail` is tagged bulk
and exactly the last packet of the sequence is tagged bulk-end. Then nothing
has been sent before the last packet; after it exactly one response has been
sent, carrying BULK_REQUEST_SEQ_ERROR (and sequence number `k`); the writes of
`pre` have been applied, each returning SUCCESSFUL; page memory and callback
trace are those reached by the writes of `pre` alone, so neither `bad` nor a
later packet has accessed a register; and no session is open afterwards. -/
theorem bulk_write_skip_reports_seq_error (P : Protocol) (hP : P.Valid) (cb : Callback)
    (inst : reg_mapped_server_inst_t) (pre : List (List Nat)) (bad : List Nat)
    (tail : List (List Nat)) (c : Nat)
    (hopen : inst.in_bulk_request = false) (hk0 : pre ≠ []) (hk : pre.length < 256)
    (hpre : bulk_write_packets P cb inst 0 pre)
    (hbad : bulk_write_packet P inst bad c tail.isEmpty) (hc : c ≠ pre.length)
    (htail : bulk_tagged_run P tail) :
    (handle_requests P cb inst (pre ++ bad :: tail).dropLast).tx_log = inst.tx_log ∧
    (handle_requests P cb inst (pre ++ bad :: tail)).tx_log =
      inst.tx_log ++
        [Response.write_bulk_pkt P.REG_MAPPED_RESULT_BULK_REQUEST_SEQ_ERROR pre.length] ∧
    writes_accepted P cb inst (pre.map write_pkt) ∧
    (handle_requests P cb inst (pre ++ bad :: tail)).page_array =
      (apply_writes P cb inst (pre.map write_pkt)).page_array ∧
    (handle_requests P cb inst (pre ++ bad :: tail)).exec_log =
      (apply_writes P cb inst (pre.map write_pkt)).exec_log ∧
    (handle_requests P cb inst (pre ++ bad :: tail)).in_bulk_request = false := by
  have hs0 : bulk_session_at inst 0 := Or.inl ⟨rfl, hopen⟩
  have hkpos : 0 < pre.length := List.length_pos.mpr hk0
  obtain ⟨hs, b, e, s, hmid⟩ := handle_bulk_prefix P hP cb pre 0 inst hs0 (by omega) hpre
  rw [Nat.zero_add] at hs
  have hmode : (handle_requests P cb inst pre).control_interface_mode =
      inst.control_interface_mode := by
    rw [hmid]
    show (apply_writes P cb inst (pre.map write_pkt)).control_interface_mode = _
    rw [apply_writes_frame]
  have hbad1 : bulk_write_packet P (handle_requests P cb inst pre) bad c tail.isEmpty := by
    unfold bulk_write_packet at hbad ⊢
    rw [hmode]
    exact hbad
  have hacc : writes_accepted P cb inst (pre.map write_pkt) :=
    writes_accepted_of_valid_writable P cb _ inst
      (valid_writable_of_bulk_write_packets P cb inst pre 0 hpre)
  have hmidtx : (handle_requests P cb inst pre).tx_log = inst.tx_log := by
    rw [hmid, with_bulk_tx_log, apply_writes_frame]
  have hdrop : (pre ++ bad :: tail).dropLast = pre ++ (bad :: tail).dropLast :=
    List.dropLast_append_of_ne_nil _ (by simp)
  rw [hdrop, handle_requests_append, handle_requests_append]
  cases tail with
  | nil =>
    have hstep := handle_bulk_skip_final P cb _ bad pre.length c hs hkpos hk hbad1 hc
    have hfin : handle_requests P cb (handle_requests P cb inst pre) [bad] =
        tx_func (with_bulk (handle_requests P cb inst pre) false 0 pre.length)
          (Response.write_bulk_pkt P.REG_MAPPED_RESULT_BULK_REQUEST_SEQ_ERROR pre.length) :=
      hstep
    rw [hfin]
    refine ⟨hmidtx, ?_, hacc, ?_, ?_, rfl⟩
    · show (handle_requests P cb inst pre).tx_log ++ [_] = _
      rw [hmidtx]
    · show (handle_requests P cb inst pre).page_array = _
      rw [hmid]; rfl
    · show (handle_requests P cb inst pre).exec_log = _
      rw [hmid]; rfl
  | cons m tail =>
    have hstep := handle_bulk_skip_nonfinal P cb _ bad pre.length c hs hkpos hk hbad1 hc
    have hE : P.REG_MAPPED_RESULT_BULK_REQUEST_SEQ_ERROR ≠ 0 := hP.2.2.2.2.2.2.1
    have hrun := handle_latched_run P cb (m :: tail)
      (with_bulk (handle_requests P cb inst pre) true
        P.REG_MAPPED_RESULT_BULK_REQUEST_SEQ_ERROR pre.length) rfl hE htail (by simp)
    have hfin : handle_requests P cb (handle_requests P cb inst pre) (bad :: m :: tail) =
        handle_requests P cb (with_bulk (handle_requests P cb inst pre) true
          P.REG_MAPPED_RESULT_BULK_REQUEST_SEQ_ERROR pre.length) (m :: tail) := by
      show handle_requests P cb (reg_mapped_server_handle_request P cb _ bad) (m :: tail) = _
      rw [hstep]
    have hfin0 : handle_requests P cb (handle_requests P cb inst pre)
        (bad :: m :: tail).dropLast =
        handle_requests P cb (with_bulk (handle_requests P cb inst pre) true
          P.REG_MAPPED_RESULT_BULK_REQUEST_SEQ_ERROR pre.length) (m :: tail).dropLast := by
      show handle_requests P cb (reg_mapped_server_handle_request P cb _ bad)
        (m :: tail).dropLast = _
      rw [hstep]
    rw [hfin, hfin0, hrun.1, hrun.2]
    refine ⟨hmidtx, ?_, hacc, ?_, ?_, rfl⟩
    · show (handle_requests P cb inst pre).tx_log ++ [_] = _
      rw [hmidtx]
      rfl
    · show (handle_requests P cb inst pre).page_array = _
      rw [hmid]; rfl
    · show (handle_requests P cb inst pre).exec_log = _
      rw [hmid]; rfl

/-- Witness of claim C6: on `demo_inst`, count 0, then count 2 instead of 1,
then a bulk-end packet; the response carries BULK_REQUEST_SEQ_ERROR (6) and
sequence number 1. -/
theorem bulk_write_skip_reports_seq_error_witness :
    (specProtocol.Valid ∧ demo_inst.in_bulk_request = false ∧ (2 : Nat) ≠ 1) ∧
    (handle_requests specProtocol demo_cb demo_inst
      ([[21, 0, 0, 0, 5, 0, 0, 0]] ++
        [21, 2, 0, 1, 6, 0, 0, 0] :: [[29, 3, 0, 2, 7, 0, 0, 0]])).tx_log =
      [Response.write_bulk_pkt 6 1] :=
  ⟨⟨by decide, rfl, by decide⟩,
    (bulk_write_skip_reports_seq_error specProtocol (by decide) demo_cb demo_inst
      [[21, 0, 0, 0, 5, 0, 0, 0]] [21, 2, 0, 1, 6, 0, 0, 0] [[29, 3, 0, 2, 7, 0, 0, 0]] 2
      rfl (by decide) (by decide)
      ⟨by unfold bulk_write_packet; decide, ⟨Or.inl rfl, fun _ _ => rfl⟩, trivial⟩
      (by unfold bulk_write_packet; decide) (by decide)
      ⟨by decide, by decide, by decide, trivial⟩).2.1⟩

/-- Claim C7. Let `msg` be a non-final bulk packet that belongs to an open
session (it continues a session in which no error is latched, or opens one)
and whose result is a non-zero code `E`. Then handling it latches `E` without
sending a response; every later packet of the session before the bulk-end
packet, whatever its content, leaves the whole instance unchanged (so
`bulk_error_code` stays `E`, no register is accessed, nothing is sent); and
the bulk-end packet sends exactly one response, carrying `E`, closes the
session and accesses no register. -/
theorem bulk_error_latched_once (P : Protocol) (cb : Callback) (inst : reg_mapped_server_inst_t)
    (msg : List Nat) (later : List (List Nat)) (E : Nat)
    (hne : msg ≠ []) (hbulk : P.flag_bulk_req (byte_at msg 0) = true)
    (hend : P.flag_bulk_end (byte_at msg 0) = false)
    (hsession : (reg_mapped_server_handle_request_body P cb inst msg).2.2.in_bulk_request = true)
    (hclean : inst.in_bulk_request = true → inst.bulk_error_code = 0)
    (hE : (reg_mapped_server_handle_request_body P cb inst msg).1 = E) (hE0 : E ≠ 0)
    (hlater : bulk_tagged_run P later) (hl : later ≠ []) :
    (reg_mapped_server_handle_request P cb inst msg).bulk_error_code = E ∧
    (reg_mapped_server_handle_request P cb inst msg).in_bulk_request = true ∧
    (reg_mapped_server_handle_request P cb inst msg).tx_log = inst.tx_log ∧
    (∀ j, j < later.length →
      handle_requests P cb (reg_mapped_server_handle_request P cb inst msg) (later.take j) =
        reg_mapped_server_handle_request P cb inst msg) ∧
    handle_requests P cb (reg_mapped_server_handle_request P cb inst msg) later =
      tx_func
        (with_bulk (reg_mapped_server_handle_request P cb inst msg) false E
          (reg_mapped_server_handle_request P cb inst msg).bulk_last_seq_num)
        (Response.write_bulk_pkt E
          (reg_mapped_server_handle_request P cb inst msg).bulk_last_seq_num) := by
  have hlen : ¬ msg.length < 1 := by
    cases msg with
    | nil => exact absurd rfl hne
    | cons a l => simp
  have herr := body_no_error_latched P cb inst msg hbulk hsession hclean
  have hstep : reg_mapped_server_handle_request P cb inst msg =
      { (reg_mapped_server_handle_request_body P cb inst msg).2.2 with bulk_error_code := E } := by
    unfold reg_mapped_server_handle_request
    rw [if_neg hlen]
    simp only [reg_mapped_server_finish_request, hbulk, hend, herr, hE]
    rfl
  have h1 : (reg_mapped_server_handle_request P cb inst msg).bulk_error_code = E := by
    rw [hstep]
  have h2 : (reg_mapped_server_handle_request P cb inst msg).in_bulk_request = true := by
    rw [hstep]; exact hsession
  have h1' : (reg_mapped_server_handle_request P cb inst msg).bulk_error_code ≠ 0 := by
    rw [h1]; exact hE0
  refine ⟨h1, h2, ?_, ?_, ?_⟩
  · rw [hstep]
    exact body_tx_log P cb inst msg
  · intro j hj
    exact handle_latched_prefix P cb later _ j h2 h1' hlater hj
  · have := (handle_latched_run P cb later _ h2 h1' hlater hl).2
    rw [h1] at this
    exact this

/-- Witness of claim C7: on `demo_inst`, a first bulk packet that addresses
word 5 of the 3-word page 0 (INVALID_REGISTER_ADDRESS, 1), followed by two
well-formed bulk writes, the second tagged bulk-end. -/
theorem bulk_error_latched_once_witness :
    ((reg_mapped_server_handle_request_body specProtocol demo_cb demo_inst
        [21, 0, 0, 5, 9, 0, 0, 0]).1 = 1 ∧
      (reg_mapped_server_handle_request_body specProtocol demo_cb demo_inst
        [21, 0, 0, 5, 9, 0, 0, 0]).2.2.in_bulk_request = true) ∧
    handle_requests specProtocol demo_cb
        (reg_mapped_server_handle_request specProtocol demo_cb demo_inst
          [21, 0, 0, 5, 9, 0, 0, 0])
        [[21, 1, 0, 0, 9, 0, 0, 0], [29, 2, 0, 1, 9, 0, 0, 0]] =
      tx_func
        (with_bulk
          (reg_mapped_server_handle_request specProtocol demo_cb demo_inst
            [21, 0, 0, 5, 9, 0, 0, 0]) false 1
          (reg_mapped_server_handle_request specProtocol demo_cb demo_inst
            [21, 0, 0, 5, 9, 0, 0, 0]).bulk_last_seq_num)
        (Response.write_bulk_pkt 1
          (reg_mapped_server_handle_request specProtocol demo_cb demo_inst
            [21, 0, 0, 5, 9, 0, 0, 0]).bulk_last_seq_num) :=
  ⟨⟨by rfl, by rfl⟩,
    (bulk_error_latched_once specProtocol demo_cb demo_inst [21, 0, 0, 5, 9, 0, 0, 0]
      [[21, 1, 0, 0, 9, 0, 0, 0], [29, 2, 0, 1, 9, 0, 0, 0]] 1
      (by decide) (by decide) (by decide) (by rfl) (fun h => absurd h (by decide)) (by rfl)
      (by decide) ⟨by decide, by decide, by decide, by decide, by decide, by decide, trivial⟩
      (by decide)).2.2.2.2⟩

/-- Counterexample to claim C8 as stated: with a bulk session open, the
one-byte request `[16]` (flags without `bulk_req`) is answered
MALFORMED_REQUEST, not BULK_REQUEST_SEQ_ERROR, and the session stays open:
the length test comes before the session test. -/
theorem non_bulk_in_session_counterexample :
    ([16] : List Nat).length ≥ 1 ∧ specProtocol.flag_bulk_req (byte_at [16] 0) = false ∧
    (with_bulk demo_inst true 0 0).in_bulk_request = true ∧
    (reg_mapped_server_handle_request specProtocol demo_cb (with_bulk demo_inst true 0 0)
      [16]).in_bulk_request = true ∧
    (reg_mapped_server_handle_request specProtocol demo_cb (with_bulk demo_inst true 0 0)
      [16]).tx_log = [Response.read_pkt specProtocol.REG_MAPPED_RESULT_MALFORMED_REQUEST 0] ∧
    specProtocol.REG_MAPPED_RESULT_MALFORMED_REQUEST ≠
      specProtocol.REG_MAPPED_RESULT_BULK_REQUEST_SEQ_ERROR := by
  refine ⟨by decide, by decide, rfl, by rfl, by rfl, by decide⟩

/-- Claim C8, amended. For every correctly sized request (its length is the
length expected for its flags) whose flags do not have `bulk_req` set,
received while a bulk session is open: the server closes the bulk session,
sends exactly one response in the normal non-bulk format carrying
BULK_REQUEST_SEQ_ERROR, and changes nothing else (no register access, no
callback). -/
theorem non_bulk_in_session_closes (P : Protocol) (hP : P.Valid) (cb : Callback)
    (inst : reg_mapped_server_inst_t) (msg : List Nat)
    (hbulk : P.flag_bulk_req (byte_at msg 0) = false)
    (hlen : expected_msg_len P msg = some msg.length)
    (hopen : inst.in_bulk_request = true) :
    reg_mapped_server_handle_request P cb inst msg =
      tx_func { inst with in_bulk_request := false }
        (small_response P msg P.REG_MAPPED_RESULT_BULK_REQUEST_SEQ_ERROR 0) := by
  have hne : ¬ msg.length < 1 := by
    intro h
    have h0 : msg.length = 0 := by omega
    unfold expected_msg_len at hlen
    simp only [h0] at hlen
    split_ifs at hlen <;> simp at hlen
  have hbody : reg_mapped_server_handle_request_body P cb inst msg =
      (P.REG_MAPPED_RESULT_BULK_REQUEST_SEQ_ERROR, 0, { inst with in_bulk_request := false }) := by
    unfold reg_mapped_server_handle_request_body
    simp only [hlen, hbulk, hopen]
    simp
  unfold reg_mapped_server_handle_request
  rw [if_neg hne, hbody]
  exact finish_request_small P msg _ _ _ hbulk (by rw [hP.1]; exact hP.2.2.2.2.2.2.1)

/-- Witness of claim C8 (amended): a correctly sized single read received by
`demo_inst` with a bulk session open. -/
theorem non_bulk_in_session_closes_witness :
    (specProtocol.Valid ∧ specProtocol.flag_bulk_req (byte_at [16, 0, 0, 1] 0) = false ∧
      expected_msg_len specProtocol [16, 0, 0, 1] = some ([16, 0, 0, 1] : List Nat).length ∧
      (with_bulk demo_inst true 0 0).in_bulk_request = true) ∧
    reg_mapped_server_handle_request specProtocol demo_cb (with_bulk demo_inst true 0 0)
        [16, 0, 0, 1] =
      tx_func (with_bulk demo_inst false 0 0) (Response.read_pkt 6 0) :=
  ⟨⟨by decide, by decide, by decide, rfl⟩,
    non_bulk_in_session_closes specProtocol (by decide) demo_cb (with_bulk demo_inst true 0 0)
      [16, 0, 0, 1] (by decide) (by decide) rfl⟩

/-- Claim C9. For every request of at least one byte without the `bulk_req`
flag whose length differs from the length expected for its flags (`4` for a
read, `8` for a non-multiword write, `4 + 4 * count` for a multiword write, or
shorter than the 4-byte header of a multiword write): the server sends
exactly one response, in the small write or single-read format, carrying
MALFORMED_REQUEST, and nothing else of the instance changes (no register
access, no callback, bulk session fields as before). -/
theorem length_mismatch_malformed (P : Protocol) (hP : P.Valid) (cb : Callback)
    (inst : reg_mapped_server_inst_t) (msg : List Nat) (hne : msg ≠ [])
    (hbulk : P.flag_bulk_req (byte_at msg 0) = false)
    (hlen : expected_msg_len P msg ≠ some msg.length) :
    reg_mapped_server_handle_request P cb inst msg =
      tx_func inst (small_response P msg P.REG_MAPPED_RESULT_MALFORMED_REQUEST 0) := by
  have hbody : reg_mapped_server_handle_request_body P cb inst msg =
      (P.REG_MAPPED_RESULT_MALFORMED_REQUEST, 0, inst) := by
    unfold reg_mapped_server_handle_request_body
    simp only
    split
    · rfl
    · rename_i e he
      have : msg.length ≠ e := by
        intro h
        apply hlen
        rw [he, h]
      rw [if_pos this]
  unfold reg_mapped_server_handle_request
  rw [if_neg (length_not_lt_one_of_ne_nil hne), hbody]
  exact finish_request_small P msg _ _ inst hbulk (by rw [hP.1]; exact hP.2.2.2.2.1)

/-- Witness of claim C9: the one-byte read request `[16]` handled by
`demo_inst`. -/
theorem length_mismatch_malformed_witness :
    (specProtocol.Valid ∧ ([16] : List Nat) ≠ [] ∧
      specProtocol.flag_bulk_req (byte_at [16] 0) = false ∧
      expected_msg_len specProtocol [16] ≠ some ([16] : List Nat).length) ∧
    reg_mapped_server_handle_request specProtocol demo_cb demo_inst [16] =
      tx_func demo_inst (Response.read_pkt 4 0) :=
  ⟨⟨by decide, by decide, by decide, by decide⟩,
    length_mismatch_malformed specProtocol (by decide) demo_cb demo_inst [16] (by decide)
      (by decide) (by decide)⟩

/-- Claim C10. For a correctly sized request without `bulk_req`, received
while no bulk session is open: if `bulk_end` is set, the only effect is one
response carrying MALFORMED_REQUEST; otherwise, if the mode tag differs from
the configured mode, the only effect is one response carrying INVALID_MODE
(in both cases no register is read or written and no callback is invoked).
For every request with `bulk_req` set that is a read or has `multiword` set,
in every state: page memory, callback trace and multiword buffer are
unchanged, and a bulk session is open afterwards only if one was open
before. -/
theorem header_validation (P : Protocol) (hP : P.Valid) (cb : Callback)
    (inst : reg_mapped_server_inst_t) (msg : List Nat) :
    (P.flag_bulk_req (byte_at msg 0) = false → expected_msg_len P msg = some msg.length →
      inst.in_bulk_request = false →
      (P.flag_bulk_end (byte_at msg 0) = true →
        reg_mapped_server_handle_request P cb inst msg =
          tx_func inst (small_response P msg P.REG_MAPPED_RESULT_MALFORMED_REQUEST 0)) ∧
      (P.flag_bulk_end (byte_at msg 0) = false →
        P.flag_mode (byte_at msg 0) ≠ inst.control_interface_mode →
        reg_mapped_server_handle_request P cb inst msg =
          tx_func inst (small_response P msg P.REG_MAPPED_RESULT_INVALID_MODE 0))) ∧
    (P.flag_bulk_req (byte_at msg 0) = true →
      (P.flag_write (byte_at msg 0) = false ∨ P.flag_multiword (byte_at msg 0) = true) →
      (reg_mapped_server_handle_request P cb inst msg).page_array = inst.page_array ∧
      (reg_mapped_server_handle_request P cb inst msg).exec_log = inst.exec_log ∧
      (reg_mapped_server_handle_request P cb inst msg).multiword_resp_buffer =
        inst.multiword_resp_buffer ∧
      ((reg_mapped_server_handle_request P cb inst msg).in_bulk_request = true →
        inst.in_bulk_request = true)) := by
  constructor
  · intro hbulk hlen hopen
    have hne : ¬ msg.length < 1 := by
      intro h
      have h0 : msg.length = 0 := by omega
      unfold expected_msg_len at hlen
      simp only [h0] at hlen
      split_ifs at hlen <;> simp at hlen
    constructor
    · intro hend
      have hbody : reg_mapped_server_handle_request_body P cb inst msg =
          (P.REG_MAPPED_RESULT_MALFORMED_REQUEST, 0, inst) := by
        unfold reg_mapped_server_handle_request_body
        simp only [hlen, hbulk, hopen, hend]
        simp
      unfold reg_mapped_server_handle_request
      rw [if_neg hne, hbody]
      exact finish_request_small P msg _ _ _ hbulk (by rw [hP.1]; exact hP.2.2.2.2.1)
    · intro hend hmode
      have hbody : reg_mapped_server_handle_request_body P cb inst msg =
          (P.REG_MAPPED_RESULT_INVALID_MODE, 0, inst) := by
        unfold reg_mapped_server_handle_request_body
        simp only [hlen, hbulk, hopen, hend]
        simp [hmode]
      unfold reg_mapped_server_handle_request
      rw [if_neg hne, hbody]
      exact finish_request_small P msg _ _ _ hbulk (by rw [hP.1]; exact hP.2.2.2.2.2.1)
  · intro hbulk hkind
    unfold reg_mapped_server_handle_request
    split_ifs
    · exact ⟨rfl, rfl, rfl, id⟩
    · have hbody : (reg_mapped_server_handle_request_body P cb inst msg).2.2 = inst := by
        unfold reg_mapped_server_handle_request_body
        simp only [hbulk]
        split
        · rfl
        · split_ifs
          all_goals try rfl
          all_goals rcases hkind with hk | hk <;> simp_all
      simp only [reg_mapped_server_finish_request, hbulk, hbody, if_true]
      split_ifs <;> simp [tx_func]

/-- Witness of claim C10: a correctly sized single read with `bulk_end` set
and `bulk_req` clear, handled by `demo_inst`. -/
theorem header_validation_witness :
    (specProtocol.flag_bulk_req (byte_at [24, 0, 0, 1] 0) = false ∧
      expected_msg_len specProtocol [24, 0, 0, 1] = some ([24, 0, 0, 1] : List Nat).length ∧
      demo_inst.in_bulk_request = false ∧
      specProtocol.flag_bulk_end (byte_at [24, 0, 0, 1] 0) = true) ∧
    reg_mapped_server_handle_request specProtocol demo_cb demo_inst [24, 0, 0, 1] =
      tx_func demo_inst (Response.read_pkt 4 0) :=
  ⟨⟨by decide, by decide, rfl, by decide⟩,
    ((header_validation specProtocol (by decide) demo_cb demo_inst [24, 0, 0, 1]).1
      (by decide) (by decide) rfl).1 (by decide)⟩

/-! ## Byte arrays and multiword reads -/

theorem memcpy_length (src : List Nat) : ∀ (dst : List Nat) (off : Nat),
    (memcpy dst off src).length = dst.length := by
  induction src with
  | nil => intro dst off; rfl
  | cons b src ih => intro dst off; simp [memcpy, ih]

theorem memcpy_getD (src : List Nat) : ∀ (dst : List Nat) (off j : Nat),
    (memcpy dst off src).getD j 0 =
      if off ≤ j ∧ j < off + src.length ∧ j < dst.length then src.getD (j - off) 0
      else dst.getD j 0 := by
  induction src with
  | nil =>
    intro dst off j
    rw [if_neg (by simp only [List.length_nil]; omega)]
    rfl
  | cons b src ih =>
    intro dst off j
    simp only [memcpy, ih, List.length_set, List.length_cons]
    by_cases h1 : off + 1 ≤ j ∧ j < off + 1 + src.length ∧ j < dst.length
    · rw [if_pos h1, if_pos (by omega)]
      have : j - off = (j - (off + 1)) + 1 := by omega
      rw [this]
      simp [List.getD_eq_getElem?_getD]
    · rw [if_neg h1]
      by_cases h2 : off ≤ j ∧ j < off + (src.length + 1) ∧ j < dst.length
      · rw [if_pos h2]
        have hj : j = off := by omega
        subst hj
        simp [List.getD_eq_getElem?_getD, List.getElem?_set, h2.2.2]
      · rw [if_neg h2]
        have hj : j ≠ off ∨ ¬ j < dst.length := by omega
        rcases hj with hj | hj
        · simp [List.getD_eq_getElem?_getD, List.getElem?_set, Ne.symm hj]
        · have hj1 : (dst.set off b).length ≤ j := by simp; omega
          simp [List.getD_eq_getElem?_getD, List.getElem?_eq_none (Nat.le_of_not_lt hj),
            List.getElem?_eq_none hj1]

theorem bytes_in_range_eq (o s : Nat) (h : o * 4 < s) : bytes_in_range o s = min 4 (s - o * 4) := by
  unfold bytes_in_range
  simp only
  split_ifs with h1
  · have : min 4 (s - o * 4) = 4 := by
      apply Nat.min_eq_left
      push_cast at h1
      omega
    rw [this]
    rfl
  · push_cast at h1 ⊢
    omega

theorem write_word_bytes_length : ∀ (n : Nat) (base : List Nat) (off v : Nat),
    (write_word_bytes n base off v).length = base.length
  | 0, _, _, _ => rfl
  | n + 1, base, off, v => by
    simp [write_word_bytes, write_word_bytes_length n]

theorem write_word_bytes_getD : ∀ (n : Nat) (base : List Nat) (off v j : Nat),
    (write_word_bytes n base off v).getD j 0 =
      if off ≤ j ∧ j < off + n ∧ j < base.length then v / 256 ^ (j - off) % 256
      else base.getD j 0
  | 0, base, off, v, j => by
    rw [if_neg (by omega)]
    rfl
  | n + 1, base, off, v, j => by
    simp only [write_word_bytes, write_word_bytes_getD n, List.length_set]
    by_cases h1 : off + 1 ≤ j ∧ j < off + 1 + n ∧ j < base.length
    · rw [if_pos h1, if_pos (by omega)]
      have : j - off = (j - (off + 1)) + 1 := by omega
      rw [this, pow_succ, Nat.div_div_eq_div_mul, Nat.mul_comm]
    · rw [if_neg h1]
      by_cases h2 : off ≤ j ∧ j < off + (n + 1) ∧ j < base.length
      · rw [if_pos h2]
        have hj : j = off := by omega
        subst hj
        simp [List.getD_eq_getElem?_getD, List.getElem?_set, h2.2.2]
      · rw [if_neg h2]
        have hj : j ≠ off ∨ ¬ j < base.length := by omega
        rcases hj with hj | hj
        · simp [List.getD_eq_getElem?_getD, List.getElem?_set, Ne.symm hj]
        · have hj1 : (base.set off (v % 256)).length ≤ j := by simp; omega
          simp [List.getD_eq_getElem?_getD, List.getElem?_eq_none (Nat.le_of_not_lt hj),
            List.getElem?_eq_none hj1]

theorem read_word_bytes_eq (v : Nat) : ∀ (n : Nat) (base : List Nat) (off i acc : Nat),
    (∀ t, t < n → base.getD (off + t) 0 = v / 256 ^ (i + t) % 256) → acc = v % 256 ^ i →
    i + n ≤ 4 → read_word_bytes n base off i acc = v % 256 ^ (i + n)
  | 0, _, _, _, _, _, hacc, _ => hacc
  | n + 1, base, off, i, acc, hb, hacc, hi => by
    have hb0 := hb 0 (Nat.succ_pos n)
    simp only [Nat.add_zero] at hb0
    have hlt : acc < 2 ^ (8 * i) := by
      rw [hacc, pow_mul]
      exact Nat.mod_lt _ (by positivity)
    have hor : acc ||| (v / 256 ^ i % 256) <<< (8 * i) = v % 256 ^ (i + 1) := by
      rw [Nat.shiftLeft_eq, Nat.lor_comm, Nat.mul_comm, ← Nat.mul_add_lt_is_or hlt,
        Nat.mod_pow_succ, hacc, pow_mul]
      norm_num
      ring
    have hsmall : v % 256 ^ (i + 1) < 2 ^ 32 := by
      have h1 : v % 256 ^ (i + 1) < 256 ^ (i + 1) := Nat.mod_lt _ (by positivity)
      have h2 : 256 ^ (i + 1) ≤ 256 ^ 4 := Nat.pow_le_pow_right (by norm_num) (by omega)
      have h3 : (256 : Nat) ^ 4 = 2 ^ 32 := by norm_num
      omega
    simp only [read_word_bytes, hb0, hor, Nat.mod_eq_of_lt hsmall]
    have := read_word_bytes_eq v n base (off + 1) (i + 1) (v % 256 ^ (i + 1))
      (fun t ht => by
        have := hb (t + 1) (by omega)
        rw [show off + 1 + t = off + (t + 1) by omega, show i + 1 + t = i + (t + 1) by omega]
        exact this) rfl (by omega)
    rw [this]
    congr 2
    omega

/-- Claim C11, the code at a failing input. `demo_inst` is an initial state
(no session open, no latched error). A first session latches
INVALID_REGISTER_ADDRESS (its opening packet addresses word 5 of the 3-word
page 0) and is closed by its bulk-end packet. A further packet tagged
`bulk_req` and `bulk_end` with count 5 then arrives with no session open: it
starts no session, its own result is BULK_REQUEST_SEQ_ERROR, but the response
carries INVALID_REGISTER_ADDRESS, the code latched by the closed session. -/
theorem bulk_end_reports_stale_error :
    demo_inst.in_bulk_request = false ∧ demo_inst.bulk_error_code = 0 ∧
    (handle_requests specProtocol demo_cb demo_inst
      [[21, 0, 0, 5, 9, 0, 0, 0], [29, 1, 0, 0, 9, 0, 0, 0]]).in_bulk_request = false ∧
    (reg_mapped_server_handle_request_body specProtocol demo_cb
      (handle_requests specProtocol demo_cb demo_inst
        [[21, 0, 0, 5, 9, 0, 0, 0], [29, 1, 0, 0, 9, 0, 0, 0]])
      [29, 5, 0, 0, 9, 0, 0, 0]).1 = specProtocol.REG_MAPPED_RESULT_BULK_REQUEST_SEQ_ERROR ∧
    (handle_requests specProtocol demo_cb demo_inst
      [[21, 0, 0, 5, 9, 0, 0, 0], [29, 1, 0, 0, 9, 0, 0, 0], [29, 5, 0, 0, 9, 0, 0, 0]]).tx_log =
      [Response.write_bulk_pkt specProtocol.REG_MAPPED_RESULT_INVALID_REGISTER_ADDRESS 0,
       Response.write_bulk_pkt specProtocol.REG_MAPPED_RESULT_INVALID_REGISTER_ADDRESS 0] := by
  refine ⟨rfl, rfl, by rfl, by rfl, by rfl⟩

/-- Claim C12. For every readable byte-array page of size `s` (with its `s`
bytes of backing memory), every offset `o` and count `c ≥ 1` (a byte) that
pass the bounds check `4 * o + 4 * c < s + 4`, and every output buffer of at
least `4 * c` bytes, whatever it held before: the multiword read returns
SUCCESSFUL and byte `j < 4 * c` of the output is `page[4 * o + j]` when
`4 * o + j < s` and 0 otherwise. -/
theorem multiword_read_byte_array (P : Protocol) (inst : reg_mapped_server_inst_t)
    (page o c s : Nat) (perm : Perm) (base_addr data_out : List Nat)
    (hpage : page < inst.num_pages)
    (hp : page_at inst page = Page.mem_mapped_byte perm s base_addr)
    (hperm : perm = Perm.READ_WRITE ∨ perm = Perm.READ_ONLY)
    (hbase : s ≤ base_addr.length) (hc1 : 1 ≤ c) (hc : c < 256)
    (hbound : 4 * o + 4 * c < s + 4) (hout : 4 * c ≤ data_out.length) :
    (reg_mapped_server_handle_multiword_read P inst { count := c, page := page, offset := o }
      data_out).1 = P.REG_MAPPED_RESULT_SUCCESSFUL ∧
    ∀ j, j < 4 * c →
      (reg_mapped_server_handle_multiword_read P inst { count := c, page := page, offset := o }
        data_out).2.getD j 0 = if 4 * o + j < s then base_addr.getD (4 * o + j) 0 else 0 := by
  have hperm1 : ¬ (perm ≠ Perm.READ_WRITE ∧ perm ≠ Perm.READ_ONLY) := by
    rcases hperm with h | h <;> simp [h]
  have hsub : size_t_sub s (o * 4) = s - o * 4 := by
    unfold size_t_sub
    rw [if_pos (by omega)]
  have hsub1 : size_t_sub c 1 * 4 % 2 ^ 32 = (c - 1) * 4 := by
    unfold size_t_sub
    rw [if_pos hc1]
    apply Nat.mod_eq_of_lt
    omega
  unfold reg_mapped_server_handle_multiword_read
  simp only [Nat.not_le.mpr hpage, hp, ge_iff_le, if_false, hperm1, hsub, hsub1]
  rw [if_neg (by omega)]
  refine ⟨rfl, ?_⟩
  intro j hj
  simp only
  by_cases htrim : o * 4 + c * 4 > s
  · rw [if_pos htrim]
    have hmod : (s - o * 4) % 4 ≠ 0 := by omega
    rw [if_pos hmod]
    rw [memcpy_getD, memcpy_length, memcpy_getD]
    simp only [List.length_take, List.length_drop, List.length_cons, List.length_nil]
    by_cases hin : 4 * o + j < s
    · rw [if_pos hin, if_pos (by omega)]
      simp only [List.getD_eq_getElem?_getD, List.getElem?_take, List.getElem?_drop]
      rw [if_pos (by omega)]
      congr 2
      omega
    · rw [if_neg hin, if_neg (by omega), if_pos (by omega)]
      have h4 : j - (c - 1) * 4 < 4 := by omega
      interval_cases hk : j - (c - 1) * 4 <;> rfl
  · rw [if_neg htrim, if_neg (by omega)]
    rw [memcpy_getD]
    simp only [List.length_take, List.length_drop]
    rw [if_pos (by omega), if_pos (by omega)]
    simp only [List.getD_eq_getElem?_getD, List.getElem?_take, List.getElem?_drop]
    rw [if_pos (by omega)]
    congr 2
    omega

/-- Witness of claim C12: the 7-byte page 1 of `demo_inst`, `o = 0`, `c = 2`,
into a buffer holding 9 in every byte: byte 7 of the output is 0, byte 6 is
the last page byte. -/
theorem multiword_read_byte_array_witness :
    (1 < demo_inst.num_pages ∧
      page_at demo_inst 1 = Page.mem_mapped_byte Perm.READ_WRITE 7 [1, 2, 3, 4, 5, 6, 7] ∧
      4 * 0 + 4 * 2 < 7 + 4) ∧
    (reg_mapped_server_handle_multiword_read specProtocol demo_inst
      { count := 2, page := 1, offset := 0 } [9, 9, 9, 9, 9, 9, 9, 9]).2.getD 7 0 = 0 ∧
    (reg_mapped_server_handle_multiword_read specProtocol demo_inst
      { count := 2, page := 1, offset := 0 } [9, 9, 9, 9, 9, 9, 9, 9]).2.getD 6 0 = 7 :=
  ⟨⟨by decide, rfl, by decide⟩,
    (multiword_read_byte_array specProtocol demo_inst 1 0 2 7 Perm.READ_WRITE
      [1, 2, 3, 4, 5, 6, 7] [9, 9, 9, 9, 9, 9, 9, 9] (by decide) rfl (Or.inl rfl) (by decide)
      (by decide) (by decide) (by decide) (by decide)).2 7 (by decide),
    (multiword_read_byte_array specProtocol demo_inst 1 0 2 7 Perm.READ_WRITE
      [1, 2, 3, 4, 5, 6, 7] [9, 9, 9, 9, 9, 9, 9, 9] (by decide) rfl (Or.inl rfl) (by decide)
      (by decide) (by decide) (by decide) (by decide)).2 6 (by decide)⟩

/-- Claim C13. For every read-write byte-array page of size `s` (with its `s`
bytes of backing memory), every offset `o` with `4 * o < s` and every value
`v`, with `k = min 4 (s - 4 * o)`: the single-word write returns SUCCESSFUL
and changes only the memory of this page, where byte `4 * o + i` becomes byte
`i` of `v` (least significant first) for `i < k` and every other byte is as
before; a following single-word read of offset `o` returns SUCCESSFUL with
data `v mod 2 ^ (8 * k)` and changes nothing. -/
theorem byte_array_single_write_read (P : Protocol) (cb : Callback)
    (inst : reg_mapped_server_inst_t) (page o v count s : Nat) (base_addr : List Nat)
    (hpage : page < inst.num_pages)
    (hp : page_at inst page = Page.mem_mapped_byte Perm.READ_WRITE s base_addr)
    (hoff : o * 4 < s) (hbase : s ≤ base_addr.length) :
    (reg_mapped_server_handle_single_write P cb inst
      { count := count, page := page, offset := o, data := v }).1 =
        P.REG_MAPPED_RESULT_SUCCESSFUL ∧
    (∃ base1,
      (reg_mapped_server_handle_single_write P cb inst
        { count := count, page := page, offset := o, data := v }).2 =
          set_page inst page (Page.mem_mapped_byte Perm.READ_WRITE s base1) ∧
      base1.length = base_addr.length ∧
      (∀ i, i < min 4 (s - o * 4) → base1.getD (o * 4 + i) 0 = v / 256 ^ i % 256) ∧
      (∀ j, (j < o * 4 ∨ o * 4 + min 4 (s - o * 4) ≤ j) →
        base1.getD j 0 = base_addr.getD j 0)) ∧
    (∀ c d, reg_mapped_server_handle_single_read P cb
        (reg_mapped_server_handle_single_write P cb inst
          { count := count, page := page, offset := o, data := v }).2
        { count := c, page := page, offset := o } d =
      (P.REG_MAPPED_RESULT_SUCCESSFUL, v % 2 ^ (8 * min 4 (s - o * 4)),
        (reg_mapped_server_handle_single_write P cb inst
          { count := count, page := page, offset := o, data := v }).2)) := by
  have hlt : page < inst.page_array.length :=
    page_at_lt_length (by rw [hp]; exact fun h => Page.noConfusion h)
  have hk := bytes_in_range_eq o s hoff
  have hw : reg_mapped_server_handle_single_write P cb inst
      { count := count, page := page, offset := o, data := v } =
      (P.REG_MAPPED_RESULT_SUCCESSFUL, set_page inst page
        (Page.mem_mapped_byte Perm.READ_WRITE s
          (write_word_bytes (min 4 (s - o * 4)) base_addr (o * 4) v))) := by
    simp [reg_mapped_server_handle_single_write, hp, Nat.not_le.mpr hpage, Nat.not_le.mpr hoff,
      hk]
  have hbytes : ∀ i, i < min 4 (s - o * 4) →
      (write_word_bytes (min 4 (s - o * 4)) base_addr (o * 4) v).getD (o * 4 + i) 0 =
        v / 256 ^ i % 256 := by
    intro i hi
    rw [write_word_bytes_getD, if_pos (by omega)]
    congr 3
    omega
  rw [hw]
  refine ⟨rfl, ⟨_, rfl, write_word_bytes_length _ _ _ _, hbytes, ?_⟩, ?_⟩
  · intro j hj
    rw [write_word_bytes_getD, if_neg (by omega)]
  · intro c d
    have hp1 := page_at_set_page_same inst
      (Page.mem_mapped_byte Perm.READ_WRITE s
        (write_word_bytes (min 4 (s - o * 4)) base_addr (o * 4) v)) hlt
    have hread := read_word_bytes_eq v (min 4 (s - o * 4))
      (write_word_bytes (min 4 (s - o * 4)) base_addr (o * 4) v) (o * 4) 0 0
      (fun t ht => by rw [hbytes t ht, Nat.zero_add]) (by simp [Nat.mod_one]) (by omega)
    simp only [reg_mapped_server_handle_single_read, hp1, set_page_num_pages,
      Nat.not_le.mpr hpage, Nat.not_le.mpr hoff, ge_iff_le, if_false, hk, hread, Nat.zero_add]
    simp [pow_mul]

/-- Witness of claim C13: the word at offset 1 of the 7-byte page 1 of
`demo_inst` holds 3 bytes; writing `0x11223344` reads back `0x223344`. -/
theorem byte_array_single_write_read_witness :
    (1 < demo_inst.num_pages ∧
      page_at demo_inst 1 = Page.mem_mapped_byte Perm.READ_WRITE 7 [1, 2, 3, 4, 5, 6, 7] ∧
      1 * 4 < 7) ∧
    ∀ c d, reg_mapped_server_handle_single_read specProtocol demo_cb
        (reg_mapped_server_handle_single_write specProtocol demo_cb demo_inst
          { count := 0, page := 1, offset := 1, data := 0x11223344 }).2
        { count := c, page := 1, offset := 1 } d =
      (0, 0x223344,
        (reg_mapped_server_handle_single_write specProtocol demo_cb demo_inst
          { count := 0, page := 1, offset := 1, data := 0x11223344 }).2) :=
  ⟨⟨by decide, rfl, by decide⟩,
    (byte_array_single_write_read specProtocol demo_cb demo_inst 1 1 0x11223344 0 7
      [1, 2, 3, 4, 5, 6, 7] (by decide) rfl (by decide) (by decide)).2.2⟩

/-- Claim C14. For every correctly sized multiword read request (read,
multiword, no bulk flag) with the mode tag of the server, received with no bulk
session open on a server that has a multiword response buffer: if the count of
the request exceeds `multiword_resp_buffer_max_count`, the only effect is one
response in the small single-read format carrying MULTIWORD_TOO_LARGE; page
memory is not read and the multiword response buffer is unchanged. -/
theorem multiword_read_too_large (P : Protocol) (hP : P.Valid) (cb : Callback)
    (inst : reg_mapped_server_inst_t) (msg : List Nat) (buf : MultiwordBuffer)
    (hlen : msg.length = 4)
    (hw : P.flag_write (byte_at msg 0) = false) (hmw : P.flag_multiword (byte_at msg 0) = true)
    (hbulk : P.flag_bulk_req (byte_at msg 0) = false)
    (hend : P.flag_bulk_end (byte_at msg 0) = false)
    (hmode : P.flag_mode (byte_at msg 0) = inst.control_interface_mode)
    (hopen : inst.in_bulk_request = false)
    (hbuf : inst.multiword_resp_buffer = some buf)
    (hcount : (read_pkt msg).count > inst.multiword_resp_buffer_max_count) :
    reg_mapped_server_handle_request P cb inst msg =
      tx_func inst (Response.read_pkt P.REG_MAPPED_RESULT_MULTIWORD_TOO_LARGE 0) := by
  have hexp : expected_msg_len P msg = some 4 := by
    simp [expected_msg_len, hw]
  have hbody : reg_mapped_server_handle_request_body P cb inst msg =
      (P.REG_MAPPED_RESULT_MULTIWORD_TOO_LARGE, 0, inst) := by
    unfold reg_mapped_server_handle_request_body
    simp only [hexp, hlen, hw, hmw, hbulk, hend, hmode, hopen]
    simp [multiword_request_handling, hbuf, hw, hcount]
  unfold reg_mapped_server_handle_request
  rw [if_neg (by rw [hlen]; decide), hbody]
  have := finish_request_small P msg P.REG_MAPPED_RESULT_MULTIWORD_TOO_LARGE 0 inst hbulk
    (by rw [hP.1]; exact hP.2.2.2.2.2.2.2.2)
  rw [this]
  simp [small_response, hw]

/-- Witness of claim C14: a multiword read of 3 words from `demo_inst`, whose
buffer holds 2 words. -/
theorem multiword_read_too_large_witness :
    (specProtocol.Valid ∧ ([18, 3, 1, 0] : List Nat).length = 4 ∧
      (read_pkt [18, 3, 1, 0]).count > demo_inst.multiword_resp_buffer_max_count) ∧
    reg_mapped_server_handle_request specProtocol demo_cb demo_inst [18, 3, 1, 0] =
      tx_func demo_inst (Response.read_pkt 8 0) :=
  ⟨⟨by decide, rfl, by decide⟩,
    multiword_read_too_large specProtocol (by decide) demo_cb demo_inst [18, 3, 1, 0]
      { result := 0, data := [0, 0, 0, 0, 0, 0, 0, 0] } rfl (by decide) (by decide) (by decide)
      (by decide) (by decide) rfl rfl (by decide)⟩

/-! ## Client: the iteration bound of the multiword loops -/

/-- The iteration bound of `write_array_multiword_loop` is never the reason
the loop ends: once it is at least `remaining_words`, a larger bound gives the
same result. -/
theorem write_array_multiword_loop_fuel (K : ClientConsts) (P : Protocol) (T : Transport)
    (cfg : reg_mapped_client_cfg_t) (page max_req_count : Nat) (data_array : List Nat)
    (hmax : 1 ≤ max_req_count) :
    ∀ (fuel offset remaining_words : Nat) (log : List TransportCall),
      remaining_words ≤ fuel → remaining_words < 256 →
      write_array_multiword_loop K P T cfg page max_req_count data_array (fuel + 1) offset
          remaining_words log =
        write_array_multiword_loop K P T cfg page max_req_count data_array fuel offset
          remaining_words log
  | 0, offset, remaining_words, log, h, _ => by
    have : remaining_words = 0 := by omega
    subst this
    simp [write_array_multiword_loop]
  | fuel + 1, offset, remaining_words, log, h, h256 => by
    rw [write_array_multiword_loop]
    conv_rhs => rw [write_array_multiword_loop]
    by_cases hr : remaining_words > 0
    · simp only [hr, if_true]
      have hcount : 1 ≤ (if remaining_words > max_req_count then max_req_count
          else remaining_words) % 256 ∧
          (if remaining_words > max_req_count then max_req_count else remaining_words) % 256 ≤
            remaining_words := by
        split_ifs with hc
        · rw [Nat.mod_eq_of_lt (by omega)]
          omega
        · rw [Nat.mod_eq_of_lt (by omega)]
          omega
      generalize (if remaining_words > max_req_count then max_req_count
          else remaining_words) % 256 = count at hcount
      have hrem : (remaining_words + 256 - count) % 256 = remaining_words - count := by
        rw [show remaining_words + 256 - count = (remaining_words - count) + 256 by omega,
          Nat.add_mod_right, Nat.mod_eq_of_lt (by omega)]
      split_ifs
      · rfl
      · split
        · rfl
        · split_ifs
          · rfl
          · rw [hrem]
            exact write_array_multiword_loop_fuel K P T cfg page max_req_count data_array hmax
              fuel _ _ _ (by omega) (by omega)
    · simp only [hr, if_false]

/-- The iteration bound of `read_array_multiword_loop` is never the reason
the loop ends: once it is at least `remaining_words`, a larger bound gives the
same result. -/
theorem read_array_multiword_loop_fuel (K : ClientConsts) (P : Protocol) (T : Transport)
    (cfg : reg_mapped_client_cfg_t) (page max_req_count : Nat) (hmax : 1 ≤ max_req_count) :
    ∀ (fuel offset remaining_words : Nat) (data_array : List Nat) (log : List TransportCall),
      remaining_words ≤ fuel → remaining_words < 256 →
      read_array_multiword_loop K P T cfg page max_req_count (fuel + 1) offset remaining_words
          data_array log =
        read_array_multiword_loop K P T cfg page max_req_count fuel offset remaining_words
          data_array log
  | 0, offset, remaining_words, data_array, log, h, _ => by
    have : remaining_words = 0 := by omega
    subst this
    simp [read_array_multiword_loop]
  | fuel + 1, offset, remaining_words, data_array, log, h, h256 => by
    rw [read_array_multiword_loop]
    conv_rhs => rw [read_array_multiword_loop]
    by_cases hr : remaining_words > 0
    · simp only [hr, if_true]
      have hcount : 1 ≤ (if remaining_words > max_req_count then max_req_count
          else remaining_words) % 256 ∧
          (if remaining_words > max_req_count then max_req_count else remaining_words) % 256 ≤
            remaining_words := by
        split_ifs with hc
        · rw [Nat.mod_eq_of_lt (by omega)]
          omega
        · rw [Nat.mod_eq_of_lt (by omega)]
          omega
      generalize (if remaining_words > max_req_count then max_req_count
          else remaining_words) % 256 = count at hcount
      have hrem : (remaining_words + 256 - count) % 256 = remaining_words - count := by
        rw [show remaining_words + 256 - count = (remaining_words - count) + 256 by omega,
          Nat.add_mod_right, Nat.mod_eq_of_lt (by omega)]
      split_ifs
      · rfl
      · split
        · rfl
        · split_ifs
          · rfl
          · rw [hrem]
            exact read_array_multiword_loop_fuel K P T cfg page max_req_count hmax
              fuel _ _ _ _ (by omega) (by omega)
    · simp only [hr, if_false]

/-! ## Client: argument checks and array transfers -/

/-- The page-boundary test of `reg_mapped_client_write_array`, whose operands
are bytes: when `offset_start + num_words` exceeds `REG_MAPPED_PAGE_NUM_WORDS`
the call returns INVALID_ARG and the trace is unchanged. -/
theorem write_array_page_boundary (K : ClientConsts) (P : Protocol) (T : Transport)
    (cfg : reg_mapped_client_cfg_t) (page offset_start num_words : Nat) (data_array : List Nat)
    (log : List TransportCall)
    (h : offset_start + num_words > K.REG_MAPPED_PAGE_NUM_WORDS) :
    reg_mapped_client_write_array K P T cfg page offset_start data_array num_words log =
      (K.REG_MAPPED_CLIENT_RESULT_INVALID_ARG, log) := by
  unfold reg_mapped_client_write_array
  rw [if_pos h]

/-- The page-boundary test of `reg_mapped_client_read_array` where the sum
does not wrap around: when `offset_start + num_words` is below `2 ^ 32` and
exceeds `REG_MAPPED_PAGE_NUM_WORDS`, the call returns INVALID_ARG and the trace
and the output array are unchanged. -/
theorem read_array_page_boundary_no_wrap (K : ClientConsts) (P : Protocol) (T : Transport)
    (cfg : reg_mapped_client_cfg_t) (page offset_start num_words : Nat) (data_array : List Nat)
    (log : List TransportCall)
    (h : offset_start + num_words > K.REG_MAPPED_PAGE_NUM_WORDS)
    (hfit : offset_start + num_words < 2 ^ 32) :
    reg_mapped_client_read_array K P T cfg page offset_start data_array num_words log =
      (K.REG_MAPPED_CLIENT_RESULT_INVALID_ARG, data_array, log) := by
  unfold reg_mapped_client_read_array
  rw [Nat.mod_eq_of_lt hfit, if_pos h]

/-- Claim C15, the code at a failing input. `reg_mapped_client_read_array`
with `offset_start = 255` and `num_words = 2 ^ 32 - 255` (an `unsigned int`),
in multiword mode on a transport all of whose calls succeed:
`offset_start + num_words = 2 ^ 32` exceeds the page width of 256 words, but
the sum of the page-boundary test is computed in `unsigned int` and wraps to
0, so the test passes and the transfer runs: one multiword read request is
transmitted (for offset 255, count 1) and its response received, and the call
returns SUCCESSFUL, not INVALID_ARG. -/
theorem read_array_boundary_sum_wraps :
    255 + 4294967041 > specClientConsts.REG_MAPPED_PAGE_NUM_WORDS ∧
    (255 + 4294967041) % 2 ^ 32 = 0 ∧
    specClientConsts.REG_MAPPED_CLIENT_RESULT_INVALID_ARG ≠
      (specProtocol.REG_MAPPED_RESULT_SUCCESSFUL : Int) ∧
    reg_mapped_client_read_array specClientConsts specProtocol (page_transport specProtocol [])
        (demo_cfg TransferMode.MULTIWORD) 0 255 [7] 4294967041 [] =
      ((specProtocol.REG_MAPPED_RESULT_SUCCESSFUL : Int), [7],
        [TransportCall.tx (ClientRequest.read_pkt
          { write := false, multiword := true, bulk_req := false, bulk_end := false, mode := 1 }
          1 0 255),
        TransportCall.rx (ResponseKind.multiword_read_pkt 1)]) := by
  refine ⟨by decide, by decide, by decide, ?_⟩
  unfold reg_mapped_client_read_array
  rw [if_neg (by decide), if_pos (by decide), if_neg (by decide)]
  simp only
  rw [if_neg (by decide)]
  rfl

/-- Claim C16, the code at a failing input. Multiword mode, a scratch buffer
of 12 bytes (two words per request), `offset_start = 1`, `num_words = 2` and
the caller's array starting with the words 10, 20: the one request sent
addresses offset 1 with count 2 but carries the payload 20, 30, the words at
the indices 1 and 2 of the array, where the single-word path sends the words
at the indices 0 and 1. -/
theorem write_array_multiword_payload_shifted :
    reg_mapped_client_write_array specClientConsts specProtocol (page_transport specProtocol [])
        (demo_cfg TransferMode.MULTIWORD) 0 1 [10, 20, 30] 2 [] =
      (0, [TransportCall.clear_rx,
        TransportCall.tx (ClientRequest.multiword_write_pkt
          { write := true, multiword := true, bulk_req := false, bulk_end := false, mode := 1 }
          2 0 1 [20, 30]),
        TransportCall.rx ResponseKind.write_pkt]) ∧
    reg_mapped_client_write_array specClientConsts specProtocol (page_transport specProtocol [])
        (demo_cfg TransferMode.SINGLE) 0 1 [10, 20, 30] 2 [] =
      (0, [TransportCall.clear_rx,
        TransportCall.clear_rx,
        TransportCall.tx (ClientRequest.write_pkt
          { write := true, multiword := false, bulk_req := false, bulk_end := false, mode := 1 }
          0 0 1 10),
        TransportCall.rx ResponseKind.write_pkt,
        TransportCall.clear_rx,
        TransportCall.tx (ClientRequest.write_pkt
          { write := true, multiword := false, bulk_req := false, bulk_end := false, mode := 1 }
          0 0 2 20),
        TransportCall.rx ResponseKind.write_pkt]) := by
  constructor <;> rfl

/-- Claim C17, the code at a failing input. A server holding the words 100,
101, 102, 103, `offset_start = 1`, `num_words = 2` and an output array holding
7 everywhere: in multiword mode the call returns SUCCESSFUL with the words of
the registers 1 and 2 at the indices 1 and 2 of the output (index 0 is not
written, index 2 is), where the single-read fallback puts them at the indices
0 and 1. -/
theorem read_array_multiword_output_shifted :
    (reg_mapped_client_read_array specClientConsts specProtocol
        (page_transport specProtocol [100, 101, 102, 103]) (demo_cfg TransferMode.MULTIWORD)
        0 1 [7, 7, 7, 7] 2 []).1 = 0 ∧
    (reg_mapped_client_read_array specClientConsts specProtocol
        (page_transport specProtocol [100, 101, 102, 103]) (demo_cfg TransferMode.MULTIWORD)
        0 1 [7, 7, 7, 7] 2 []).2.1 = [7, 101, 102, 7] ∧
    (reg_mapped_client_read_array specClientConsts specProtocol
        (page_transport specProtocol [100, 101, 102, 103]) (demo_cfg TransferMode.SINGLE)
        0 1 [7, 7, 7, 7] 2 []).1 = 0 ∧
    (reg_mapped_client_read_array specClientConsts specProtocol
        (page_transport specProtocol [100, 101, 102, 103]) (demo_cfg TransferMode.SINGLE)
        0 1 [7, 7, 7, 7] 2 []).2.1 = [101, 102, 7, 7] := by
  refine ⟨by rfl, by rfl, by rfl, by rfl⟩

/-- Claim C20. For `max_len < 2`, `reg_mapped_client_read_string_page` returns
0 and leaves the trace unchanged (no receive-clear, transmit or receive call,
so no register read); with `max_len = 1` the only write is `str_out[0] = 0`,
with `max_len = 0` `str_out` is unchanged. -/
theorem read_string_page_degenerate (K : ClientConsts) (P : Protocol) (T : Transport)
    (cfg : reg_mapped_client_cfg_t) (page_num : Nat) (str_out : List Nat)
    (log : List TransportCall) :
    reg_mapped_client_read_string_page K P T cfg page_num str_out 1 log =
      (0, str_out.set 0 0, log) ∧
    reg_mapped_client_read_string_page K P T cfg page_num str_out 0 log = (0, str_out, log) := by
  constructor <;> rfl

/-! ## Client: bulk writes -/

theorem tx_since_rx_append_tx (log : List TransportCall) (req : ClientRequest) :
    tx_since_rx (log ++ [TransportCall.tx req]) = tx_since_rx log + 1 := by
  simp [tx_since_rx, List.reverse_append, List.takeWhile, TransportCall.is_tx]

theorem tx_since_rx_append_rx (log : List TransportCall) (kind : ResponseKind) :
    tx_since_rx (log ++ [TransportCall.rx kind]) = 0 := by
  simp [tx_since_rx, List.reverse_append, List.takeWhile, TransportCall.is_tx]

theorem tx_since_rx_append_clear_rx (log : List TransportCall) :
    tx_since_rx (log ++ [TransportCall.clear_rx]) = 0 := by
  simp [tx_since_rx, List.reverse_append, List.takeWhile, TransportCall.is_tx]

theorem write_array_bulk_loop_trace (K : ClientConsts) (P : Protocol) (T : Transport)
    (cfg : reg_mapped_client_cfg_t) (page : Nat) (data_array : List Nat)
    (hT : acknowledges_bulk P T) :
    ∀ (n idx count offset : Nat) (log : List TransportCall),
      tx_since_rx log = count → count + n ≤ 255 → offset + n ≤ 256 →
      idx + n ≤ data_array.length →
      write_array_bulk_loop K P T cfg page data_array n idx count offset log =
        ((P.REG_MAPPED_RESULT_SUCCESSFUL : Int),
          log ++ bulk_write_trace cfg page ((data_array.drop idx).take n) count offset)
  | 0, idx, count, offset, log, _, _, _, _ => by
    simp [write_array_bulk_loop, bulk_write_trace]
  | n + 1, idx, count, offset, log, hlog, hcount, hoff, hidx => by
    obtain ⟨_, htx, hrx⟩ := hT
    have hlt : idx < data_array.length := by omega
    have hdrop : (data_array.drop idx).take (n + 1) =
        data_array.getD idx 0 :: (data_array.drop (idx + 1)).take n := by
      rw [List.drop_eq_getElem_cons hlt, List.take_succ_cons]
      simp [List.getD_eq_getElem?_getD, hlt]
    have hempty : ((data_array.drop (idx + 1)).take n).isEmpty = (n == 0) := by
      cases n with
      | zero => simp
      | succ m =>
        have : 0 < ((data_array.drop (idx + 1)).take (m + 1)).length := by
          simp only [List.length_take, List.length_drop]
          omega
        cases hl : (data_array.drop (idx + 1)).take (m + 1) with
        | nil => rw [hl] at this; simp at this
        | cons a l => simp
    have hc1 : (count + 1) % 256 = count + 1 := Nat.mod_eq_of_lt (by omega)
    rw [hdrop]
    simp only [write_array_bulk_loop, bulk_write_trace, hempty, htx, hc1, Bool.not_true,
      Bool.false_eq_true, if_false]
    clear hdrop
    generalize data_array.getD idx 0 = w
    cases n with
    | zero =>
      obtain ⟨resp, hresp, hres, hseq⟩ := hrx (log ++ [TransportCall.tx
        (ClientRequest.write_pkt
          { write := true, multiword := false, bulk_req := true, bulk_end := true, mode := cfg.control_interface_mode }
          count page offset w)])
      rw [tx_since_rx_append_tx, hlog, Nat.add_sub_cancel] at hseq
      simp [hresp, hres, hseq, write_array_bulk_loop, bulk_write_trace]
    | succ m =>
      have ho1 : (offset + 1) % 256 = offset + 1 := Nat.mod_eq_of_lt (by omega)
      rw [ho1]
      by_cases hend : count + 1 ≥ cfg.max_in_flight
      · obtain ⟨resp, hresp, hres, hseq⟩ := hrx (log ++ [TransportCall.tx
          (ClientRequest.write_pkt
            { write := true, multiword := false, bulk_req := true, bulk_end := true, mode := cfg.control_interface_mode }
            count page offset w)])
        rw [tx_since_rx_append_tx, hlog, Nat.add_sub_cancel] at hseq
        have ih := write_array_bulk_loop_trace K P T cfg page data_array ⟨‹_›, htx, hrx⟩ (m + 1)
          (idx + 1) 0 (offset + 1)
          (log ++ [TransportCall.tx
            (ClientRequest.write_pkt
              { write := true, multiword := false, bulk_req := true, bulk_end := true, mode := cfg.control_interface_mode }
              count page offset w)] ++
            [TransportCall.rx ResponseKind.write_bulk_pkt])
          (tx_since_rx_append_rx _ _) (by omega) (by omega) (by omega)
        simp [hend, hresp, hres, hseq]
        simpa using ih
      · have ih := write_array_bulk_loop_trace K P T cfg page data_array ⟨‹_›, htx, hrx⟩ (m + 1)
          (idx + 1) (count + 1) (offset + 1)
          (log ++ [TransportCall.tx
            (ClientRequest.write_pkt
              { write := true, multiword := false, bulk_req := true, bulk_end := false, mode := cfg.control_interface_mode }
              count page offset w)])
          (by rw [tx_since_rx_append_tx, hlog]) (by omega) (by omega) (by omega)
        simp [hend]
        simpa using ih

theorem bulk_write_trace_count_lt (cfg : reg_mapped_client_cfg_t) (page : Nat) :
    ∀ (words : List Nat) (count offset : Nat), count < max cfg.max_in_flight 1 →
      ∀ flags c p o d,
        TransportCall.tx (ClientRequest.write_pkt flags c p o d) ∈
          bulk_write_trace cfg page words count offset → c < max cfg.max_in_flight 1
  | [], _, _, _, _, _, _, _, _, hmem => by simp [bulk_write_trace] at hmem
  | w :: ws, count, offset, hcount, flags, c, p, o, d, hmem => by
    simp only [bulk_write_trace, List.mem_cons] at hmem
    rcases hmem with hmem | hmem
    · injection hmem with h
      injection h with _ h2
      rw [h2]; exact hcount
    · split_ifs at hmem with hend
      · simp only [List.mem_cons] at hmem
        rcases hmem with hmem | hmem
        · exact absurd hmem (by simp)
        · exact bulk_write_trace_count_lt cfg page ws 0 (offset + 1) (by omega) _ _ _ _ _ hmem
      · have : ¬ count + 1 ≥ cfg.max_in_flight := by
          intro h
          apply hend
          simp [h]
        exact bulk_write_trace_count_lt cfg page ws (count + 1) (offset + 1) (by omega)
          _ _ _ _ _ hmem

theorem bulk_write_trace_tx_count (cfg : reg_mapped_client_cfg_t) (page : Nat) :
    ∀ (words : List Nat) (count offset : Nat),
      (bulk_write_trace cfg page words count offset).countP TransportCall.is_tx = words.length
  | [], _, _ => rfl
  | w :: ws, count, offset => by
    simp only [bulk_write_trace, List.length_cons]
    split_ifs
    · simp [List.countP_cons, TransportCall.is_tx, bulk_write_trace_tx_count cfg page ws]
    · simp [List.countP_cons, TransportCall.is_tx, bulk_write_trace_tx_count cfg page ws]

/-- Claim C18. In bulk mode, for `num_words ≤ 255` words within a page of at
most 256 words, on a transport all of whose calls succeed and whose bulk
responses are successful with the expected sequence number:
`reg_mapped_client_write_array` returns SUCCESSFUL after one receive-clear
call followed by exactly the calls of `bulk_write_trace` for the words
`data_array[0 .. num_words)`, count 0 and register `offset_start`: one bulk
write packet per word (`num_words` transmit calls), packet `j` carrying word
`j` for register `offset_start + j`, with the count fields, bulk-end tags and
receive calls as laid down there; and every packet has a count field below
`max M 1`, so at most `max M 1` packets are sent between two responses. -/
theorem write_array_bulk_trace (K : ClientConsts) (P : Protocol) (T : Transport)
    (cfg : reg_mapped_client_cfg_t) (page offset_start num_words : Nat) (data_array : List Nat)
    (log : List TransportCall)
    (hmode : cfg.transfer_mode = TransferMode.BULK)
    (hT : acknowledges_bulk P T)
    (hpage : offset_start + num_words ≤ K.REG_MAPPED_PAGE_NUM_WORDS)
    (hwidth : K.REG_MAPPED_PAGE_NUM_WORDS ≤ 256) (hnum : num_words ≤ 255)
    (hdata : num_words ≤ data_array.length) :
    reg_mapped_client_write_array K P T cfg page offset_start data_array num_words log =
      ((P.REG_MAPPED_RESULT_SUCCESSFUL : Int),
        log ++ TransportCall.clear_rx ::
          bulk_write_trace cfg page (data_array.take num_words) 0 offset_start) ∧
    (bulk_write_trace cfg page (data_array.take num_words) 0 offset_start).countP
      TransportCall.is_tx = num_words ∧
    ∀ flags c p o d,
      TransportCall.tx (ClientRequest.write_pkt flags c p o d) ∈
        bulk_write_trace cfg page (data_array.take num_words) 0 offset_start →
      c < max cfg.max_in_flight 1 := by
  refine ⟨?_, ?_, ?_⟩
  · unfold reg_mapped_client_write_array
    rw [if_neg (by omega)]
    simp only [hT.1, hmode, Bool.not_true, Bool.false_eq_true, if_false]
    rw [if_neg (by decide), if_pos trivial]
    rw [write_array_bulk_loop_trace K P T cfg page data_array hT num_words 0 0 offset_start _
      (tx_since_rx_append_clear_rx log) (by omega) (by omega) (by omega)]
    simp
  · rw [bulk_write_trace_tx_count, List.length_take]
    omega
  · exact bulk_write_trace_count_lt cfg page _ 0 offset_start (by omega)

/-- Witness of claim C18: three words from register 1 with `max_in_flight = 2`:
packets with counts 0, 1 (bulk-end), 0 (bulk-end), a receive call after the
second and after the third. -/
theorem write_array_bulk_trace_witness :
    ((demo_cfg TransferMode.BULK).transfer_mode = TransferMode.BULK ∧
      1 + 3 ≤ specClientConsts.REG_MAPPED_PAGE_NUM_WORDS ∧
      3 ≤ ([10, 20, 30] : List Nat).length) ∧
    reg_mapped_client_write_array specClientConsts specProtocol (page_transport specProtocol [])
        (demo_cfg TransferMode.BULK) 0 1 [10, 20, 30] 3 [] =
      (0, [TransportCall.clear_rx,
        TransportCall.tx (ClientRequest.write_pkt
          { write := true, multiword := false, bulk_req := true, bulk_end := false, mode := 1 }
          0 0 1 10),
        TransportCall.tx (ClientRequest.write_pkt
          { write := true, multiword := false, bulk_req := true, bulk_end := true, mode := 1 }
          1 0 2 20),
        TransportCall.rx ResponseKind.write_bulk_pkt,
        TransportCall.tx (ClientRequest.write_pkt
          { write := true, multiword := false, bulk_req := true, bulk_end := true, mode := 1 }
          0 0 3 30),
        TransportCall.rx ResponseKind.write_bulk_pkt]) :=
  ⟨⟨rfl, by decide, by decide⟩,
    (write_array_bulk_trace specClientConsts specProtocol (page_transport specProtocol [])
      (demo_cfg TransferMode.BULK) 0 1 3 [10, 20, 30] [] rfl
      ⟨fun _ => rfl, fun _ _ => rfl, fun _ => ⟨_, rfl, rfl, rfl⟩⟩
      (by decide) (by decide) (by decide) (by decide)).1⟩

/-! ## Client: string pages -/

theorem read_register_serves_page (K : ClientConsts) (P : Protocol) (T : Transport)
    (cfg : reg_mapped_client_cfg_t) (page offset data_out : Nat) (log : List TransportCall)
    (words : List Nat) (hT : serves_page P T page words) :
    reg_mapped_client_read_register K P T cfg page offset data_out log =
      ((P.REG_MAPPED_RESULT_SUCCESSFUL : Int), words.getD offset 0,
        log ++ [TransportCall.clear_rx] ++
          [TransportCall.tx (ClientRequest.read_pkt
            { write := false, multiword := false, bulk_req := false, bulk_end := false, mode := cfg.control_interface_mode }
            0 page offset)] ++
          [TransportCall.rx ResponseKind.read_pkt]) := by
  obtain ⟨hclear, htx, hrx⟩ := hT
  obtain ⟨resp, hresp, hres, hdata⟩ := hrx (log ++ [TransportCall.clear_rx])
    { write := false, multiword := false, bulk_req := false, bulk_end := false, mode := cfg.control_interface_mode }
    0 offset
  unfold reg_mapped_client_read_register
  simp only [hclear, htx, hresp, hres, hdata, Bool.not_true, Bool.false_eq_true, if_false,
    ne_eq, not_true_eq_false]

theorem getD_set_eq (l : List Nat) (i j v : Nat) :
    (l.set i v).getD j 0 = if j = i ∧ i < l.length then v else l.getD j 0 := by
  by_cases h : j = i
  · subst h
    by_cases hl : j < l.length
    · simp [List.getD_eq_getElem?_getD, List.getElem?_set, hl]
    · simp [List.getD_eq_getElem?_getD, List.getElem?_set, hl,
        List.getElem?_eq_none (Nat.le_of_not_lt hl)]
  · simp [List.getD_eq_getElem?_getD, List.getElem?_set, h, Ne.symm h]

theorem read_string_bytes_scan (words str0 : List Nat) (max_len z W w : Nat)
    (hlen : max_len ≤ str0.length)
    (hz1 : ∀ p, p < z → page_byte words p ≠ 0)
    (hz2 : z = 4 * W ∨ (z < 4 * W ∧ page_byte words z = 0)) (hw : w < W) :
    ∀ (n i : Nat) (out : List Nat), i + n = 4 → scan_inv words str0 max_len (w * 4 + i) out →
      match read_string_bytes max_len w (words.getD w 0) n i out with
      | (some ret, out1) => scan_post words str0 max_len z ret out1
      | (none, out1) => scan_inv words str0 max_len (w * 4 + 4) out1
  | 0, i, out, hi, hinv => by
    have : i = 4 := by omega
    subst this
    simpa [read_string_bytes] using hinv
  | n + 1, i, out, hi, hinv => by
    obtain ⟨hl, hcopied, hrest, hnz, hroom⟩ := hinv
    have hbyte : (word_bytes (words.getD w 0)).getD i 0 = page_byte words (w * 4 + i) := by
      unfold page_byte
      have h1 : (w * 4 + i) / 4 = w := by omega
      have h2 : (w * 4 + i) % 4 = i := by omega
      rw [h1, h2]
    have hzge : w * 4 + i ≤ z := by
      rcases hz2 with h | ⟨h, h0⟩
      · omega
      · by_contra hlt
        exact hnz z (by omega) h0
    simp only [read_string_bytes, hbyte]
    by_cases hb : page_byte words (w * 4 + i) = 0
    · rw [if_pos hb]
      have hzeq : z = w * 4 + i := by
        by_contra hne
        exact hz1 (w * 4 + i) (by omega) hb
      refine ⟨by rw [hzeq]; omega, by simp [hl], ?_, ?_, ?_⟩
      · intro q hq
        rw [getD_set_eq, if_neg (by omega)]
        exact hcopied q hq
      · rw [getD_set_eq, if_pos ⟨rfl, by omega⟩, hb]
      · intro q hq
        rw [getD_set_eq, if_neg (by omega)]
        exact hrest q (by omega)
    · rw [if_neg hb]
      have hzgt : w * 4 + i + 1 ≤ z := by
        rcases hz2 with h | ⟨h, h0⟩
        · omega
        · by_contra hlt
          have : z = w * 4 + i := by omega
          rw [this] at h0
          exact hb h0
      by_cases htrunc : w * 4 + i + 1 + 1 = max_len
      · rw [if_pos htrunc]
        refine ⟨by omega, by simp [hl], ?_, ?_, ?_⟩
        · intro q hq
          rw [getD_set_eq, if_neg (by omega), getD_set_eq]
          by_cases hq1 : q = w * 4 + i
          · rw [if_pos ⟨hq1, by omega⟩, hq1]
          · rw [if_neg (by omega)]
            exact hcopied q (by omega)
        · rw [getD_set_eq, if_pos ⟨rfl, by simp; omega⟩]
        · intro q hq
          rw [getD_set_eq, if_neg (by omega), getD_set_eq, if_neg (by omega)]
          exact hrest q (by omega)
      · rw [if_neg htrunc]
        have ih := read_string_bytes_scan words str0 max_len z W w hlen hz1 hz2 hw n (i + 1)
          (out.set (w * 4 + i) (page_byte words (w * 4 + i))) (by omega)
          ⟨by simp [hl], ?_, ?_, ?_, by omega⟩
        · exact ih
        · intro q hq
          rw [getD_set_eq]
          by_cases hq1 : q = w * 4 + i
          · rw [if_pos ⟨hq1, by omega⟩, hq1]
          · rw [if_neg (by omega)]
            exact hcopied q (by omega)
        · intro q hq
          rw [getD_set_eq, if_neg (by omega)]
          exact hrest q (by omega)
        · intro q hq
          by_cases hq1 : q = w * 4 + i
          · rw [hq1]; exact hb
          · exact hnz q (by omega)

theorem read_string_words_scan (K : ClientConsts) (P : Protocol) (T : Transport)
    (cfg : reg_mapped_client_cfg_t) (page_num : Nat) (words str0 : List Nat)
    (max_len z W : Nat) (hT : serves_page P T page_num words) (hW : W ≤ 256)
    (hlen : max_len ≤ str0.length)
    (hz1 : ∀ p, p < z → page_byte words p ≠ 0)
    (hz2 : z = 4 * W ∨ (z < 4 * W ∧ page_byte words z = 0)) :
    ∀ (n w : Nat) (out : List Nat) (log : List TransportCall), w + n = W →
      scan_inv words str0 max_len (w * 4) out →
      ∃ ret : Nat, (read_string_words K P T cfg page_num max_len n w out log).1 = (ret : Int) ∧
        scan_post words str0 max_len z ret
          (read_string_words K P T cfg page_num max_len n w out log).2.1
  | 0, w, out, log, hw, hinv => by
    obtain ⟨hl, hcopied, hrest, hnz, hroom⟩ := hinv
    have hzeq : z = w * 4 := by
      rcases hz2 with h | ⟨h, h0⟩
      · omega
      · exact absurd h0 (hnz z (by omega))
    refine ⟨w * 4, rfl, by omega, by simp [read_string_words, hl], ?_, ?_, ?_⟩
    · intro i hi
      simp only [read_string_words]
      rw [getD_set_eq, if_neg (by omega)]
      exact hcopied i hi
    · simp only [read_string_words]
      rw [getD_set_eq, if_pos ⟨rfl, by omega⟩]
    · intro i hi
      simp only [read_string_words]
      rw [getD_set_eq, if_neg (by omega)]
      exact hrest i (by omega)
  | n + 1, w, out, log, hw, hinv => by
    have hwW : w < W := by omega
    have hmod : w % 256 = w := Nat.mod_eq_of_lt (by omega)
    have hreg := read_register_serves_page K P T cfg page_num w 0 log words hT
    have hinner := read_string_bytes_scan words str0 max_len z W w hlen hz1 hz2 hwW 4 0 out
      (by omega) (by simpa using hinv)
    simp only [read_string_words, hmod, hreg, ne_eq, not_true_eq_false, if_false]
    cases hres : read_string_bytes max_len w (words.getD w 0) 4 0 out with
    | mk ret out1 =>
      rw [hres] at hinner
      cases ret with
      | some r =>
        exact ⟨r, rfl, hinner⟩
      | none =>
        simp only at hinner ⊢
        have hinv1 : scan_inv words str0 max_len ((w + 1) * 4) out1 := by
          have : (w + 1) * 4 = w * 4 + 4 := by omega
          rw [this]
          exact hinner
        exact read_string_words_scan K P T cfg page_num words str0 max_len z W hT hW hlen hz1 hz2
          n (w + 1) out1 _ (by omega) hinv1

/-- Claim C19. Let every register read of the page succeed and deliver the
words `words`, let the page width `W = REG_MAPPED_PAGE_NUM_WORDS` be at most
256, `max_len ≥ 2`, `str_out` hold at least `max_len` bytes, and let `z` be the
index of the first zero byte of the page (every byte before `z` is non-zero,
and byte `z` is zero or `z = 4 * W`). Then
`reg_mapped_client_read_string_page` returns `n = min z (max_len - 1)`, which
is below `max_len`; `str_out[i]` is page byte `i` for `i < n`; `str_out[n]` is
0; and every byte of `str_out` after index `n` is as before the call. -/
theorem read_string_page_result (K : ClientConsts) (P : Protocol) (T : Transport)
    (cfg : reg_mapped_client_cfg_t) (page_num : Nat) (words str_out : List Nat)
    (max_len z : Nat) (log : List TransportCall)
    (hT : serves_page P T page_num words) (hW : K.REG_MAPPED_PAGE_NUM_WORDS ≤ 256)
    (hmax : 2 ≤ max_len) (hlen : max_len ≤ str_out.length)
    (hz1 : ∀ p, p < z → page_byte words p ≠ 0)
    (hz2 : z = 4 * K.REG_MAPPED_PAGE_NUM_WORDS ∨
      (z < 4 * K.REG_MAPPED_PAGE_NUM_WORDS ∧ page_byte words z = 0)) :
    (reg_mapped_client_read_string_page K P T cfg page_num str_out max_len log).1 =
      ((min z (max_len - 1) : Nat) : Int) ∧
    min z (max_len - 1) < max_len ∧
    (reg_mapped_client_read_string_page K P T cfg page_num str_out max_len log).2.1.length =
      str_out.length ∧
    (∀ i, i < min z (max_len - 1) →
      (reg_mapped_client_read_string_page K P T cfg page_num str_out max_len log).2.1.getD i 0 =
        page_byte words i) ∧
    (reg_mapped_client_read_string_page K P T cfg page_num str_out max_len log).2.1.getD
      (min z (max_len - 1)) 0 = 0 ∧
    (∀ i, min z (max_len - 1) < i →
      (reg_mapped_client_read_string_page K P T cfg page_num str_out max_len log).2.1.getD i 0 =
        str_out.getD i 0) := by
  have hinv : scan_inv words str_out max_len (0 * 4) str_out :=
    ⟨rfl, fun q hq => absurd hq (by omega), fun _ _ => rfl, fun q hq => absurd hq (by omega),
      by omega⟩
  obtain ⟨ret, hret, hpost⟩ := read_string_words_scan K P T cfg page_num words str_out max_len z
    K.REG_MAPPED_PAGE_NUM_WORDS hT hW hlen hz1 hz2 K.REG_MAPPED_PAGE_NUM_WORDS 0 str_out log
    (by omega) hinv
  have hdef : reg_mapped_client_read_string_page K P T cfg page_num str_out max_len log =
      read_string_words K P T cfg page_num max_len K.REG_MAPPED_PAGE_NUM_WORDS 0 str_out log := by
    unfold reg_mapped_client_read_string_page
    rw [if_neg (by omega)]
  rw [hdef]
  obtain ⟨h1, h2, h3, h4, h5⟩ := hpost
  rw [← h1]
  exact ⟨hret, by omega, h2, h3, h4, h5⟩

/-- Witness of claim C19: a page whose first word is `0x00414243`, read with
`max_len = 4` into a buffer holding 9 everywhere: the call returns 3 and the
buffer starts with `0x43, 0x42, 0x41, 0x00`. -/
theorem read_string_page_result_witness :
    (specClientConsts.REG_MAPPED_PAGE_NUM_WORDS ≤ 256 ∧ 2 ≤ 4 ∧
      4 ≤ ([9, 9, 9, 9, 9, 9] : List Nat).length ∧ page_byte [0x00414243] 3 = 0) ∧
    (reg_mapped_client_read_string_page specClientConsts specProtocol
        (page_transport specProtocol [0x00414243]) (demo_cfg TransferMode.SINGLE) 0
        [9, 9, 9, 9, 9, 9] 4 []).1 = 3 ∧
    (reg_mapped_client_read_string_page specClientConsts specProtocol
        (page_transport specProtocol [0x00414243]) (demo_cfg TransferMode.SINGLE) 0
        [9, 9, 9, 9, 9, 9] 4 []).2.1 = [0x43, 0x42, 0x41, 0x00, 9, 9] :=
  ⟨⟨by decide, by decide, by decide, by decide⟩,
    (read_string_page_result specClientConsts specProtocol
      (page_transport specProtocol [0x00414243]) (demo_cfg TransferMode.SINGLE) 0 [0x00414243]
      [9, 9, 9, 9, 9, 9] 4 3 []
      ⟨fun _ => rfl, fun _ _ => rfl, fun _ _ _ _ => ⟨_, rfl, rfl, by
        simp [page_transport, last_tx_offset_count, List.reverse_append, TransportCall.is_tx]⟩⟩
      (by decide) (by decide) (by decide)
      (fun p hp => by interval_cases p <;> decide)
      (Or.inr ⟨by decide, by decide⟩)).1,
    by rfl⟩

/-! ## Client: one register read -/

/-- Claim C21. `reg_mapped_client_read_register` calls receive-clear, transmit and
receive in that order and stops at the first that fails. A failed clear gives
`RX_CLEAR_FAIL` after the clear call alone; a failed transmit gives `TX_FAIL`
with no receive call; a failed receive gives `RX_FAIL`; otherwise the result
code of the response is returned unchanged, and the word behind `data_out` is
the data word of the response when that code is `SUCCESSFUL` and is untouched
in every other case. -/
theorem read_register_call_order (K : ClientConsts) (P : Protocol) (T : Transport)
    (cfg : reg_mapped_client_cfg_t) (page offset data_out : Nat) (log : List TransportCall)
    (req : ClientRequest)
    (hreq : req = ClientRequest.read_pkt { write := false, multiword := false, bulk_req := false, bulk_end := false, mode := cfg.control_interface_mode } 0 page offset) :
    (T.clear_rx_func log = false →
      reg_mapped_client_read_register K P T cfg page offset data_out log =
        (K.REG_MAPPED_CLIENT_RESULT_RX_CLEAR_FAIL, data_out, log ++ [TransportCall.clear_rx])) ∧
    (T.clear_rx_func log = true → T.tx_func (log ++ [TransportCall.clear_rx]) req = false →
      reg_mapped_client_read_register K P T cfg page offset data_out log =
        (K.REG_MAPPED_CLIENT_RESULT_TX_FAIL, data_out,
          log ++ [TransportCall.clear_rx, TransportCall.tx req])) ∧
    (T.clear_rx_func log = true → T.tx_func (log ++ [TransportCall.clear_rx]) req = true →
      T.rx_func (log ++ [TransportCall.clear_rx, TransportCall.tx req]) ResponseKind.read_pkt = none →
      reg_mapped_client_read_register K P T cfg page offset data_out log =
        (K.REG_MAPPED_CLIENT_RESULT_RX_FAIL, data_out,
          log ++ [TransportCall.clear_rx, TransportCall.tx req,
            TransportCall.rx ResponseKind.read_pkt])) ∧
    (∀ resp, T.clear_rx_func log = true → T.tx_func (log ++ [TransportCall.clear_rx]) req = true →
      T.rx_func (log ++ [TransportCall.clear_rx, TransportCall.tx req]) ResponseKind.read_pkt =
        some resp →
      reg_mapped_client_read_register K P T cfg page offset data_out log =
        ((resp.result : Int),
          if resp.result = P.REG_MAPPED_RESULT_SUCCESSFUL then resp.data else data_out,
          log ++ [TransportCall.clear_rx, TransportCall.tx req,
            TransportCall.rx ResponseKind.read_pkt])) := by
  subst hreq
  refine ⟨?_, ?_, ?_, ?_⟩
  · intro hc
    simp [reg_mapped_client_read_register, hc]
  · intro hc ht
    simp [reg_mapped_client_read_register, hc, ht]
  · intro hc ht hr
    simp [reg_mapped_client_read_register, hc, ht, hr]
  · intro resp hc ht hr
    by_cases hs : resp.result = P.REG_MAPPED_RESULT_SUCCESSFUL
    · simp [reg_mapped_client_read_register, hc, ht, hr, hs]
    · simp [reg_mapped_client_read_register, hc, ht, hr, hs]

/-- Witness of claim C21: five transports on which the clear call fails, the
transmit call fails, the receive call fails, the response carries the result
code 2, and the response carries SUCCESSFUL and the word 9. -/
theorem read_register_call_order_witness :
    reg_mapped_client_read_register specClientConsts specProtocol
        { clear_rx_func := fun _ => false, tx_func := fun _ _ => true, rx_func := fun _ _ => none }
        (demo_cfg TransferMode.SINGLE) 2 3 77 [] = (-1, 77, [TransportCall.clear_rx]) ∧
    reg_mapped_client_read_register specClientConsts specProtocol
        { clear_rx_func := fun _ => true, tx_func := fun _ _ => false, rx_func := fun _ _ => none }
        (demo_cfg TransferMode.SINGLE) 2 3 77 [] =
      (-2, 77, [TransportCall.clear_rx, TransportCall.tx (ClientRequest.read_pkt { write := false, multiword := false, bulk_req := false, bulk_end := false, mode := 1 } 0 2 3)]) ∧
    reg_mapped_client_read_register specClientConsts specProtocol
        { clear_rx_func := fun _ => true, tx_func := fun _ _ => true, rx_func := fun _ _ => none }
        (demo_cfg TransferMode.SINGLE) 2 3 77 [] =
      (-3, 77, [TransportCall.clear_rx, TransportCall.tx (ClientRequest.read_pkt { write := false, multiword := false, bulk_req := false, bulk_end := false, mode := 1 } 0 2 3), TransportCall.rx ResponseKind.read_pkt]) ∧
    reg_mapped_client_read_register specClientConsts specProtocol
        { clear_rx_func := fun _ => true, tx_func := fun _ _ => true, rx_func := fun _ _ => some { result := 2, data := 9, seq_no := 0, words := [] } }
        (demo_cfg TransferMode.SINGLE) 2 3 77 [] =
      (2, 77, [TransportCall.clear_rx, TransportCall.tx (ClientRequest.read_pkt { write := false, multiword := false, bulk_req := false, bulk_end := false, mode := 1 } 0 2 3), TransportCall.rx ResponseKind.read_pkt]) ∧
    reg_mapped_client_read_register specClientConsts specProtocol
        { clear_rx_func := fun _ => true, tx_func := fun _ _ => true, rx_func := fun _ _ => some { result := 0, data := 9, seq_no := 0, words := [] } }
        (demo_cfg TransferMode.SINGLE) 2 3 77 [] =
      (0, 9, [TransportCall.clear_rx, TransportCall.tx (ClientRequest.read_pkt { write := false, multiword := false, bulk_req := false, bulk_end := false, mode := 1 } 0 2 3), TransportCall.rx ResponseKind.read_pkt]) :=
  ⟨(read_register_call_order specClientConsts specProtocol _ (demo_cfg TransferMode.SINGLE) 2 3 77 [] _ rfl).1 rfl,
   (read_register_call_order specClientConsts specProtocol _ (demo_cfg TransferMode.SINGLE) 2 3 77 [] _ rfl).2.1 rfl rfl,
   (read_register_call_order specClientConsts specProtocol _ (demo_cfg TransferMode.SINGLE) 2 3 77 [] _ rfl).2.2.1 rfl rfl rfl,
   (read_register_call_order specClientConsts specProtocol _ (demo_cfg TransferMode.SINGLE) 2 3 77 [] _ rfl).2.2.2 _ rfl rfl rfl,
   (read_register_call_order specClientConsts specProtocol _ (demo_cfg TransferMode.SINGLE) 2 3 77 [] _ rfl).2.2.2 _ rfl rfl rfl⟩

/-! ## Stream transmit scheduler: `write` -/

theorem write_find_end_zeros (data : List Nat) (h : ∀ b, b ∈ data → b = 0) :
    ∀ endItr, write_find_end data endItr = none := by
  intro endItr
  induction endItr with
  | zero => rfl
  | succ k ih =>
    have hz : data.getD k 0 = 0 := by
      rw [List.getD_eq_getElem?_getD]
      cases hk : data[k]? with
      | none => rfl
      | some b => exact h b (List.getElem?_mem hk)
    simp only [write_find_end, hz, if_true]
    exact ih

theorem write_find_end_last (data : List Nat) (m : Nat) (hm : 0 < m)
    (hlast : data.getD (m - 1) 0 ≠ 0) :
    ∀ endItr, m ≤ endItr → (∀ j, m ≤ j → j < endItr → data.getD j 0 = 0) →
      write_find_end data endItr = some m := by
  intro endItr
  induction endItr with
  | zero => intro h; omega
  | succ k ih =>
    intro hle hz
    by_cases hk : m ≤ k
    · have h0 : data.getD k 0 = 0 := hz k hk (Nat.lt_succ_self k)
      simp only [write_find_end, h0, if_true]
      exact ih hk (fun j hj hjk => hz j hj (Nat.lt_succ_of_lt hjk))
    · have hmk : m = k + 1 := by omega
      subst hmk
      simp only [Nat.add_sub_cancel] at hlast
      simp only [write_find_end]
      rw [if_neg hlast]

/-- Claim C22. `write` leaves the scheduler as it was (queue, `lastAckedSeqNum`,
no packet transmitted) in two cases: when the queue holds `maxInFlight`
entries or more, where the call throws; and when there is space and every
byte of the payload is 0 (the empty payload included), where the call
returns. -/
theorem write_without_effect (E : FrameEncoding) (s : RemoteTTYStreamTXScheduler)
    (streamId : Nat) (data : List Nat) :
    (s.maxInFlight ≤ s.unackedBuffer.length →
      s.write E streamId data = (WriteOutcome.full_buffer_error, s)) ∧
    (s.unackedBuffer.length < s.maxInFlight → (∀ b, b ∈ data → b = 0) →
      s.write E streamId data = (WriteOutcome.returned, s)) := by
  constructor
  · intro h
    have hs : spaceAvailable s = false := by
      simp only [spaceAvailable, decide_eq_false_iff_not]; omega
    simp [RemoteTTYStreamTXScheduler.write, hs]
  · intro h hz
    have hs : spaceAvailable s = true := by
      simp only [spaceAvailable, decide_eq_true_eq]; exact h
    simp [RemoteTTYStreamTXScheduler.write, hs, write_find_end_zeros data hz]

/-- Witness of claim C22: a full queue of one entry, and an all-zero and an
empty payload on an empty queue. -/
theorem write_without_effect_witness :
    RemoteTTYStreamTXScheduler.write canfdEncoding
        { unackedBuffer := [(1, [5])], lastAckedSeqNum := 3, maxInFlight := 1, callback := [] } 2 [7] =
      (WriteOutcome.full_buffer_error,
        { unackedBuffer := [(1, [5])], lastAckedSeqNum := 3, maxInFlight := 1, callback := [] }) ∧
    RemoteTTYStreamTXScheduler.write canfdEncoding (tx_init 2) 2 [0, 0, 0] =
      (WriteOutcome.returned, tx_init 2) ∧
    RemoteTTYStreamTXScheduler.write canfdEncoding (tx_init 2) 2 [] =
      (WriteOutcome.returned, tx_init 2) :=
  ⟨(write_without_effect canfdEncoding _ 2 [7]).1 (by decide),
   (write_without_effect canfdEncoding (tx_init 2) 2 [0, 0, 0]).2 (by decide) (by decide),
   (write_without_effect canfdEncoding (tx_init 2) 2 []).2 (by decide) (by decide)⟩

theorem vector_resize_take (data : List Nat) (m f : Nat) (hm : m ≤ data.length) (hf : m ≤ f) :
    vector_resize (data.take m) f = data.take m ++ List.replicate (f - m) 0 := by
  have hl : (data.take m).length = m := by simp [List.length_take, hm]
  unfold vector_resize
  rw [hl, List.take_of_length_le (by omega)]

/-- Claim C23. With space in the queue and a payload whose last non-zero byte
stands at index `m - 1`, where `m` is at most the largest frame size of a frame
encoding that rounds up to the smallest valid frame size: `write` returns,
appends one entry behind the entries of the queue, with the given stream id
and the bytes `payload[0..m)` followed by zero bytes up to the smallest valid
frame size not below `m`; it leaves `lastAckedSeqNum` (and the capacity)
unchanged; and it transmits one packet, with that stream id, those bytes and
the sequence number of the position of the new entry. -/
theorem write_appends_entry (E : FrameEncoding) (valid : Nat → Prop) (largest : Nat)
    (hE : E.rounds_up valid largest) (s : RemoteTTYStreamTXScheduler)
    (streamId : Nat) (data : List Nat) (m : Nat)
    (hspace : s.unackedBuffer.length < s.maxInFlight)
    (hm : 0 < m) (hlen : m ≤ data.length) (hlast : data.getD (m - 1) 0 ≠ 0)
    (hzero : ∀ j, m ≤ j → j < data.length → data.getD j 0 = 0)
    (hlargest : m ≤ largest) :
    ∃ f bytes, smallest_frame_size valid m f ∧
      bytes = data.take m ++ List.replicate (f - m) 0 ∧ bytes.length = f ∧
      s.write E streamId data =
        (WriteOutcome.returned,
          { s with
            unackedBuffer := s.unackedBuffer ++ [(streamId, bytes)],
            callback := s.callback ++
              [TXCallbackCall.transmitStreamPacket streamId
                (computeSeqNum s.lastAckedSeqNum s.unackedBuffer.length) bytes] }) := by
  have hf := hE m hlargest
  refine ⟨E.canmore_fd_dlc2len (E.canmore_fd_len2dlc m), _, hf, rfl, ?_, ?_⟩
  · have := hf.2.1
    simp [List.length_take, hlen]
    omega
  · have hs : spaceAvailable s = true := by
      simp only [spaceAvailable, decide_eq_true_eq]; exact hspace
    have hfind := write_find_end_last data m hm hlast data.length hlen hzero
    have hnot : ¬ m > E.canmore_fd_dlc2len (E.canmore_fd_len2dlc m) := Nat.not_lt.mpr hf.2.1
    simp only [RemoteTTYStreamTXScheduler.write, hs, hfind, Bool.not_true, Bool.false_eq_true,
      if_false, hnot, vector_resize_take data m _ hlen hf.2.1, List.length_append,
      List.length_singleton, Nat.add_sub_cancel]

theorem canfdEncoding_rounds_up : canfdEncoding.rounds_up canfd_frame_size 64 := by
  intro m hm
  unfold smallest_frame_size canfd_frame_size
  interval_cases m <;> decide

/-- Witness of claim C23: a payload of ten bytes with zero bytes before and
behind its last non-zero byte, written behind one queued entry when the last
acknowledged sequence number is 65534; the entry is padded to 12 bytes and
sent with the sequence number 1. -/
theorem write_appends_entry_witness :
    ∃ f bytes, smallest_frame_size canfd_frame_size 9 f ∧
      bytes = [1, 0, 2, 0, 0, 0, 0, 0, 5] ++ List.replicate (f - 9) 0 ∧ bytes.length = f ∧
      RemoteTTYStreamTXScheduler.write canfdEncoding
          { unackedBuffer := [(1, [5])], lastAckedSeqNum := 65534, maxInFlight := 3, callback := [] }
          7 [1, 0, 2, 0, 0, 0, 0, 0, 5, 0] =
        (WriteOutcome.returned,
          { unackedBuffer := [(1, [5]), (7, bytes)], lastAckedSeqNum := 65534, maxInFlight := 3,
            callback := [TXCallbackCall.transmitStreamPacket 7 1 bytes] }) :=
  write_appends_entry canfdEncoding canfd_frame_size 64 canfdEncoding_rounds_up
    { unackedBuffer := [(1, [5])], lastAckedSeqNum := 65534, maxInFlight := 3, callback := [] }
    7 [1, 0, 2, 0, 0, 0, 0, 0, 5, 0] 9 (by decide) (by decide) (by decide) (by decide)
    (by intro j h1 h2; have h3 : j < 10 := h2; interval_cases j; rfl) (by decide)

/-! ## Sequence numbers -/

theorem expectedSeqNum_of_lt (r : Nat) (h : r < 65535) : expectedSeqNum r = r + 1 := by
  unfold expectedSeqNum
  have h1 : (r + 1) % 65536 = r + 1 := Nat.mod_eq_of_lt (by omega)
  simp only [h1]
  rw [if_neg (by omega)]

theorem expectedSeqNum_last : expectedSeqNum 65535 = 1 := by decide

theorem expectedSeqNum_ne_zero (r : Nat) : expectedSeqNum r ≠ 0 := by
  unfold expectedSeqNum
  simp only
  split
  · rename_i h; rw [h]; decide
  · rename_i h; exact h

theorem expectedSeqNum_lt (r : Nat) : expectedSeqNum r < 65536 := by
  unfold expectedSeqNum
  simp only
  split
  · exact Nat.mod_lt _ (by decide)
  · exact Nat.mod_lt _ (by decide)

theorem iterate_expectedSeqNum_no_wrap (k L : Nat) (h : L + k ≤ 65535) :
    Nat.iterate expectedSeqNum k L = L + k := by
  induction k generalizing L with
  | zero => rfl
  | succ k ih =>
    rw [Function.iterate_succ_apply, expectedSeqNum_of_lt L (by omega), ih (L + 1) (by omega)]
    omega

theorem iterate_expectedSeqNum_wrap (k L : Nat) (hL : L ≤ 65535) (h1 : 65535 < L + k)
    (h2 : L + k ≤ 131070) : Nat.iterate expectedSeqNum k L = L + k - 65535 := by
  obtain ⟨j, hj⟩ : ∃ j, k = (65535 - L) + (1 + j) := ⟨k - (65535 - L) - 1, by omega⟩
  subst hj
  rw [Nat.add_comm (65535 - L) (1 + j), Function.iterate_add_apply,
    iterate_expectedSeqNum_no_wrap (65535 - L) L (by omega)]
  have h3 : L + (65535 - L) = 65535 := by omega
  rw [h3, Nat.add_comm 1 j, Function.iterate_add_apply]
  simp only [Function.iterate_one, expectedSeqNum_last]
  rw [iterate_expectedSeqNum_no_wrap j 1 (by omega)]
  omega

theorem computeSeqNum_no_wrap (L i : Nat) (h : L + i + 1 ≤ 65535) :
    computeSeqNum L i = L + i + 1 :=
  iterate_expectedSeqNum_no_wrap (i + 1) L (by omega)

theorem computeSeqNum_wrap (L i : Nat) (hL : L ≤ 65535) (h1 : 65535 ≤ L + i) (h2 : L + i < 131070) :
    computeSeqNum L i = L + i - 65534 := by
  unfold computeSeqNum
  rw [iterate_expectedSeqNum_wrap (i + 1) L hL (by omega) (by omega)]
  omega

theorem computeSeqNum_add (L i j : Nat) :
    computeSeqNum (computeSeqNum L i) j = computeSeqNum L (j + i + 1) := by
  unfold computeSeqNum
  rw [← Function.iterate_add_apply]
  have e : j + 1 + (i + 1) = j + i + 1 + 1 := by omega
  rw [e]

/-- What `notifyAck_ackedIdx` computes for a sequence number that is neither
0 nor the last acknowledged one: the one position below 65535 whose sequence
number it is. -/
theorem notifyAck_ackedIdx_spec (L seqNum : Nat) (hL : L < 65536) (hs : seqNum < 65536)
    (h0 : seqNum ≠ 0) (hne : seqNum ≠ L) :
    notifyAck_ackedIdx L seqNum < 65535 ∧
    computeSeqNum L (notifyAck_ackedIdx L seqNum) = seqNum := by
  unfold notifyAck_ackedIdx
  simp only
  by_cases hlt : L < seqNum
  · have e : (((seqNum : Int) - (L : Int) - 1) % 65536).toNat = seqNum - L - 1 := by omega
    rw [e, if_neg (by omega)]
    exact ⟨by omega, by rw [computeSeqNum_no_wrap L _ (by omega)]; omega⟩
  · have e : (((seqNum : Int) - (L : Int) - 1) % 65536).toNat = seqNum + 65535 - L := by omega
    rw [e, if_pos (by omega)]
    have e2 : (seqNum + 65535 - L + 65535) % 65536 = seqNum + 65534 - L := by omega
    rw [e2]
    exact ⟨by omega, by rw [computeSeqNum_wrap L _ (by omega) (by omega) (by omega)]; omega⟩

/-- The sequence numbers of the positions below 65535 are distinct. -/
theorem computeSeqNum_injective (L i j : Nat) (hL : L < 65536) (hi : i < 65535) (hj : j < 65535)
    (h : computeSeqNum L i = computeSeqNum L j) : i = j := by
  by_cases hiw : L + i + 1 ≤ 65535
  · by_cases hjw : L + j + 1 ≤ 65535
    · rw [computeSeqNum_no_wrap L i hiw, computeSeqNum_no_wrap L j hjw] at h; omega
    · rw [computeSeqNum_no_wrap L i hiw,
        computeSeqNum_wrap L j (by omega) (by omega) (by omega)] at h; omega
  · by_cases hjw : L + j + 1 ≤ 65535
    · rw [computeSeqNum_no_wrap L j hjw,
        computeSeqNum_wrap L i (by omega) (by omega) (by omega)] at h; omega
    · rw [computeSeqNum_wrap L i (by omega) (by omega) (by omega),
        computeSeqNum_wrap L j (by omega) (by omega) (by omega)] at h; omega

/-! ## Stream transmit scheduler: sequence numbers along a run -/

theorem queue_seq_nums_append (s : RemoteTTYStreamTXScheduler) (e : Nat × List Nat)
    (calls : List TXCallbackCall) :
    queue_seq_nums { s with unackedBuffer := s.unackedBuffer ++ [e], callback := calls } =
      queue_seq_nums s ++ [computeSeqNum s.lastAckedSeqNum s.unackedBuffer.length] := by
  simp [queue_seq_nums, List.range_succ]

theorem drop_map_range (f : Nat → Nat) (n k : Nat) :
    ((List.range n).map f).drop k = (List.range (n - k)).map (fun j => f (j + k)) := by
  apply List.ext_getElem?
  intro j
  simp only [List.getElem?_drop, List.getElem?_map, List.getElem?_range]
  by_cases h : j < n - k
  · have h2 : k + j < n := by omega
    rw [List.getElem?_range h2, List.getElem?_range h]
    simp [Nat.add_comm]
  · have h2 : ¬ k + j < n := by omega
    rw [List.getElem?_eq_none (by simpa using h2), List.getElem?_eq_none (by simpa using h)]
    rfl

/-- One call of `write` or `notifyAck`: the entries that stay in the queue
keep their sequence numbers, and an entry appended by `write` is transmitted
with the sequence number of its position. -/
theorem first_sent_step (E : FrameEncoding) (s : RemoteTTYStreamTXScheduler) (call : TXCall)
    (hL : s.lastAckedSeqNum < 65536) (h16 : ∀ seqNum, call = TXCall.notifyAck seqNum → seqNum < 65536) :
    (tx_call E s call).lastAckedSeqNum < 65536 ∧
    first_sent_call E s (queue_seq_nums s) call = queue_seq_nums (tx_call E s call) := by
  cases call with
  | write streamId data =>
    simp only [tx_call, first_sent_call, RemoteTTYStreamTXScheduler.write]
    split
    · exact ⟨hL, by simp⟩
    · split
      · exact ⟨hL, by simp⟩
      · split
        · exact ⟨hL, by simp⟩
        · refine ⟨hL, ?_⟩
          simp only [List.length_append, List.length_singleton, Nat.add_sub_cancel,
            gt_iff_lt, Nat.lt_succ_self, if_true, queue_seq_nums_append]
          simp [last_transmitted_seq_num]
  | notifyAck seqNum =>
    have hs := h16 seqNum rfl
    simp only [tx_call, first_sent_call, RemoteTTYStreamTXScheduler.notifyAck]
    split
    · refine ⟨by show (0 : Nat) < 65536; decide, ?_⟩
      simp [queue_seq_nums]
    · rename_i h0
      split
      · exact ⟨hL, by simp [queue_seq_nums]⟩
      · rename_i hne
        refine ⟨hs, ?_⟩
        have hspec := notifyAck_ackedIdx_spec s.lastAckedSeqNum seqNum hL hs h0 hne
        by_cases hidx : notifyAck_ackedIdx s.lastAckedSeqNum seqNum ≥ s.unackedBuffer.length
        · simp [queue_seq_nums, hidx]
        · simp only [hidx, if_false, queue_seq_nums, List.length_drop]
          rw [drop_map_range]
          have e1 : s.unackedBuffer.length -
              (s.unackedBuffer.length - (notifyAck_ackedIdx s.lastAckedSeqNum seqNum + 1)) =
              notifyAck_ackedIdx s.lastAckedSeqNum seqNum + 1 := by omega
          rw [e1]
          refine List.map_congr_left ?_
          intro j _
          have e2 : computeSeqNum seqNum j =
              computeSeqNum (computeSeqNum s.lastAckedSeqNum
                (notifyAck_ackedIdx s.lastAckedSeqNum seqNum)) j := by rw [hspec.2]
          rw [e2, computeSeqNum_add, Nat.add_assoc]

/-- Along every run of `write` and `notifyAck` calls, the sequence number of
the position of an entry of the queue is the number the entry was first
transmitted with. -/
theorem first_sent_run_eq (E : FrameEncoding) (calls : List TXCall) :
    ∀ (s : RemoteTTYStreamTXScheduler), s.lastAckedSeqNum < 65536 →
      (∀ seqNum, TXCall.notifyAck seqNum ∈ calls → seqNum < 65536) →
      (first_sent_run E s (queue_seq_nums s) calls).2 =
        queue_seq_nums (first_sent_run E s (queue_seq_nums s) calls).1 := by
  induction calls with
  | nil => intro s _ _; rfl
  | cons call rest ih =>
    intro s hL h16
    have hstep := first_sent_step E s call hL
      (fun seqNum h => h16 seqNum (by rw [h]; exact List.mem_cons_self _ _))
    simp only [first_sent_run]
    rw [hstep.2]
    exact ih _ hstep.1 (fun seqNum h => h16 seqNum (List.mem_cons_of_mem _ h))

/-! ## Stream transmit scheduler: `notifyAck` -/

theorem retransmit_loop_eq (L : Nat) (buffer : List (Nat × List Nat)) (position : Nat) :
    retransmit_loop L position buffer =
      (List.range buffer.length).map (fun j =>
        TXCallbackCall.transmitStreamPacket (buffer.getD j (0, [])).1
          (computeSeqNum L (position + j)) (buffer.getD j (0, [])).2) := by
  induction buffer generalizing position with
  | nil => rfl
  | cons e rest ih =>
    rw [retransmit_loop, ih (position + 1), List.length_cons, List.range_succ_eq_map,
      List.map_cons, List.map_map]
    refine congrArg₂ _ rfl (List.map_congr_left ?_)
    intro j _
    simp only [Function.comp, List.getD_cons_succ]
    rw [Nat.add_assoc, Nat.add_comm 1 j]

/-- Claim C24. In every state, `notifyAck(0)` empties the queue, sets
`lastAckedSeqNum` to 0 and makes one call of `notifyBufferAvailable` and no
other call; so also when `lastAckedSeqNum` is 0 already, where nothing is
retransmitted. -/
theorem notifyAck_zero_resets (s : RemoteTTYStreamTXScheduler) :
    s.notifyAck 0 =
      { s with unackedBuffer := [], lastAckedSeqNum := 0,
               callback := s.callback ++ [TXCallbackCall.notifyBufferAvailable] } ∧
    ({ s with lastAckedSeqNum := 0 } : RemoteTTYStreamTXScheduler).notifyAck 0 =
      { s with unackedBuffer := [], lastAckedSeqNum := 0,
               callback := s.callback ++ [TXCallbackCall.notifyBufferAvailable] } :=
  ⟨rfl, rfl⟩

/-- Claim C25. In a state with `lastAckedSeqNum = L ≠ 0`, `notifyAck(L)` transmits
the entries of the queue once each, in queue order, each with its stream id,
its bytes and the sequence number of its position, and makes no other call;
the queue and `lastAckedSeqNum` are unchanged. When the state is reached by a
run of `write` and `notifyAck` calls, the sequence number of each position is
the number its entry was first transmitted with. -/
theorem notifyAck_repeated_retransmits (s : RemoteTTYStreamTXScheduler)
    (hL : s.lastAckedSeqNum ≠ 0) :
    s.notifyAck s.lastAckedSeqNum =
      { s with callback := s.callback ++
          (List.range s.unackedBuffer.length).map (fun j =>
            TXCallbackCall.transmitStreamPacket (s.unackedBuffer.getD j (0, [])).1
              (computeSeqNum s.lastAckedSeqNum j) (s.unackedBuffer.getD j (0, [])).2) } ∧
    ∀ (E : FrameEncoding) (s0 : RemoteTTYStreamTXScheduler) (calls : List TXCall),
      s0.lastAckedSeqNum < 65536 →
      (∀ seqNum, TXCall.notifyAck seqNum ∈ calls → seqNum < 65536) →
      (first_sent_run E s0 (queue_seq_nums s0) calls).1 = s →
      (List.range s.unackedBuffer.length).map (computeSeqNum s.lastAckedSeqNum) =
        (first_sent_run E s0 (queue_seq_nums s0) calls).2 := by
  constructor
  · unfold RemoteTTYStreamTXScheduler.notifyAck
    rw [if_neg hL, if_pos rfl, retransmit_loop_eq]
    simp only [Nat.zero_add]
  · intro E s0 calls h0 h16 hrun
    rw [first_sent_run_eq E calls s0 h0 h16, hrun]
    rfl

/-- Witness of claim C25: two entries written when
the last acknowledged sequence number is 65534, first transmitted with the
sequence numbers 65535 and 1 and retransmitted with them. -/
theorem notifyAck_repeated_retransmits_witness :
    RemoteTTYStreamTXScheduler.notifyAck
        { unackedBuffer := [(7, [1, 0, 2]), (3, [9])], lastAckedSeqNum := 65534, maxInFlight := 3,
          callback := [TXCallbackCall.transmitStreamPacket 7 65535 [1, 0, 2],
            TXCallbackCall.transmitStreamPacket 3 1 [9]] }
        65534 =
      { unackedBuffer := [(7, [1, 0, 2]), (3, [9])], lastAckedSeqNum := 65534, maxInFlight := 3,
        callback := [TXCallbackCall.transmitStreamPacket 7 65535 [1, 0, 2],
          TXCallbackCall.transmitStreamPacket 3 1 [9],
          TXCallbackCall.transmitStreamPacket 7 65535 [1, 0, 2],
          TXCallbackCall.transmitStreamPacket 3 1 [9]] } ∧
    [65535, 1] =
      (first_sent_run canfdEncoding
        { unackedBuffer := [], lastAckedSeqNum := 65534, maxInFlight := 3, callback := [] } []
        [TXCall.write 7 [1, 0, 2, 0], TXCall.write 3 [9]]).2 :=
  ⟨(notifyAck_repeated_retransmits
      { unackedBuffer := [(7, [1, 0, 2]), (3, [9])], lastAckedSeqNum := 65534, maxInFlight := 3,
        callback := [TXCallbackCall.transmitStreamPacket 7 65535 [1, 0, 2],
          TXCallbackCall.transmitStreamPacket 3 1 [9]] }
      (by decide)).1,
   (notifyAck_repeated_retransmits
      { unackedBuffer := [(7, [1, 0, 2]), (3, [9])], lastAckedSeqNum := 65534, maxInFlight := 3,
        callback := [TXCallbackCall.transmitStreamPacket 7 65535 [1, 0, 2],
          TXCallbackCall.transmitStreamPacket 3 1 [9]] }
      (by decide)).2 canfdEncoding
      { unackedBuffer := [], lastAckedSeqNum := 65534, maxInFlight := 3, callback := [] }
      [TXCall.write 7 [1, 0, 2, 0], TXCall.write 3 [9]] (by decide)
      (by intro seqNum h; simp at h) (by decide)⟩

/-- Counterexample to claim C26 as stated: a queue of 65536 entries. With
`lastAckedSeqNum = 0` the entry at position 65535 has the sequence number 1,
which is that of position 0 too, and `notifyAck(1)` computes index 0 and
removes the first entry only. -/
theorem notifyAck_index_counterexample :
    (65535 < (List.replicate 65536 ((0 : Nat), ([] : List Nat))).length ∧
      Nat.iterate expectedSeqNum (65535 + 1) 0 = 1 ∧ (1 : Nat) ≠ 0) ∧
    notifyAck_ackedIdx 0 1 = 0 ∧
    (RemoteTTYStreamTXScheduler.notifyAck
        { unackedBuffer := List.replicate 65536 (0, []), lastAckedSeqNum := 0, maxInFlight := 65536, callback := [] }
        1).unackedBuffer = List.replicate 65535 (0, []) ∧
    (RemoteTTYStreamTXScheduler.notifyAck
        { unackedBuffer := List.replicate 65536 (0, []), lastAckedSeqNum := 0, maxInFlight := 65536, callback := [] }
        1).unackedBuffer ≠ List.drop (65535 + 1) (List.replicate 65536 (0, [])) := by
  have hidx : notifyAck_ackedIdx 0 1 = 0 := by decide
  have hbuf : (RemoteTTYStreamTXScheduler.notifyAck
        { unackedBuffer := List.replicate 65536 (0, []), lastAckedSeqNum := 0, maxInFlight := 65536, callback := [] }
        1).unackedBuffer = List.replicate 65535 (0, []) := by
    unfold RemoteTTYStreamTXScheduler.notifyAck
    rw [if_neg (by decide), if_neg (by decide)]
    simp only [hidx, List.length_replicate, List.drop_replicate]
    rw [if_neg (by decide)]
  refine ⟨⟨by rw [List.length_replicate]; decide, ?_, by decide⟩, hidx, hbuf, ?_⟩
  · rw [iterate_expectedSeqNum_wrap 65536 0 (by decide) (by decide) (by decide)]
  · rw [hbuf]
    intro h
    have hlen := congrArg List.length h
    rw [List.length_replicate, List.length_drop, List.length_replicate] at hlen
    exact absurd hlen (by decide)

/-- Claim C26, amended. For `lastAckedSeqNum = L`, a queue of `n` entries and a
position `i < n` below 65535, let `s` be the value reached from `L` by `i + 1`
steps to the expected next sequence number. If `s ≠ L`, `notifyAck(s)`
computes the index `i`, removes the entries 0 to `i`, keeps the entries behind
them in their order, sets `lastAckedSeqNum` to `s`, makes one call of
`notifyBufferAvailable` and no other call; and every entry that remains has
the sequence number it had before the call. -/
theorem notifyAck_removes_acked (t : RemoteTTYStreamTXScheduler) (i s : Nat)
    (hL : t.lastAckedSeqNum < 65536) (hi : i < t.unackedBuffer.length) (hi2 : i < 65535)
    (hs : s = Nat.iterate expectedSeqNum (i + 1) t.lastAckedSeqNum)
    (hne : s ≠ t.lastAckedSeqNum) :
    notifyAck_ackedIdx t.lastAckedSeqNum s = i ∧
    t.notifyAck s =
      { t with unackedBuffer := t.unackedBuffer.drop (i + 1), lastAckedSeqNum := s,
               callback := t.callback ++ [TXCallbackCall.notifyBufferAvailable] } ∧
    ∀ j, j < (t.notifyAck s).unackedBuffer.length →
      (t.notifyAck s).unackedBuffer.getD j (0, []) = t.unackedBuffer.getD (i + 1 + j) (0, []) ∧
      computeSeqNum (t.notifyAck s).lastAckedSeqNum j = computeSeqNum t.lastAckedSeqNum (i + 1 + j) := by
  have hs0 : s ≠ 0 := by rw [hs, Function.iterate_succ_apply']; exact expectedSeqNum_ne_zero _
  have hs1 : s < 65536 := by rw [hs, Function.iterate_succ_apply']; exact expectedSeqNum_lt _
  have hspec := notifyAck_ackedIdx_spec t.lastAckedSeqNum s hL hs1 hs0 hne
  have hidx : notifyAck_ackedIdx t.lastAckedSeqNum s = i :=
    computeSeqNum_injective t.lastAckedSeqNum _ i hL hspec.1 hi2 (by rw [hspec.2, hs]; rfl)
  have hcall : t.notifyAck s =
      { t with unackedBuffer := t.unackedBuffer.drop (i + 1), lastAckedSeqNum := s,
               callback := t.callback ++ [TXCallbackCall.notifyBufferAvailable] } := by
    unfold RemoteTTYStreamTXScheduler.notifyAck
    rw [if_neg hs0, if_neg hne]
    simp only [hidx]
    rw [if_neg (by omega)]
  refine ⟨hidx, hcall, ?_⟩
  intro j _
  rw [hcall]
  simp only
  constructor
  · simp only [List.getD_eq_getElem?_getD, List.getElem?_drop]
  · have e : s = computeSeqNum t.lastAckedSeqNum i := hs
    rw [e, computeSeqNum_add]
    congr 1
    omega

/-- Witness of claim C26 (amended): with `lastAckedSeqNum = 65534` the
sequence number 1 acknowledges the entries at positions 0 and 1 of three. -/
theorem notifyAck_removes_acked_witness :
    notifyAck_ackedIdx 65534 1 = 1 ∧
    RemoteTTYStreamTXScheduler.notifyAck
        { unackedBuffer := [(7, [1, 0, 2]), (3, [9]), (4, [8])], lastAckedSeqNum := 65534, maxInFlight := 3, callback := [] }
        1 =
      { unackedBuffer := [(4, [8])], lastAckedSeqNum := 1, maxInFlight := 3,
        callback := [TXCallbackCall.notifyBufferAvailable] } :=
  ⟨(notifyAck_removes_acked
      { unackedBuffer := [(7, [1, 0, 2]), (3, [9]), (4, [8])], lastAckedSeqNum := 65534, maxInFlight := 3, callback := [] }
      1 1 (by decide) (by decide) (by decide) (by decide) (by decide)).1,
   (notifyAck_removes_acked
      { unackedBuffer := [(7, [1, 0, 2]), (3, [9]), (4, [8])], lastAckedSeqNum := 65534, maxInFlight := 3, callback := [] }
      1 1 (by decide) (by decide) (by decide) (by decide) (by decide)).2.1⟩

/-- Claim C27. For a sequence number that is neither 0 nor `lastAckedSeqNum` and is
not the sequence number of any entry of the queue, the index computed by
`notifyAck` is not below the length of the queue, and `notifyAck` empties the
queue (nothing is erased by index), sets `lastAckedSeqNum` to that number and
makes one call of `notifyBufferAvailable` and no other call. -/
theorem notifyAck_unknown_clears (t : RemoteTTYStreamTXScheduler) (seqNum : Nat)
    (hL : t.lastAckedSeqNum < 65536) (hs : seqNum < 65536)
    (h0 : seqNum ≠ 0) (hne : seqNum ≠ t.lastAckedSeqNum)
    (hnot : ∀ j, j < t.unackedBuffer.length → computeSeqNum t.lastAckedSeqNum j ≠ seqNum) :
    t.unackedBuffer.length ≤ notifyAck_ackedIdx t.lastAckedSeqNum seqNum ∧
    t.notifyAck seqNum =
      { t with unackedBuffer := [], lastAckedSeqNum := seqNum,
               callback := t.callback ++ [TXCallbackCall.notifyBufferAvailable] } := by
  have hspec := notifyAck_ackedIdx_spec t.lastAckedSeqNum seqNum hL hs h0 hne
  have hidx : t.unackedBuffer.length ≤ notifyAck_ackedIdx t.lastAckedSeqNum seqNum := by
    by_contra hlt
    exact hnot _ (Nat.lt_of_not_le hlt) hspec.2
  refine ⟨hidx, ?_⟩
  unfold RemoteTTYStreamTXScheduler.notifyAck
  rw [if_neg h0, if_neg hne]
  simp only
  rw [if_pos hidx]

/-- Witness of claim C27: two queued entries with the
sequence numbers 65535 and 1, acknowledged with 2; and an empty queue. -/
theorem notifyAck_unknown_clears_witness :
    (2 ≤ notifyAck_ackedIdx 65534 2 ∧
      RemoteTTYStreamTXScheduler.notifyAck
          { unackedBuffer := [(7, [1, 0, 2]), (3, [9])], lastAckedSeqNum := 65534, maxInFlight := 3, callback := [] }
          2 =
        { unackedBuffer := [], lastAckedSeqNum := 2, maxInFlight := 3,
          callback := [TXCallbackCall.notifyBufferAvailable] }) ∧
    (0 ≤ notifyAck_ackedIdx 0 9 ∧
      RemoteTTYStreamTXScheduler.notifyAck (tx_init 3) 9 =
        { unackedBuffer := [], lastAckedSeqNum := 9, maxInFlight := 3,
          callback := [TXCallbackCall.notifyBufferAvailable] }) :=
  ⟨notifyAck_unknown_clears
      { unackedBuffer := [(7, [1, 0, 2]), (3, [9])], lastAckedSeqNum := 65534, maxInFlight := 3, callback := [] }
      2 (by decide) (by decide) (by decide) (by decide)
      (by intro j hj; have hj2 : j < 2 := hj; interval_cases j <;> decide),
   notifyAck_unknown_clears (tx_init 3) 9 (by decide) (by decide) (by decide) (by decide)
      (by intro j hj; exact absurd hj (Nat.not_lt_zero j))⟩

/-! ## Stream receive scheduler -/

/-- Claim C28. For `lastReceivedSeqNum = r` and a 16-bit `seqNum`, `checkPacket`
returns true exactly when `seqNum` is the expected next number, `r + 1`, or 1
when `r = 65535`, and then `lastReceivedSeqNum` is `seqNum`; for every other
`seqNum` it returns false and leaves the scheduler as it was: no
acknowledgement, the same `lastReceivedSeqNum`, counter and deadline. The
sequence number 0 is accepted in no state. -/
theorem checkPacket_accepts_expected (ticks_per_ms : Nat) (s : RemoteTTYStreamRXScheduler)
    (seqNum now : Nat) (hr : s.lastReceivedSeqNum < 65536) :
    ((s.checkPacket ticks_per_ms seqNum now).1 = true ↔
      seqNum = if s.lastReceivedSeqNum = 65535 then 1 else s.lastReceivedSeqNum + 1) ∧
    ((s.checkPacket ticks_per_ms seqNum now).1 = true →
      (s.checkPacket ticks_per_ms seqNum now).2.lastReceivedSeqNum = seqNum) ∧
    ((s.checkPacket ticks_per_ms seqNum now).1 = false →
      (s.checkPacket ticks_per_ms seqNum now).2 = s) ∧
    (s.checkPacket ticks_per_ms 0 now) = (false, s) := by
  have hexp : expectedSeqNum s.lastReceivedSeqNum =
      if s.lastReceivedSeqNum = 65535 then 1 else s.lastReceivedSeqNum + 1 := by
    by_cases h : s.lastReceivedSeqNum = 65535
    · rw [h]; decide
    · rw [if_neg h, expectedSeqNum_of_lt _ (by omega)]
  rw [← hexp]
  by_cases he : seqNum = expectedSeqNum s.lastReceivedSeqNum
  · refine ⟨?_, ?_, ?_, ?_⟩
    · simp [RemoteTTYStreamRXScheduler.checkPacket, he]
    · intro _
      simp only [RemoteTTYStreamRXScheduler.checkPacket, he, ne_eq, not_true_eq_false, if_false,
        updateNextScheduledAck]
      split <;> rfl
    · simp [RemoteTTYStreamRXScheduler.checkPacket, he]
    · have h0 : (0 : Nat) ≠ expectedSeqNum s.lastReceivedSeqNum :=
        fun h => expectedSeqNum_ne_zero _ h.symm
      simp only [RemoteTTYStreamRXScheduler.checkPacket, h0, ne_eq, not_false_eq_true, if_true]
  · refine ⟨?_, ?_, ?_, ?_⟩
    · simp [RemoteTTYStreamRXScheduler.checkPacket, he]
    · simp [RemoteTTYStreamRXScheduler.checkPacket, he]
    · simp [RemoteTTYStreamRXScheduler.checkPacket, he]
    · have h0 : (0 : Nat) ≠ expectedSeqNum s.lastReceivedSeqNum :=
        fun h => expectedSeqNum_ne_zero _ h.symm
      simp only [RemoteTTYStreamRXScheduler.checkPacket, h0, ne_eq, not_false_eq_true, if_true]

/-- Witness of claim C28: after the sequence number
65535 the number 1 is accepted, and 0 and 2 are not. -/
theorem checkPacket_accepts_expected_witness :
    (RemoteTTYStreamRXScheduler.checkPacket 1000
        { lastReceivedSeqNum := 65535, unackedPackets := 0, maxBeforeAck := 3, nextScheduledAck := 5000, ackTransmitInterval := 200, transmitAck := [] }
        1 4000).2.lastReceivedSeqNum = 1 ∧
    (RemoteTTYStreamRXScheduler.checkPacket 1000
        { lastReceivedSeqNum := 65535, unackedPackets := 0, maxBeforeAck := 3, nextScheduledAck := 5000, ackTransmitInterval := 200, transmitAck := [] }
        2 4000).2 =
      { lastReceivedSeqNum := 65535, unackedPackets := 0, maxBeforeAck := 3, nextScheduledAck := 5000, ackTransmitInterval := 200, transmitAck := [] } ∧
    RemoteTTYStreamRXScheduler.checkPacket 1000
        { lastReceivedSeqNum := 65535, unackedPackets := 0, maxBeforeAck := 3, nextScheduledAck := 5000, ackTransmitInterval := 200, transmitAck := [] }
        0 4000 =
      (false, { lastReceivedSeqNum := 65535, unackedPackets := 0, maxBeforeAck := 3, nextScheduledAck := 5000, ackTransmitInterval := 200, transmitAck := [] }) :=
  ⟨(checkPacket_accepts_expected 1000 _ 1 4000 (by decide)).2.1 (by decide),
   (checkPacket_accepts_expected 1000 _ 2 4000 (by decide)).2.2.1 (by decide),
   (checkPacket_accepts_expected 1000 _ 0 4000 (by decide)).2.2.2⟩

theorem checkPacket_rejected (ticks_per_ms : Nat) (s : RemoteTTYStreamRXScheduler)
    (seqNum now : Nat) (h : seqNum ≠ expectedSeqNum s.lastReceivedSeqNum) :
    s.checkPacket ticks_per_ms seqNum now = (false, s) := by
  unfold RemoteTTYStreamRXScheduler.checkPacket
  rw [if_pos h]

theorem checkPacket_accepted (ticks_per_ms : Nat) (s : RemoteTTYStreamRXScheduler)
    (seqNum now : Nat) (h : seqNum = expectedSeqNum s.lastReceivedSeqNum) :
    s.checkPacket ticks_per_ms seqNum now =
      (true,
        { s with
          lastReceivedSeqNum := seqNum,
          unackedPackets := if s.unackedPackets + 1 ≥ s.maxBeforeAck then 0 else s.unackedPackets + 1,
          transmitAck := if s.unackedPackets + 1 ≥ s.maxBeforeAck then s.transmitAck ++ [seqNum]
            else s.transmitAck,
          nextScheduledAck := now + s.ackTransmitInterval * ticks_per_ms }) := by
  unfold RemoteTTYStreamRXScheduler.checkPacket
  rw [if_neg (not_not.mpr h)]
  simp only [updateNextScheduledAck]
  split <;> rfl

theorem counter_step (m b c : Nat) (hm : 1 ≤ m) (hc : b % m = c) :
    (c + 1 ≥ m ↔ (b + 1) % m = 0) ∧ (if c + 1 ≥ m then 0 else c + 1) = (b + 1) % m := by
  have hlt : c < m := by rw [← hc]; exact Nat.mod_lt _ hm
  have e : (b + 1) % m = (c + 1) % m := by
    rw [Nat.add_mod b 1 m, hc, Nat.add_mod c 1 m, Nat.mod_eq_of_lt hlt]
  by_cases h : c + 1 ≥ m
  · have hcm : c + 1 = m := by omega
    have e0 : (b + 1) % m = 0 := by rw [e, hcm, Nat.mod_self]
    exact ⟨⟨fun _ => e0, fun _ => h⟩, by rw [if_pos h, e0]⟩
  · have e1 : (b + 1) % m = c + 1 := by rw [e, Nat.mod_eq_of_lt (by omega)]
    exact ⟨⟨fun h2 => absurd h2 h, fun h2 => by omega⟩, by rw [if_neg h, e1]⟩

/-- The run of `checkPacket` calls from a state whose counter is `b % m`:
an acknowledgement is sent for the accepted packets whose number, counted
from `b + 1`, is a multiple of `m`. -/
theorem checkPackets_acks (ticks_per_ms m : Nat) (hm : 1 ≤ m) (packets : List (Nat × Nat)) :
    ∀ (s : RemoteTTYStreamRXScheduler) (b : Nat), s.maxBeforeAck = m → b % m = s.unackedPackets →
      (checkPackets ticks_per_ms s packets).transmitAck =
        s.transmitAck ++
          (((accepted_packets ticks_per_ms s packets).enumFrom (b + 1)).filter
            (fun p => p.1 % m = 0)).map Prod.snd ∧
      (checkPackets ticks_per_ms s packets).unackedPackets =
        (b + (accepted_packets ticks_per_ms s packets).length) % m ∧
      (checkPackets ticks_per_ms s packets).maxBeforeAck = m := by
  induction packets with
  | nil =>
    intro s b hsm hb
    simp [checkPackets, accepted_packets, hb, hsm]
  | cons p rest ih =>
    intro s b hsm hb
    obtain ⟨seqNum, now⟩ := p
    by_cases h : seqNum = expectedSeqNum s.lastReceivedSeqNum
    · have hstep := counter_step m b s.unackedPackets hm hb
      obtain ⟨s1, hs1⟩ : ∃ s1, s1 = (s.checkPacket ticks_per_ms seqNum now).2 := ⟨_, rfl⟩
      have hc := checkPacket_accepted ticks_per_ms s seqNum now h
      have hfst : (s.checkPacket ticks_per_ms seqNum now).1 = true := by rw [hc]
      have hm1 : s1.maxBeforeAck = m := by rw [hs1, hc]; exact hsm
      have hu1 : (b + 1) % m = s1.unackedPackets := by
        rw [hs1, hc, ← hstep.2, hsm]
      have ht1 : s1.transmitAck =
          if s.unackedPackets + 1 ≥ m then s.transmitAck ++ [seqNum] else s.transmitAck := by
        rw [hs1, hc, hsm]
      simp only [checkPackets, accepted_packets, hfst, if_true, List.singleton_append,
        List.enumFrom_cons, List.length_cons, ← hs1]
      obtain ⟨h1, h2, h3⟩ := ih s1 (b + 1) hm1 hu1
      refine ⟨?_, ?_, h3⟩
      · rw [h1, ht1]
        by_cases hge : s.unackedPackets + 1 ≥ m
        · have hz : (b + 1) % m = 0 := hstep.1.mp hge
          simp [hge, hz, List.filter_cons]
        · have hz : ¬ (b + 1) % m = 0 := fun hz => hge (hstep.1.mpr hz)
          simp [hge, hz, List.filter_cons]
      · rw [h2]
        congr 1
        omega
    · have hc := checkPacket_rejected ticks_per_ms s seqNum now h
      simp only [checkPackets, accepted_packets, hc, Bool.false_eq_true, if_false, List.nil_append]
      exact ih s b hsm hb

/-- Claim C29. With a batch threshold `maxBeforeAck = m ≥ 1` and the counter at 0,
along every run of `checkPacket` calls: the acknowledgements sent are those
for every `m`-th accepted packet (the accepted packets numbered `m`, `2 m`,
...), each with the sequence number of that packet, and no other; the counter
is the number of accepted packets modulo `m`, so it is 0 after each
acknowledgement and below `m` after every call; and a call that rejects its
packet leaves acknowledgements and counter as they were. -/
theorem checkPacket_batch_acks (ticks_per_ms : Nat) (s : RemoteTTYStreamRXScheduler)
    (packets : List (Nat × Nat)) (hm : 1 ≤ s.maxBeforeAck) (h0 : s.unackedPackets = 0) :
    (checkPackets ticks_per_ms s packets).transmitAck =
      s.transmitAck ++
        (((accepted_packets ticks_per_ms s packets).enumFrom 1).filter
          (fun p => p.1 % s.maxBeforeAck = 0)).map Prod.snd ∧
    (checkPackets ticks_per_ms s packets).unackedPackets =
      (accepted_packets ticks_per_ms s packets).length % s.maxBeforeAck ∧
    (checkPackets ticks_per_ms s packets).unackedPackets < s.maxBeforeAck ∧
    ∀ seqNum now,
      ((checkPackets ticks_per_ms s packets).checkPacket ticks_per_ms seqNum now).1 = false →
      ((checkPackets ticks_per_ms s packets).checkPacket ticks_per_ms seqNum now).2 =
        checkPackets ticks_per_ms s packets := by
  obtain ⟨h1, h2, _⟩ := checkPackets_acks ticks_per_ms s.maxBeforeAck hm packets s 0 rfl
    (by rw [h0, Nat.zero_mod])
  rw [Nat.zero_add] at h1 h2
  refine ⟨h1, h2, ?_, ?_⟩
  · rw [h2]; exact Nat.mod_lt _ hm
  · intro seqNum now hf
    by_cases h : seqNum = expectedSeqNum (checkPackets ticks_per_ms s packets).lastReceivedSeqNum
    · rw [checkPacket_accepted _ _ _ _ h] at hf
      exact absurd hf (by simp)
    · rw [checkPacket_rejected _ _ _ _ h]

/-- Witness of claim C29: threshold 2, five packets accepted
(65535, 1, 2, 3, 4) and two rejected (0 and 9) from the last received number
65534: acknowledgements for 1 and 3, counter 1. -/
theorem checkPacket_batch_acks_witness :
    (checkPackets 1000 (demo_rx 2)
        [(65535, 10), (0, 20), (1, 30), (2, 40), (9, 50), (3, 60), (4, 70)]).transmitAck = [1, 3] ∧
    (checkPackets 1000 (demo_rx 2)
        [(65535, 10), (0, 20), (1, 30), (2, 40), (9, 50), (3, 60), (4, 70)]).unackedPackets = 1 ∧
    accepted_packets 1000 (demo_rx 2)
        [(65535, 10), (0, 20), (1, 30), (2, 40), (9, 50), (3, 60), (4, 70)] = [65535, 1, 2, 3, 4] := by
  have h := checkPacket_batch_acks 1000 (demo_rx 2)
    [(65535, 10), (0, 20), (1, 30), (2, 40), (9, 50), (3, 60), (4, 70)] (by decide) rfl
  have hacc : accepted_packets 1000 (demo_rx 2)
      [(65535, 10), (0, 20), (1, 30), (2, 40), (9, 50), (3, 60), (4, 70)] = [65535, 1, 2, 3, 4] := by
    decide
  refine ⟨?_, ?_, hacc⟩
  · rw [h.1, hacc]; decide
  · rw [h.2.1, hacc]; decide

/-- Claim C30. With the time `now` and the deadline as inputs. Before the deadline
`handleTimer` leaves the scheduler as it was (no acknowledgement) and returns
the whole milliseconds left to the deadline, or 1 when that is 0, which is
positive. From the deadline on it makes one call of `transmitAck`, with
`lastReceivedSeqNum`, sets the counter to 0, sets the deadline to the time of
the update plus the interval, which is not before the old deadline, changes
nothing else and returns the interval. -/
theorem handleTimer_result (ticks_per_ms : Nat) (s : RemoteTTYStreamRXScheduler)
    (now now_update : Nat) :
    (now < s.nextScheduledAck →
      s.handleTimer ticks_per_ms now now_update =
        (if (s.nextScheduledAck - now) / ticks_per_ms = 0 then 1
          else (s.nextScheduledAck - now) / ticks_per_ms, s) ∧
      0 < (s.handleTimer ticks_per_ms now now_update).1) ∧
    (s.nextScheduledAck ≤ now → now ≤ now_update →
      s.handleTimer ticks_per_ms now now_update =
        (s.ackTransmitInterval,
          { s with transmitAck := s.transmitAck ++ [s.lastReceivedSeqNum], unackedPackets := 0,
                   nextScheduledAck := now_update + s.ackTransmitInterval * ticks_per_ms }) ∧
      s.nextScheduledAck ≤ (s.handleTimer ticks_per_ms now now_update).2.nextScheduledAck ∧
      (0 < s.ackTransmitInterval * ticks_per_ms →
        s.nextScheduledAck < (s.handleTimer ticks_per_ms now now_update).2.nextScheduledAck)) := by
  constructor
  · intro h
    have hn : ¬ s.nextScheduledAck ≤ now := Nat.not_le.mpr h
    have e : s.handleTimer ticks_per_ms now now_update =
        (if (s.nextScheduledAck - now) / ticks_per_ms = 0 then 1
          else (s.nextScheduledAck - now) / ticks_per_ms, s) := by
      unfold RemoteTTYStreamRXScheduler.handleTimer
      rw [if_neg hn]
      by_cases hz : (s.nextScheduledAck - now) / ticks_per_ms = 0
      · simp [hz]
      · simp [hz, Nat.pos_of_ne_zero hz]
    refine ⟨e, ?_⟩
    rw [e]
    simp only
    split
    · exact Nat.one_pos
    · rename_i hz; exact Nat.pos_of_ne_zero hz
  · intro h hmono
    have e : s.handleTimer ticks_per_ms now now_update =
        (s.ackTransmitInterval,
          { s with transmitAck := s.transmitAck ++ [s.lastReceivedSeqNum], unackedPackets := 0,
                   nextScheduledAck := now_update + s.ackTransmitInterval * ticks_per_ms }) := by
      unfold RemoteTTYStreamRXScheduler.handleTimer
      rw [if_pos h]
      rfl
    refine ⟨e, ?_, ?_⟩
    · rw [e]; simp only; omega
    · intro hpos; rw [e]; simp only; omega

/-- Witness of claim C30: a deadline at tick 5000 of a clock of
1000 ticks to the millisecond, looked at 400 ticks and 2400 ticks before it
and 100 ticks behind it. -/
theorem handleTimer_result_witness :
    (RemoteTTYStreamRXScheduler.handleTimer 1000 (demo_rx 3) 4600 4600 = (1, demo_rx 3) ∧
      RemoteTTYStreamRXScheduler.handleTimer 1000 (demo_rx 3) 2600 2600 = (2, demo_rx 3)) ∧
    RemoteTTYStreamRXScheduler.handleTimer 1000 (demo_rx 3) 5100 5101 =
      (200, { lastReceivedSeqNum := 65534, unackedPackets := 0, maxBeforeAck := 3,
              nextScheduledAck := 205101, ackTransmitInterval := 200, transmitAck := [65534] }) :=
  ⟨⟨((handleTimer_result 1000 (demo_rx 3) 4600 4600).1 (by decide)).1,
    ((handleTimer_result 1000 (demo_rx 3) 2600 2600).1 (by decide)).1⟩,
   ((handleTimer_result 1000 (demo_rx 3) 5100 5101).2 (by decide) (by decide)).1⟩

/-! ## Server: copy length of a multiword access to a byte array -/

theorem multiword_write_byte_copy_len (P : Protocol) (inst : reg_mapped_server_inst_t)
    (req : reg_mapped_multiword_write_request) (perm : Perm) (size : Nat) (base_addr : List Nat)
    (hp : req.page < inst.num_pages)
    (hpage : page_at inst req.page = Page.mem_mapped_byte perm size base_addr) :
    reg_mapped_server_handle_multiword_write P inst req =
      match multiword_byte_copy_len size req.offset req.count with
      | none => (P.REG_MAPPED_RESULT_INVALID_REGISTER_ADDRESS, inst)
      | some copy_len =>
        if perm ≠ Perm.READ_WRITE ∧ perm ≠ Perm.WRITE_ONLY then
          (P.REG_MAPPED_RESULT_INVALID_REGISTER_MODE, inst)
        else
          (P.REG_MAPPED_RESULT_SUCCESSFUL,
            set_page inst req.page
              (Page.mem_mapped_byte perm size
                (memcpy base_addr (req.offset * 4) (req.data.take copy_len)))) := by
  unfold reg_mapped_server_handle_multiword_write multiword_byte_copy_len
  rw [if_neg (Nat.not_le.mpr hp), hpage]
  simp only
  split <;> rfl

theorem multiword_read_byte_copy_len (P : Protocol) (inst : reg_mapped_server_inst_t)
    (req : reg_mapped_read_request) (data_out : List Nat) (perm : Perm) (size : Nat)
    (base_addr : List Nat) (hp : req.page < inst.num_pages)
    (hpage : page_at inst req.page = Page.mem_mapped_byte perm size base_addr) :
    reg_mapped_server_handle_multiword_read P inst req data_out =
      match multiword_byte_copy_len size req.offset req.count with
      | none => (P.REG_MAPPED_RESULT_INVALID_REGISTER_ADDRESS, data_out)
      | some copy_len =>
        if perm ≠ Perm.READ_WRITE ∧ perm ≠ Perm.READ_ONLY then
          (P.REG_MAPPED_RESULT_INVALID_REGISTER_MODE, data_out)
        else
          (P.REG_MAPPED_RESULT_SUCCESSFUL,
            memcpy
              (if copy_len % 4 ≠ 0 then
                memcpy data_out (multiword_read_clear_offset req.count) [0, 0, 0, 0]
              else data_out)
              0 ((base_addr.drop (req.offset * 4)).take copy_len)) := by
  unfold reg_mapped_server_handle_multiword_read multiword_byte_copy_len
    multiword_read_clear_offset
  rw [if_neg (Nat.not_le.mpr hp), hpage]
  simp only
  split <;> rfl

/-- For a count of at least 1 the copy stays inside the page and the cleared
word inside the `4 * count` data bytes of the response. -/
theorem multiword_byte_copy_len_inside (size offset count copy_len : Nat) (hc : 1 ≤ count)
    (hcount : count < 256)
    (h : multiword_byte_copy_len size offset count = some copy_len) :
    copy_len ≤ size - 4 * offset ∧ 4 * offset + copy_len ≤ size ∧ copy_len ≤ 4 * count ∧
    multiword_read_clear_offset count + 4 ≤ 4 * count := by
  unfold multiword_byte_copy_len at h
  simp only at h
  have hclear : multiword_read_clear_offset count + 4 ≤ 4 * count := by
    unfold multiword_read_clear_offset size_t_sub
    rw [if_pos hc]
    omega
  split at h
  · exact absurd h (by simp)
  · rename_i hrej
    simp only [Option.some.injEq] at h
    split at h
    · rename_i hbig
      unfold size_t_sub at h
      rw [if_pos (by omega)] at h
      exact ⟨by omega, by omega, by omega, hclear⟩
    · exact ⟨by omega, by omega, by omega, hclear⟩

/-- Claim C31, the code at a failing input. Page 1 of `demo_inst` is a
read-write byte array of 7 bytes; a multiword request for offset 2 with count
0 is not answered INVALID_REGISTER_ADDRESS (`8 + 0 ≥ 7 + 4` fails), it is
trimmed (`8 + 0 > 7`), and the `size_t` subtraction `7 - 8` wraps around: the
copy length is `2 ^ 32 - 1`, not at most `7 - 8`, the copied range starts
behind the page, and the word cleared by the read stands at offset
`2 ^ 32 - 4` of a response with 0 data bytes. Both handlers return
SUCCESSFUL, and the server answers the read request `[18, 0, 1, 2]` with a
successful multiword read response. -/
theorem multiword_copy_len_underflow :
    multiword_byte_copy_len 7 2 0 = some 4294967295 ∧
    ¬ ((4294967295 : Nat) ≤ 7 - 4 * 2) ∧ ¬ (4 * 2 + (4294967295 : Nat) ≤ 7) ∧
    multiword_read_clear_offset 0 = 4294967292 ∧
    ¬ (multiword_read_clear_offset 0 + 4 ≤ 4 * 0) ∧
    (reg_mapped_server_handle_multiword_read specProtocol demo_inst
      { count := 0, page := 1, offset := 2 } [0, 0, 0, 0, 0, 0, 0, 0]).1 =
        specProtocol.REG_MAPPED_RESULT_SUCCESSFUL ∧
    (reg_mapped_server_handle_multiword_write specProtocol demo_inst
      { count := 0, page := 1, offset := 2, data := [] }).1 =
        specProtocol.REG_MAPPED_RESULT_SUCCESSFUL ∧
    (reg_mapped_server_handle_request specProtocol demo_cb demo_inst [18, 0, 1, 2]).tx_log =
      [Response.multiword_read_pkt specProtocol.REG_MAPPED_RESULT_SUCCESSFUL []] := by
  refine ⟨by decide, by decide, by decide, by decide, by decide, by rfl, by rfl, by rfl⟩

/-! ## Client: words requested by a multiword array read -/

theorem multiword_read_counts_append (log1 log2 : List TransportCall) :
    multiword_read_counts (log1 ++ log2) =
      multiword_read_counts log1 ++ multiword_read_counts log2 := by
  induction log1 with
  | nil => rfl
  | cons c log1 ih =>
    cases c with
    | clear_rx => simpa [multiword_read_counts] using ih
    | rx kind => simpa [multiword_read_counts] using ih
    | tx req =>
      cases req with
      | read_pkt flags count page offset =>
        by_cases hf : flags.multiword = true
        · simp [multiword_read_counts, hf, ih]
        · simp [multiword_read_counts, hf, ih]
      | write_pkt flags count page offset data => simpa [multiword_read_counts] using ih
      | multiword_write_pkt flags count page offset data =>
        simpa [multiword_read_counts] using ih

/-- The multiword loop of `reg_mapped_client_read_array` entered with fewer
than 256 words remaining, every exchange succeeding: it returns SUCCESSFUL and
the counts of the requests it sends sum to the words remaining, each between 1
and `max_req_count`. -/
theorem read_array_multiword_loop_counts (K : ClientConsts) (P : Protocol) (T : Transport)
    (cfg : reg_mapped_client_cfg_t) (page max_req_count : Nat) (hT : exchanges_succeed P T)
    (hmax : 1 ≤ max_req_count) :
    ∀ (fuel offset remaining_words : Nat) (data_array : List Nat) (log : List TransportCall),
      remaining_words ≤ fuel → remaining_words < 256 →
      (read_array_multiword_loop K P T cfg page max_req_count fuel offset remaining_words
        data_array log).1 = (P.REG_MAPPED_RESULT_SUCCESSFUL : Int) ∧
      ∃ counts,
        multiword_read_counts (read_array_multiword_loop K P T cfg page max_req_count fuel offset
          remaining_words data_array log).2.2 = multiword_read_counts log ++ counts ∧
        counts.sum = remaining_words ∧ ∀ c, c ∈ counts → 1 ≤ c ∧ c ≤ max_req_count := by
  intro fuel
  induction fuel with
  | zero =>
    intro offset remaining_words data_array log hle _
    exact ⟨rfl, [], by simp [read_array_multiword_loop], by simp; omega, by simp⟩
  | succ fuel ih =>
    intro offset remaining_words data_array log hle hlt
    by_cases hpos : remaining_words > 0
    · obtain ⟨count, hcount⟩ : ∃ count, count =
          (if remaining_words > max_req_count then max_req_count else remaining_words) % 256 :=
        ⟨_, rfl⟩
      have hc1 : 1 ≤ count ∧ count ≤ max_req_count ∧ count ≤ remaining_words := by
        rw [hcount]; split <;> omega
      obtain ⟨resp, hrx, hres⟩ := hT.2
        (log ++ [TransportCall.tx (ClientRequest.read_pkt
          { write := false, multiword := true, bulk_req := false, bulk_end := false, mode := cfg.control_interface_mode }
          count page offset)]) (ResponseKind.multiword_read_pkt count)
      have hrem : (remaining_words + 256 - count) % 256 = remaining_words - count := by omega
      obtain ⟨h1, counts, h2, h3, h4⟩ := ih ((offset + count) % 256) (remaining_words - count)
        (copy_words data_array offset resp.words count)
        (log ++ [TransportCall.tx (ClientRequest.read_pkt
          { write := false, multiword := true, bulk_req := false, bulk_end := false, mode := cfg.control_interface_mode }
          count page offset)] ++ [TransportCall.rx (ResponseKind.multiword_read_pkt count)])
        (by omega) (by omega)
      have hstep : read_array_multiword_loop K P T cfg page max_req_count (fuel + 1) offset
          remaining_words data_array log =
          read_array_multiword_loop K P T cfg page max_req_count fuel ((offset + count) % 256)
            (remaining_words - count) (copy_words data_array offset resp.words count)
            (log ++ [TransportCall.tx (ClientRequest.read_pkt
              { write := false, multiword := true, bulk_req := false, bulk_end := false, mode := cfg.control_interface_mode }
              count page offset)] ++ [TransportCall.rx (ResponseKind.multiword_read_pkt count)]) := by
        rw [read_array_multiword_loop, if_pos hpos]
        simp only [← hcount, hT.1, hrx, hres, hrem, Bool.not_true, Bool.false_eq_true, if_false,
          ne_eq, not_true_eq_false]
      rw [hstep]
      refine ⟨h1, count :: counts, ?_, ?_, ?_⟩
      · rw [h2]
        simp [multiword_read_counts_append, multiword_read_counts]
      · simp only [List.sum_cons, h3]; omega
      · intro c hc
        rcases List.mem_cons.mp hc with h | h
        · rw [h]; exact ⟨hc1.1, hc1.2.1⟩
        · exact h4 c h
    · have hz : remaining_words = 0 := by omega
      refine ⟨?_, [], ?_, ?_, by simp⟩
      · rw [read_array_multiword_loop, if_neg hpos]
      · rw [read_array_multiword_loop, if_neg hpos]; simp
      · simp [hz]

/-- For up to 255 words the multiword branch of `reg_mapped_client_read_array`
requests the words asked for. -/
theorem read_array_multiword_counts (K : ClientConsts) (P : Protocol) (T : Transport)
    (cfg : reg_mapped_client_cfg_t) (page offset_start num_words : Nat) (data_array : List Nat)
    (hmode : cfg.transfer_mode = TransferMode.MULTIWORD) (hT : exchanges_succeed P T)
    (hpage : offset_start + num_words ≤ K.REG_MAPPED_PAGE_NUM_WORDS)
    (hlen : ¬ cfg.multiword_scratch_len < K.sizeof_multiword_read_response)
    (hmax : 1 ≤ K.REG_MAPPED_COMPUTE_MAX_RESP_WORD_COUNT cfg.multiword_scratch_len)
    (hnum : num_words ≤ 255) :
    (reg_mapped_client_read_array K P T cfg page offset_start data_array num_words []).1 =
      (P.REG_MAPPED_RESULT_SUCCESSFUL : Int) ∧
    (multiword_read_counts
      (reg_mapped_client_read_array K P T cfg page offset_start data_array num_words
        []).2.2).sum = num_words ∧
    ∀ c, c ∈ multiword_read_counts
        (reg_mapped_client_read_array K P T cfg page offset_start data_array num_words []).2.2 →
      1 ≤ c ∧ c ≤ K.REG_MAPPED_COMPUTE_MAX_RESP_WORD_COUNT cfg.multiword_scratch_len := by
  have hmod : num_words % 256 = num_words := Nat.mod_eq_of_lt (by omega)
  have hrun : reg_mapped_client_read_array K P T cfg page offset_start data_array num_words [] =
      read_array_multiword_loop K P T cfg page
        (K.REG_MAPPED_COMPUTE_MAX_RESP_WORD_COUNT cfg.multiword_scratch_len) num_words
        offset_start num_words data_array [] := by
    unfold reg_mapped_client_read_array
    rw [if_neg (Nat.not_lt.mpr (Nat.le_trans (Nat.mod_le _ _) hpage)), if_pos hmode, if_neg hlen,
      hmod]
    simp only
    rw [if_neg (by omega)]
  obtain ⟨h1, counts, h2, h3, h4⟩ := read_array_multiword_loop_counts K P T cfg page _ hT hmax
    num_words offset_start num_words data_array [] (Nat.le_refl _) (by omega)
  rw [hrun]
  refine ⟨h1, ?_, ?_⟩
  · rw [h2]; simpa [multiword_read_counts] using h3
  · intro c hc
    rw [h2] at hc
    exact h4 c (by simpa [multiword_read_counts] using hc)

/-- Claim C32, the code at a failing input. A full-page read in
multiword mode, `offset_start = 0` and `num_words = 256`, with a scratch buffer
for two words and a transport on which every exchange succeeds. The request
passes the page-boundary test, `remaining_words` (a `uint8_t`) starts at
`256 mod 256 = 0`, and the call returns SUCCESSFUL without a single transport
call: no word is requested and the output array is as it was. -/
theorem read_array_full_page_reads_nothing :
    ¬ (0 + 256 > specClientConsts.REG_MAPPED_PAGE_NUM_WORDS) ∧
    reg_mapped_client_read_array specClientConsts specProtocol
        (page_transport specProtocol (List.replicate 256 5)) (demo_cfg TransferMode.MULTIWORD)
        0 0 (List.replicate 256 7) 256 [] =
      ((specProtocol.REG_MAPPED_RESULT_SUCCESSFUL : Int), List.replicate 256 7, []) ∧
    (multiword_read_counts
      (reg_mapped_client_read_array specClientConsts specProtocol
        (page_transport specProtocol (List.replicate 256 5)) (demo_cfg TransferMode.MULTIWORD)
        0 0 (List.replicate 256 7) 256 []).2.2).sum = 0 := by
  have h : reg_mapped_client_read_array specClientConsts specProtocol
        (page_transport specProtocol (List.replicate 256 5)) (demo_cfg TransferMode.MULTIWORD)
        0 0 (List.replicate 256 7) 256 [] =
      ((specProtocol.REG_MAPPED_RESULT_SUCCESSFUL : Int), List.replicate 256 7, []) := by
    unfold reg_mapped_client_read_array
    rw [if_neg (by decide), if_pos (by decide), if_neg (by decide)]
    simp only
    rw [if_neg (by decide)]
    rfl
  refine ⟨by decide, h, ?_⟩
  rw [h]
  rfl

/-! ## Server: a multiword write and the single writes of its words -/

theorem set_page_set_page (inst : reg_mapped_server_inst_t) (page : Nat) (p q : Page) :
    set_page (set_page inst page p) page q = set_page inst page q := by
  simp [set_page, List.set_set]

theorem set_page_self (inst : reg_mapped_server_inst_t) (page : Nat) (p : Page)
    (h : page_at inst page = p) (hlt : page < inst.page_array.length) :
    set_page inst page p = inst := by
  have e : inst.page_array.set page p = inst.page_array := by
    apply List.ext_getElem?
    intro i
    rw [List.getElem?_set]
    by_cases hi : page = i
    · subst hi
      rw [if_pos rfl, if_pos hlt]
      rw [← h]
      simp [page_at, List.getD_eq_getElem?_getD, List.getElem?_eq_getElem hlt]
    · rw [if_neg hi]
  unfold set_page
  rw [e]

theorem payload_words_length : ∀ (count : Nat) (data : List Nat),
    (payload_words count data).length = count
  | 0, _ => rfl
  | count + 1, data => by simp [payload_words, payload_words_length count]

theorem payload_words_getD : ∀ (count : Nat) (data : List Nat) (j : Nat), j < count →
    (payload_words count data).getD j 0 = word_at data (4 * j)
  | 0, _, _, h => absurd h (Nat.not_lt_zero _)
  | count + 1, data, 0, _ => rfl
  | count + 1, data, j + 1, h => by
    simp only [payload_words, List.getD_cons_succ]
    rw [payload_words_getD count (data.drop 4) j (by omega)]
    simp only [word_at, List.getD_eq_getElem?_getD, List.getElem?_drop]
    have e : 4 * (j + 1) = 4 + 4 * j := by omega
    rw [e]
    simp only [Nat.add_assoc]

/-- The single writes of the words of a payload to a word array that holds
them all: each returns SUCCESSFUL and together they leave what the `memcpy`
of the multiword write leaves. -/
theorem single_writes_word_array (P : Protocol) (cb : Callback) (page : Nat) (perm : Perm)
    (num_words : Nat) (hperm : ¬ (perm ≠ Perm.READ_WRITE ∧ perm ≠ Perm.WRITE_ONLY)) :
    ∀ (count : Nat) (inst : reg_mapped_server_inst_t) (base_addr : List Nat) (offset : Nat)
      (data : List Nat),
      page < inst.num_pages →
      page_at inst page = Page.mem_mapped_word perm num_words base_addr →
      offset + count ≤ num_words →
      writes_accepted P cb inst (single_write_requests page offset (payload_words count data)) ∧
      apply_writes P cb inst (single_write_requests page offset (payload_words count data)) =
        set_page inst page
          (Page.mem_mapped_word perm num_words (memcpy_words count base_addr offset data)) := by
  intro count
  induction count with
  | zero =>
    intro inst base_addr offset data _ hpage _
    refine ⟨trivial, ?_⟩
    simp only [payload_words, single_write_requests, apply_writes, memcpy_words]
    exact (set_page_self inst page _ hpage
      (page_at_lt_length (by rw [hpage]; exact fun h => Page.noConfusion h))).symm
  | succ count ih =>
    intro inst base_addr offset data hp hpage hfit
    have hlt : page < inst.page_array.length :=
      page_at_lt_length (by rw [hpage]; exact fun h => Page.noConfusion h)
    have hw : reg_mapped_server_handle_single_write P cb inst
        { count := 0, page := page, offset := offset, data := word_at data 0 } =
        (P.REG_MAPPED_RESULT_SUCCESSFUL,
          set_page inst page
            (Page.mem_mapped_word perm num_words (base_addr.set offset (word_at data 0)))) := by
      unfold reg_mapped_server_handle_single_write
      simp only
      rw [if_neg (Nat.not_le.mpr hp), hpage]
      simp only
      rw [if_neg (by omega), if_neg hperm]
    obtain ⟨h1, h2⟩ := ih
      (set_page inst page
        (Page.mem_mapped_word perm num_words (base_addr.set offset (word_at data 0))))
      (base_addr.set offset (word_at data 0)) (offset + 1) (data.drop 4) hp
      (page_at_set_page_same inst _ hlt) (by omega)
    simp only [payload_words, single_write_requests, writes_accepted, apply_writes, hw,
      memcpy_words]
    refine ⟨⟨trivial, h1⟩, ?_⟩
    rw [h2, set_page_set_page]

theorem memcpy_append (l1 l2 : List Nat) : ∀ (dst : List Nat) (off : Nat),
    memcpy dst off (l1 ++ l2) = memcpy (memcpy dst off l1) (off + l1.length) l2 := by
  induction l1 with
  | nil => intro dst off; rfl
  | cons b l1 ih =>
    intro dst off
    show memcpy (dst.set off b) (off + 1) (l1 ++ l2) =
      memcpy (memcpy (dst.set off b) (off + 1) l1) (off + (l1.length + 1)) l2
    rw [ih, Nat.add_assoc, Nat.add_comm 1 l1.length]

/-- The store loop of a single write, for the word held by four payload bytes,
leaves what a `memcpy` of the first `n ≤ 4` of these bytes leaves. -/
theorem write_word_bytes_eq_memcpy (base : List Nat) (off n : Nat) (data : List Nat)
    (hn : n ≤ 4) (hlen : 4 ≤ data.length) (hbytes : ∀ b, b ∈ data → b < 256) :
    write_word_bytes n base off (word_at data 0) = memcpy base off (data.take n) := by
  match data, hlen with
  | b0 :: b1 :: b2 :: b3 :: rest, _ =>
    have h0 : b0 < 256 := hbytes b0 (by simp)
    have h1 : b1 < 256 := hbytes b1 (by simp)
    have h2 : b2 < 256 := hbytes b2 (by simp)
    have h3 : b3 < 256 := hbytes b3 (by simp)
    have e0 : word_at (b0 :: b1 :: b2 :: b3 :: rest) 0 % 256 = b0 := by
      simp [word_at]; omega
    have e1 : word_at (b0 :: b1 :: b2 :: b3 :: rest) 0 / 256 % 256 = b1 := by
      simp [word_at]; omega
    have e2 : word_at (b0 :: b1 :: b2 :: b3 :: rest) 0 / 256 / 256 % 256 = b2 := by
      simp [word_at]; omega
    have e3 : word_at (b0 :: b1 :: b2 :: b3 :: rest) 0 / 256 / 256 / 256 % 256 = b3 := by
      simp [word_at]; omega
    interval_cases n
    · rfl
    · simp [write_word_bytes, memcpy, e0]
    · simp [write_word_bytes, memcpy, e0, e1]
    · simp [write_word_bytes, memcpy, e0, e1, e2]
    · simp [write_word_bytes, memcpy, e0, e1, e2, e3]

/-- The single writes of the words of a payload of `count + 1` words to a byte
array in which the last of these words begins: each returns SUCCESSFUL and
together they leave what the trimmed `memcpy` of the multiword write
leaves. -/
theorem single_writes_byte_array (P : Protocol) (cb : Callback) (page : Nat) (perm : Perm)
    (size : Nat) (hperm : ¬ (perm ≠ Perm.READ_WRITE ∧ perm ≠ Perm.WRITE_ONLY)) :
    ∀ (count : Nat) (inst : reg_mapped_server_inst_t) (base_addr : List Nat) (offset : Nat)
      (data : List Nat),
      page < inst.num_pages →
      page_at inst page = Page.mem_mapped_byte perm size base_addr →
      data.length = 4 * (count + 1) → (∀ b, b ∈ data → b < 256) →
      (offset + count) * 4 < size →
      writes_accepted P cb inst
        (single_write_requests page offset (payload_words (count + 1) data)) ∧
      apply_writes P cb inst
          (single_write_requests page offset (payload_words (count + 1) data)) =
        set_page inst page
          (Page.mem_mapped_byte perm size
            (memcpy base_addr (offset * 4)
              (data.take (min (4 * (count + 1)) (size - offset * 4))))) := by
  intro count
  induction count with
  | zero =>
    intro inst base_addr offset data hp hpage hlen hbytes hlast
    have ho : offset * 4 < size := by omega
    have hw : reg_mapped_server_handle_single_write P cb inst
        { count := 0, page := page, offset := offset, data := word_at data 0 } =
        (P.REG_MAPPED_RESULT_SUCCESSFUL,
          set_page inst page
            (Page.mem_mapped_byte perm size
              (memcpy base_addr (offset * 4) (data.take (min 4 (size - offset * 4)))))) := by
      unfold reg_mapped_server_handle_single_write
      simp only
      rw [if_neg (Nat.not_le.mpr hp), hpage]
      simp only
      rw [if_neg (by omega), if_neg hperm, bytes_in_range_eq offset size ho,
        write_word_bytes_eq_memcpy base_addr (offset * 4) _ data (Nat.min_le_left _ _)
          (by omega) hbytes]
    refine ⟨?_, ?_⟩
    · show (reg_mapped_server_handle_single_write P cb inst
          { count := 0, page := page, offset := offset, data := word_at data 0 }).1 = _ ∧ True
      rw [hw]
      exact ⟨rfl, trivial⟩
    · show (reg_mapped_server_handle_single_write P cb inst
        { count := 0, page := page, offset := offset, data := word_at data 0 }).2 = _
      rw [hw]
  | succ count ih =>
    intro inst base_addr offset data hp hpage hlen hbytes hlast
    have hlt : page < inst.page_array.length :=
      page_at_lt_length (by rw [hpage]; exact fun h => Page.noConfusion h)
    have ho : offset * 4 < size := by omega
    have hfull : min 4 (size - offset * 4) = 4 := by omega
    have hw : reg_mapped_server_handle_single_write P cb inst
        { count := 0, page := page, offset := offset, data := word_at data 0 } =
        (P.REG_MAPPED_RESULT_SUCCESSFUL,
          set_page inst page
            (Page.mem_mapped_byte perm size (memcpy base_addr (offset * 4) (data.take 4)))) := by
      unfold reg_mapped_server_handle_single_write
      simp only
      rw [if_neg (Nat.not_le.mpr hp), hpage]
      simp only
      rw [if_neg (by omega), if_neg hperm, bytes_in_range_eq offset size ho, hfull,
        write_word_bytes_eq_memcpy base_addr (offset * 4) 4 data (Nat.le_refl _)
          (by omega) hbytes]
    obtain ⟨h1, h2⟩ := ih
      (set_page inst page
        (Page.mem_mapped_byte perm size (memcpy base_addr (offset * 4) (data.take 4))))
      (memcpy base_addr (offset * 4) (data.take 4)) (offset + 1) (data.drop 4) hp
      (page_at_set_page_same inst _ hlt) (by rw [List.length_drop]; omega)
      (fun b hb => hbytes b (List.mem_of_mem_drop hb)) (by omega)
    have hsplit : data.take (min (4 * (count + 1 + 1)) (size - offset * 4)) =
        data.take 4 ++
          (data.drop 4).take (min (4 * (count + 1)) (size - (offset + 1) * 4)) := by
      have e : min (4 * (count + 1 + 1)) (size - offset * 4) =
          4 + min (4 * (count + 1)) (size - (offset + 1) * 4) := by omega
      rw [e, List.take_add]
    have hlen4 : (data.take 4).length = 4 := by
      rw [List.length_take]; omega
    refine ⟨?_, ?_⟩
    · show writes_accepted P cb inst
        ({ count := 0, page := page, offset := offset, data := word_at data 0 } ::
          single_write_requests page (offset + 1) (payload_words (count + 1) (data.drop 4)))
      show (reg_mapped_server_handle_single_write P cb inst
          { count := 0, page := page, offset := offset, data := word_at data 0 }).1 = _ ∧
        writes_accepted P cb (reg_mapped_server_handle_single_write P cb inst
          { count := 0, page := page, offset := offset, data := word_at data 0 }).2 _
      rw [hw]
      exact ⟨rfl, h1⟩
    · show apply_writes P cb inst
        ({ count := 0, page := page, offset := offset, data := word_at data 0 } ::
          single_write_requests page (offset + 1) (payload_words (count + 1) (data.drop 4))) = _
      show apply_writes P cb (reg_mapped_server_handle_single_write P cb inst
          { count := 0, page := page, offset := offset, data := word_at data 0 }).2
        (single_write_requests page (offset + 1) (payload_words (count + 1) (data.drop 4))) = _
      rw [hw]
      simp only
      rw [h2, set_page_set_page, hsplit, memcpy_append, hlen4]
      have e : offset * 4 + 4 = (offset + 1) * 4 := by omega
      rw [e]

/-- For a count of at least 1, the copy length of a request that is not
answered INVALID_REGISTER_ADDRESS: the last word begins inside the page and
the length is the smaller of `4 * count` and what is left of the page. -/
theorem multiword_byte_copy_len_min (size offset count copy_len : Nat) (hc : 1 ≤ count)
    (h : multiword_byte_copy_len size offset count = some copy_len) :
    (offset + (count - 1)) * 4 < size ∧ copy_len = min (4 * count) (size - offset * 4) := by
  unfold multiword_byte_copy_len at h
  simp only at h
  split at h
  · exact absurd h (by simp)
  · simp only [Option.some.injEq] at h
    split at h
    · unfold size_t_sub at h
      rw [if_pos (by omega)] at h
      exact ⟨by omega, by omega⟩
    · exact ⟨by omega, by omega⟩

/-- Claim C33. For a multiword write of `count` words (a payload of
`4 * count` bytes) at `offset`, with `offset + count ≤ 256`, to a word-array
page, or to a byte-array page when `count ≥ 1`: when it returns SUCCESSFUL,
the `count` single-word writes of word `j` of the payload at `offset + j`, in
order from the same instance, each return SUCCESSFUL and leave the instance
the multiword write leaves (the same page memory and nothing else changed);
when it returns an error, the instance is unchanged. -/
theorem multiword_write_refines_single_writes (P : Protocol) (hP : P.Valid) (cb : Callback)
    (inst : reg_mapped_server_inst_t) (req : reg_mapped_multiword_write_request)
    (hlen : req.data.length = 4 * req.count) (hbytes : ∀ b, b ∈ req.data → b < 256)
    (hoff : req.offset + req.count ≤ 256)
    (hkind : (∃ perm num_words base_addr,
        page_at inst req.page = Page.mem_mapped_word perm num_words base_addr) ∨
      (∃ perm size base_addr,
        page_at inst req.page = Page.mem_mapped_byte perm size base_addr ∧ 1 ≤ req.count)) :
    ((reg_mapped_server_handle_multiword_write P inst req).1 = P.REG_MAPPED_RESULT_SUCCESSFUL →
      writes_accepted P cb inst
        (single_write_requests req.page req.offset (payload_words req.count req.data)) ∧
      apply_writes P cb inst
          (single_write_requests req.page req.offset (payload_words req.count req.data)) =
        (reg_mapped_server_handle_multiword_write P inst req).2) ∧
    ((reg_mapped_server_handle_multiword_write P inst req).1 ≠ P.REG_MAPPED_RESULT_SUCCESSFUL →
      (reg_mapped_server_handle_multiword_write P inst req).2 = inst) := by
  have hA : P.REG_MAPPED_RESULT_INVALID_REGISTER_ADDRESS ≠ P.REG_MAPPED_RESULT_SUCCESSFUL := by
    rw [hP.1]; exact hP.2.1
  have hM : P.REG_MAPPED_RESULT_INVALID_REGISTER_MODE ≠ P.REG_MAPPED_RESULT_SUCCESSFUL := by
    rw [hP.1]; exact hP.2.2.1
  by_cases hp : req.page ≥ inst.num_pages
  · have e : reg_mapped_server_handle_multiword_write P inst req =
        (P.REG_MAPPED_RESULT_INVALID_REGISTER_ADDRESS, inst) := by
      unfold reg_mapped_server_handle_multiword_write
      rw [if_pos hp]
    rw [e]
    exact ⟨fun h => absurd h hA, fun _ => rfl⟩
  · have hp1 : req.page < inst.num_pages := Nat.lt_of_not_le hp
    rcases hkind with ⟨perm, num_words, base_addr, hpage⟩ | ⟨perm, size, base_addr, hpage, hc⟩
    · by_cases hfit : req.offset + req.count > num_words
      · have e : reg_mapped_server_handle_multiword_write P inst req =
            (P.REG_MAPPED_RESULT_INVALID_REGISTER_ADDRESS, inst) := by
          unfold reg_mapped_server_handle_multiword_write
          rw [if_neg hp, hpage]
          simp only
          rw [if_pos hfit]
        rw [e]
        exact ⟨fun h => absurd h hA, fun _ => rfl⟩
      · by_cases hperm : perm ≠ Perm.READ_WRITE ∧ perm ≠ Perm.WRITE_ONLY
        · have e : reg_mapped_server_handle_multiword_write P inst req =
              (P.REG_MAPPED_RESULT_INVALID_REGISTER_MODE, inst) := by
            unfold reg_mapped_server_handle_multiword_write
            rw [if_neg hp, hpage]
            simp only
            rw [if_neg hfit, if_pos hperm]
          rw [e]
          exact ⟨fun h => absurd h hM, fun _ => rfl⟩
        · have e : reg_mapped_server_handle_multiword_write P inst req =
              (P.REG_MAPPED_RESULT_SUCCESSFUL,
                set_page inst req.page
                  (Page.mem_mapped_word perm num_words
                    (memcpy_words req.count base_addr req.offset req.data))) := by
            unfold reg_mapped_server_handle_multiword_write
            rw [if_neg hp, hpage]
            simp only
            rw [if_neg hfit, if_neg hperm]
          rw [e]
          refine ⟨fun _ => ?_, fun h => absurd rfl h⟩
          exact single_writes_word_array P cb req.page perm num_words hperm req.count inst
            base_addr req.offset req.data hp1 hpage (by omega)
    · rw [multiword_write_byte_copy_len P inst req perm size base_addr hp1 hpage]
      cases hlen_opt : multiword_byte_copy_len size req.offset req.count with
      | none => exact ⟨fun h => absurd h hA, fun _ => rfl⟩
      | some copy_len =>
        simp only
        by_cases hperm : perm ≠ Perm.READ_WRITE ∧ perm ≠ Perm.WRITE_ONLY
        · rw [if_pos hperm]
          exact ⟨fun h => absurd h hM, fun _ => rfl⟩
        · rw [if_neg hperm]
          refine ⟨fun _ => ?_, fun h => absurd rfl h⟩
          obtain ⟨hlast, hmin⟩ := multiword_byte_copy_len_min size req.offset req.count copy_len
            hc hlen_opt
          obtain ⟨c, hcs⟩ : ∃ c, req.count = c + 1 := ⟨req.count - 1, by omega⟩
          have h := single_writes_byte_array P cb req.page perm size hperm c inst base_addr
            req.offset req.data hp1 hpage (by rw [hlen, hcs]) hbytes
            (by rw [hcs] at hlast; simpa using hlast)
          rw [hmin, hcs]
          exact h

/-- Witness of claim C33: on `demo_inst`, a multiword write of two words at
offset 0 of page 1, a read-write byte array of 7 bytes (the last byte of the
second word is not written), and a multiword write to page 4, a read-only word
array, which is refused. -/
theorem multiword_write_refines_single_writes_witness :
    (writes_accepted specProtocol demo_cb demo_inst
        (single_write_requests 1 0 (payload_words 2 [11, 12, 13, 14, 15, 16, 17, 18])) ∧
      apply_writes specProtocol demo_cb demo_inst
          (single_write_requests 1 0 (payload_words 2 [11, 12, 13, 14, 15, 16, 17, 18])) =
        (reg_mapped_server_handle_multiword_write specProtocol demo_inst
          { count := 2, page := 1, offset := 0, data := [11, 12, 13, 14, 15, 16, 17, 18] }).2) ∧
    page_at (reg_mapped_server_handle_multiword_write specProtocol demo_inst
        { count := 2, page := 1, offset := 0, data := [11, 12, 13, 14, 15, 16, 17, 18] }).2 1 =
      Page.mem_mapped_byte Perm.READ_WRITE 7 [11, 12, 13, 14, 15, 16, 17] ∧
    (reg_mapped_server_handle_multiword_write specProtocol demo_inst
      { count := 1, page := 4, offset := 0, data := [1, 2, 3, 4] }).2 = demo_inst :=
  ⟨(multiword_write_refines_single_writes specProtocol (by decide) demo_cb demo_inst
      { count := 2, page := 1, offset := 0, data := [11, 12, 13, 14, 15, 16, 17, 18] }
      (by decide) (by decide) (by decide)
      (Or.inr ⟨Perm.READ_WRITE, 7, [1, 2, 3, 4, 5, 6, 7], by rfl, by decide⟩)).1 (by rfl),
   by rfl,
   (multiword_write_refines_single_writes specProtocol (by decide) demo_cb demo_inst
      { count := 1, page := 4, offset := 0, data := [1, 2, 3, 4] }
      (by decide) (by decide) (by decide)
      (Or.inl ⟨Perm.READ_ONLY, 2, [7, 8], by rfl⟩)).2 (by decide)⟩

/-! ## Client and server joined: a bulk array write -/

theorem link_state_append (P : Protocol) (cb : Callback) (enc : request_flags → Nat)
    (inst : reg_mapped_server_inst_t) (log : List TransportCall) (c : TransportCall) :
    link_state P cb enc inst (log ++ [c]) = link_step P cb enc (link_state P cb enc inst log) c := by
  simp [link_state, List.foldl_append]

theorem word_at_word_bytes (hdr : List Nat) (w : Nat) (hh : hdr.length = 4) (hw : w < 2 ^ 32) :
    word_at (hdr ++ word_bytes w) 4 = w := by
  match hdr, hh with
  | [a, b, c, d], _ =>
    simp [word_at, word_bytes]
    omega

theorem spec_flags_byte_encodes (mode : Nat) (hm : mode < 16) :
    encodes_flags specProtocol spec_flags_byte mode := by
  intro f hf
  obtain ⟨w, m, br, be, md⟩ := f
  simp only at hf
  subst hf
  have e : md % 16 = md := Nat.mod_eq_of_lt hm
  cases w <;> cases m <;> cases br <;> cases be <;>
    simp [spec_flags_byte, specProtocol, e] <;> omega

/-- A bulk write packet of the client arrives at a joined server that stands
before it: the server performs the write, answers exactly when the packet is
tagged bulk-end, with SUCCESSFUL and the count field of the packet, and stands
before the next packet. -/
theorem link_step_bulk_packet (P : Protocol) (hP : P.Valid) (cb : Callback)
    (enc : request_flags → Nat) (cfg : reg_mapped_client_cfg_t)
    (henc : encodes_flags P enc cfg.control_interface_mode) (page num_words : Nat)
    (L : LinkState) (count : Nat) (base_addr : List Nat) (offset w : Nat) (b : Bool)
    (hL : link_ready cfg page num_words L count base_addr) (hc : count < 256)
    (hp : page < 256) (ho : offset < 256) (hon : offset < num_words) (hw : w < 2 ^ 32) :
    ∃ server1,
      link_step P cb enc L
          (TransportCall.tx (ClientRequest.write_pkt
            { write := true, multiword := false, bulk_req := true, bulk_end := b, mode := cfg.control_interface_mode }
            count page offset w)) =
        { server := server1,
          waiting :=
            if b then [Response.write_bulk_pkt P.REG_MAPPED_RESULT_SUCCESSFUL count] else [],
          answers := L.answers ++
            [if b then [Response.write_bulk_pkt P.REG_MAPPED_RESULT_SUCCESSFUL count] else []] } ∧
      link_ready cfg page num_words
        { server := server1, waiting := [], answers := L.answers ++
            [if b then [Response.write_bulk_pkt P.REG_MAPPED_RESULT_SUCCESSFUL count] else []] }
        (if b then 0 else count + 1) (base_addr.set offset w) := by
  obtain ⟨hwait, hpn, hpage, hmode, hsess⟩ := hL
  obtain ⟨flags, hflags⟩ : ∃ flags : request_flags, flags =
      { write := true, multiword := false, bulk_req := true, bulk_end := b, mode := cfg.control_interface_mode } :=
    ⟨_, rfl⟩
  obtain ⟨he0, he1, he2, he3, he4, he5⟩ := henc flags (by rw [hflags])
  rw [hflags] at he1 he2 he3 he4 he5
  simp only at he1 he2 he3 he4 he5
  rw [← hflags] at he1 he2 he3 he4 he5
  obtain ⟨msg, hmsg⟩ : ∃ msg, msg =
      request_bytes enc (ClientRequest.write_pkt flags count page offset w) := ⟨_, rfl⟩
  have hmsg1 : msg = [enc flags, count % 256, page % 256, offset % 256] ++ word_bytes w := hmsg
  have hb0 : byte_at msg 0 = enc flags := by
    rw [hmsg1]; simp [byte_at, Nat.mod_eq_of_lt he0]
  have hwp : write_pkt msg = { count := count, page := page, offset := offset, data := w } := by
    have hd : word_at msg 4 = w := by
      rw [hmsg1]; exact word_at_word_bytes _ w rfl hw
    simp only [write_pkt, hd]
    rw [hmsg1]
    simp [byte_at, Nat.mod_eq_of_lt hc, Nat.mod_eq_of_lt hp, Nat.mod_eq_of_lt ho]
  have hpkt : bulk_write_packet P L.server msg count b := by
    refine ⟨by rw [hmsg1]; simp [word_bytes], ?_, ?_, ?_, ?_, ?_, ?_⟩
    · rw [hb0, he1]
    · rw [hb0, he2]
    · rw [hb0, he3]
    · rw [hb0, he4]
    · rw [hb0, he5, hmode]
    · rw [hwp]
  have hsw : reg_mapped_server_handle_single_write P cb L.server (write_pkt msg) =
      (P.REG_MAPPED_RESULT_SUCCESSFUL,
        set_page L.server page
          (Page.mem_mapped_word Perm.READ_WRITE num_words (base_addr.set offset w))) := by
    rw [hwp]
    unfold reg_mapped_server_handle_single_write
    simp only
    rw [if_neg (Nat.not_le.mpr hpn), hpage]
    simp only
    rw [if_neg (by omega), if_neg (by simp)]
  have hv : valid_writable cb L.server (write_pkt msg) := by
    rw [hwp]
    refine ⟨Or.inl ?_, ?_⟩
    · simp only [target_perm]
      rw [if_neg (Nat.not_le.mpr hpn), hpage]
      simp only
      rw [if_neg (by omega)]
    · intro h
      simp [target_is_exec, hpage] at h
  have hlt : page < L.server.page_array.length :=
    page_at_lt_length (by rw [hpage]; exact fun h => Page.noConfusion h)
  have hstep : link_step P cb enc L
      (TransportCall.tx (ClientRequest.write_pkt flags count page offset w)) =
      { server := reg_mapped_server_handle_request P cb L.server msg,
        waiting := L.waiting ++
          (reg_mapped_server_handle_request P cb L.server msg).tx_log.drop L.server.tx_log.length,
        answers := L.answers ++
          [(reg_mapped_server_handle_request P cb L.server msg).tx_log.drop
            L.server.tx_log.length] } := by
    rw [hmsg]; rfl
  rw [← hflags, hstep, hwait]
  cases b with
  | false =>
    have hreq := handle_bulk_write_nonfinal P hP cb L.server msg count hsess hc hpkt hv
    rw [hsw] at hreq
    refine ⟨reg_mapped_server_handle_request P cb L.server msg, ?_, ?_⟩
    · rw [hreq]
      simp [with_bulk, set_page]
    · rw [hreq]
      refine ⟨rfl, hpn, ?_, hmode, Or.inr ⟨Nat.succ_pos _, rfl, rfl, rfl⟩⟩
      exact page_at_set_page_same L.server _ hlt
  | true =>
    have hreq := handle_bulk_write_final P hP cb L.server msg count hsess hc hpkt hv
    rw [hsw] at hreq
    refine ⟨reg_mapped_server_handle_request P cb L.server msg, ?_, ?_⟩
    · rw [hreq]
      simp [with_bulk, set_page, tx_func]
    · rw [hreq]
      refine ⟨rfl, hpn, ?_, hmode, Or.inl ⟨rfl, rfl⟩⟩
      exact page_at_set_page_same L.server _ hlt

theorem bulk_loop_step_end (K : ClientConsts) (P : Protocol) (cb : Callback)
    (enc : request_flags → Nat) (inst0 : reg_mapped_server_inst_t) (cfg : reg_mapped_client_cfg_t)
    (page : Nat) (data_array : List Nat) (k idx count offset : Nat) (log : List TransportCall)
    (hend : (k == 0 || decide (count + 1 ≥ cfg.max_in_flight)) = true) (hc : count + 1 < 256)
    (hwait : (link_state P cb enc inst0 (log ++ [TransportCall.tx (ClientRequest.write_pkt
        { write := true, multiword := false, bulk_req := true, bulk_end := true, mode := cfg.control_interface_mode }
        count page offset (data_array.getD idx 0))])).waiting =
      [Response.write_bulk_pkt P.REG_MAPPED_RESULT_SUCCESSFUL count]) :
    write_array_bulk_loop K P (server_transport P cb enc inst0) cfg page data_array (k + 1) idx
        count offset log =
      write_array_bulk_loop K P (server_transport P cb enc inst0) cfg page data_array k (idx + 1)
        0 ((offset + 1) % 256)
        (log ++ [TransportCall.tx (ClientRequest.write_pkt
          { write := true, multiword := false, bulk_req := true, bulk_end := true, mode := cfg.control_interface_mode }
          count page offset (data_array.getD idx 0))] ++
          [TransportCall.rx ResponseKind.write_bulk_pkt]) := by
  have hrx : (server_transport P cb enc inst0).rx_func
      (log ++ [TransportCall.tx (ClientRequest.write_pkt
        { write := true, multiword := false, bulk_req := true, bulk_end := true, mode := cfg.control_interface_mode }
        count page offset (data_array.getD idx 0))]) ResponseKind.write_bulk_pkt =
      some { result := P.REG_MAPPED_RESULT_SUCCESSFUL, data := 0, seq_no := count, words := [] } := by
    show (match (link_state P cb enc inst0 _).waiting with
      | [] => none
      | r :: _ => received ResponseKind.write_bulk_pkt r) = _
    rw [hwait]
    rfl
  have htx : ∀ l r, (server_transport P cb enc inst0).tx_func l r = true := fun _ _ => rfl
  rw [write_array_bulk_loop]
  simp only [hend, htx, hrx, Nat.mod_eq_of_lt hc, Bool.not_true, Bool.false_eq_true, if_false,
    if_true, ne_eq, not_true_eq_false]

theorem bulk_loop_step_cont (K : ClientConsts) (P : Protocol) (T : Transport)
    (cfg : reg_mapped_client_cfg_t)
    (page : Nat) (data_array : List Nat) (k idx count offset : Nat) (log : List TransportCall)
    (hend : (k == 0 || decide (count + 1 ≥ cfg.max_in_flight)) = false)
    (htx : ∀ l r, T.tx_func l r = true) :
    write_array_bulk_loop K P T cfg page data_array (k + 1) idx count offset log =
      write_array_bulk_loop K P T cfg page data_array k (idx + 1)
        ((count + 1) % 256) ((offset + 1) % 256)
        (log ++ [TransportCall.tx (ClientRequest.write_pkt
          { write := true, multiword := false, bulk_req := true, bulk_end := false, mode := cfg.control_interface_mode }
          count page offset (data_array.getD idx 0))]) := by
  rw [write_array_bulk_loop]
  simp only [hend, htx, Bool.not_true, Bool.false_eq_true, if_false]

theorem take_drop_succ (data_array : List Nat) (idx k : Nat) (h : idx + (k + 1) ≤ data_array.length) :
    (data_array.drop idx).take (k + 1) =
      data_array.getD idx 0 :: (data_array.drop (idx + 1)).take k := by
  have hlt : idx < data_array.length := by omega
  rw [List.drop_eq_getElem_cons hlt, List.take_succ_cons]
  simp [List.getD_eq_getElem?_getD, hlt]

theorem take_drop_isEmpty (data_array : List Nat) (idx k : Nat) (h : idx + k ≤ data_array.length) :
    ((data_array.drop idx).take k).isEmpty = (k == 0) := by
  cases k with
  | zero => simp
  | succ m =>
    have hpos : 0 < ((data_array.drop idx).take (m + 1)).length := by
      simp only [List.length_take, List.length_drop]
      omega
    cases hl : (data_array.drop idx).take (m + 1) with
    | nil => rw [hl] at hpos; simp at hpos
    | cons a l => simp

theorem link_ready_zero_iff (cfg : reg_mapped_client_cfg_t) (page num_words : Nat) (L : LinkState)
    (base_addr : List Nat) (h : link_ready cfg page num_words L 0 base_addr) :
    L.server.in_bulk_request = false := by
  rcases h.2.2.2.2 with ⟨_, h0⟩ | ⟨hpos, _⟩
  · exact h0
  · exact absurd hpos (Nat.lt_irrefl 0)

/-- The bulk loop of `reg_mapped_client_write_array` on a client joined to a
server that stands before its first packet: the loop returns SUCCESSFUL after
the calls of `bulk_write_trace`, the server has answered as the client
expects, stands with no bulk session open, and the words are in the page. -/
theorem bulk_loop_joined (K : ClientConsts) (P : Protocol) (hP : P.Valid) (cb : Callback)
    (enc : request_flags → Nat) (inst0 : reg_mapped_server_inst_t) (cfg : reg_mapped_client_cfg_t)
    (henc : encodes_flags P enc cfg.control_interface_mode) (page num_words : Nat)
    (hp : page < 256) (data_array : List Nat) (hwords : ∀ i, data_array.getD i 0 < 2 ^ 32) :
    ∀ (k idx count offset : Nat) (log : List TransportCall) (base_addr : List Nat),
      link_ready cfg page num_words (link_state P cb enc inst0 log) count base_addr →
      count + (k + 1) ≤ 255 → offset + (k + 1) ≤ 256 → offset + (k + 1) ≤ num_words →
      num_words ≤ base_addr.length → idx + (k + 1) ≤ data_array.length →
      ∃ base1,
        write_array_bulk_loop K P (server_transport P cb enc inst0) cfg page data_array (k + 1)
            idx count offset log =
          ((P.REG_MAPPED_RESULT_SUCCESSFUL : Int),
            log ++ bulk_write_trace cfg page ((data_array.drop idx).take (k + 1)) count offset) ∧
        link_ready cfg page num_words
          (link_state P cb enc inst0
            (log ++ bulk_write_trace cfg page ((data_array.drop idx).take (k + 1)) count offset))
          0 base1 ∧
        (link_state P cb enc inst0
            (log ++ bulk_write_trace cfg page ((data_array.drop idx).take (k + 1)) count
              offset)).answers =
          (link_state P cb enc inst0 log).answers ++
            expected_bulk_answers P
              (bulk_write_trace cfg page ((data_array.drop idx).take (k + 1)) count offset)
              count ∧
        base1.length = base_addr.length ∧
        (∀ i, i ≤ k → base1.getD (offset + i) 0 = data_array.getD (idx + i) 0) ∧
        (∀ j, (j < offset ∨ offset + k < j) → base1.getD j 0 = base_addr.getD j 0) := by
  intro k
  induction k with
  | zero =>
    intro idx count offset log base_addr hready hcount ho256 hon hbase hidx
    obtain ⟨server1, hstep, hready1⟩ := link_step_bulk_packet P hP cb enc cfg henc page num_words
      (link_state P cb enc inst0 log) count base_addr offset (data_array.getD idx 0) true hready
      (by omega) hp (by omega) (by omega) (hwords idx)
    simp only [if_true] at hstep hready1
    have hL1 := link_state_append P cb enc inst0 log (TransportCall.tx (ClientRequest.write_pkt
      { write := true, multiword := false, bulk_req := true, bulk_end := true, mode := cfg.control_interface_mode }
      count page offset (data_array.getD idx 0)))
    rw [hstep] at hL1
    have hL2 := link_state_append P cb enc inst0 (log ++ [TransportCall.tx (ClientRequest.write_pkt
      { write := true, multiword := false, bulk_req := true, bulk_end := true, mode := cfg.control_interface_mode }
      count page offset (data_array.getD idx 0))]) (TransportCall.rx ResponseKind.write_bulk_pkt)
    rw [hL1] at hL2
    have htrace : log ++ bulk_write_trace cfg page ((data_array.drop idx).take (0 + 1)) count offset =
        log ++ [TransportCall.tx (ClientRequest.write_pkt
          { write := true, multiword := false, bulk_req := true, bulk_end := true, mode := cfg.control_interface_mode }
          count page offset (data_array.getD idx 0))] ++
          [TransportCall.rx ResponseKind.write_bulk_pkt] := by
      rw [take_drop_succ data_array idx 0 hidx]
      simp [bulk_write_trace]
    have hexp : expected_bulk_answers P
        (bulk_write_trace cfg page ((data_array.drop idx).take (0 + 1)) count offset) count =
        [[Response.write_bulk_pkt P.REG_MAPPED_RESULT_SUCCESSFUL count]] := by
      rw [take_drop_succ data_array idx 0 hidx]
      simp [bulk_write_trace, expected_bulk_answers]
    refine ⟨base_addr.set offset (data_array.getD idx 0), ?_, ?_, ?_, ?_, ?_, ?_⟩
    · rw [bulk_loop_step_end K P cb enc inst0 cfg page data_array 0 idx count offset log
        (by simp) (by omega) (by rw [hL1]), htrace]
      rfl
    · rw [htrace, hL2]
      exact hready1
    · rw [htrace, hL2, hexp]
      rfl
    · simp
    · intro i hi
      have hi0 : i = 0 := by omega
      subst hi0
      simp only [Nat.add_zero]
      rw [List.getD_eq_getElem?_getD, List.getElem?_set_self (by omega)]
      rfl
    · intro j hj
      rw [List.getD_eq_getElem?_getD, List.getElem?_set_ne (by omega)]
      rw [List.getD_eq_getElem?_getD]
  | succ m ih =>
    intro idx count offset log base_addr hready hcount ho256 hon hbase hidx
    have ho1 : (offset + 1) % 256 = offset + 1 := Nat.mod_eq_of_lt (by omega)
    have hc1 : (count + 1) % 256 = count + 1 := Nat.mod_eq_of_lt (by omega)
    have hne : ((data_array.drop (idx + 1)).take (m + 1)).isEmpty = false := by
      rw [take_drop_isEmpty data_array (idx + 1) (m + 1) (by omega)]; rfl
    by_cases hend : count + 1 ≥ cfg.max_in_flight
    · obtain ⟨server1, hstep, hready1⟩ := link_step_bulk_packet P hP cb enc cfg henc page
        num_words (link_state P cb enc inst0 log) count base_addr offset (data_array.getD idx 0)
        true hready (by omega) hp (by omega) (by omega) (hwords idx)
      simp only [if_true] at hstep hready1
      have hL1 := link_state_append P cb enc inst0 log (TransportCall.tx (ClientRequest.write_pkt
        { write := true, multiword := false, bulk_req := true, bulk_end := true, mode := cfg.control_interface_mode }
        count page offset (data_array.getD idx 0)))
      rw [hstep] at hL1
      have hL2 := link_state_append P cb enc inst0 (log ++ [TransportCall.tx
        (ClientRequest.write_pkt
          { write := true, multiword := false, bulk_req := true, bulk_end := true, mode := cfg.control_interface_mode }
          count page offset (data_array.getD idx 0))]) (TransportCall.rx ResponseKind.write_bulk_pkt)
      rw [hL1] at hL2
      have hready2 : link_ready cfg page num_words
          (link_state P cb enc inst0 (log ++ [TransportCall.tx (ClientRequest.write_pkt
            { write := true, multiword := false, bulk_req := true, bulk_end := true, mode := cfg.control_interface_mode }
            count page offset (data_array.getD idx 0))] ++
            [TransportCall.rx ResponseKind.write_bulk_pkt])) 0
          (base_addr.set offset (data_array.getD idx 0)) := by
        rw [hL2]; exact hready1
      obtain ⟨base1, h1, h2, h3, h4, h5, h6⟩ := ih (idx + 1) 0 (offset + 1) _
        (base_addr.set offset (data_array.getD idx 0)) hready2 (by omega) (by omega) (by omega)
        (by simpa using hbase) (by omega)
      have htrace : log ++ bulk_write_trace cfg page ((data_array.drop idx).take (m + 1 + 1)) count
            offset =
          log ++ [TransportCall.tx (ClientRequest.write_pkt
            { write := true, multiword := false, bulk_req := true, bulk_end := true, mode := cfg.control_interface_mode }
            count page offset (data_array.getD idx 0))] ++
            [TransportCall.rx ResponseKind.write_bulk_pkt] ++
            bulk_write_trace cfg page ((data_array.drop (idx + 1)).take (m + 1)) 0 (offset + 1) := by
        rw [take_drop_succ data_array idx (m + 1) hidx]
        simp [bulk_write_trace, hne, hend]
      have hexp : expected_bulk_answers P
          (bulk_write_trace cfg page ((data_array.drop idx).take (m + 1 + 1)) count offset) count =
          [Response.write_bulk_pkt P.REG_MAPPED_RESULT_SUCCESSFUL count] ::
            expected_bulk_answers P
              (bulk_write_trace cfg page ((data_array.drop (idx + 1)).take (m + 1)) 0 (offset + 1))
              0 := by
        rw [take_drop_succ data_array idx (m + 1) hidx]
        simp [bulk_write_trace, expected_bulk_answers, hne, hend]
      refine ⟨base1, ?_, ?_, ?_, ?_, ?_, ?_⟩
      · rw [bulk_loop_step_end K P cb enc inst0 cfg page data_array (m + 1) idx count offset log
          (by simp [hend]) (by omega) (by rw [hL1]), ho1, h1, htrace]
      · rw [htrace]; exact h2
      · rw [htrace, h3, hL2, hexp]
        simp only [link_step, List.append_assoc, List.singleton_append]
      · rw [h4]; simp
      · intro i hi
        rcases Nat.eq_zero_or_pos i with hi0 | hipos
        · subst hi0
          rw [Nat.add_zero, Nat.add_zero, h6 offset (Or.inl (by omega)),
            List.getD_eq_getElem?_getD, List.getElem?_set_self (by omega)]
          rfl
        · have e := h5 (i - 1) (by omega)
          have e1 : offset + 1 + (i - 1) = offset + i := by omega
          have e2 : idx + 1 + (i - 1) = idx + i := by omega
          rw [e1, e2] at e
          exact e
      · intro j hj
        rw [h6 j (by omega), List.getD_eq_getElem?_getD, List.getElem?_set_ne (by omega),
          List.getD_eq_getElem?_getD]
    · obtain ⟨server1, hstep, hready1⟩ := link_step_bulk_packet P hP cb enc cfg henc page
        num_words (link_state P cb enc inst0 log) count base_addr offset (data_array.getD idx 0)
        false hready (by omega) hp (by omega) (by omega) (hwords idx)
      simp only [Bool.false_eq_true, if_false] at hstep hready1
      have hL1 := link_state_append P cb enc inst0 log (TransportCall.tx (ClientRequest.write_pkt
        { write := true, multiword := false, bulk_req := true, bulk_end := false, mode := cfg.control_interface_mode }
        count page offset (data_array.getD idx 0)))
      rw [hstep] at hL1
      have hready2 : link_ready cfg page num_words
          (link_state P cb enc inst0 (log ++ [TransportCall.tx (ClientRequest.write_pkt
            { write := true, multiword := false, bulk_req := true, bulk_end := false, mode := cfg.control_interface_mode }
            count page offset (data_array.getD idx 0))])) (count + 1)
          (base_addr.set offset (data_array.getD idx 0)) := by
        rw [hL1]; exact hready1
      obtain ⟨base1, h1, h2, h3, h4, h5, h6⟩ := ih (idx + 1) (count + 1) (offset + 1) _
        (base_addr.set offset (data_array.getD idx 0)) hready2 (by omega) (by omega) (by omega)
        (by simpa using hbase) (by omega)
      have htrace : log ++ bulk_write_trace cfg page ((data_array.drop idx).take (m + 1 + 1)) count
            offset =
          log ++ [TransportCall.tx (ClientRequest.write_pkt
            { write := true, multiword := false, bulk_req := true, bulk_end := false, mode := cfg.control_interface_mode }
            count page offset (data_array.getD idx 0))] ++
            bulk_write_trace cfg page ((data_array.drop (idx + 1)).take (m + 1)) (count + 1)
              (offset + 1) := by
        rw [take_drop_succ data_array idx (m + 1) hidx]
        simp [bulk_write_trace, hne, hend]
      have hexp : expected_bulk_answers P
          (bulk_write_trace cfg page ((data_array.drop idx).take (m + 1 + 1)) count offset) count =
          [] :: expected_bulk_answers P
              (bulk_write_trace cfg page ((data_array.drop (idx + 1)).take (m + 1)) (count + 1)
                (offset + 1))
              (count + 1) := by
        rw [take_drop_succ data_array idx (m + 1) hidx]
        simp [bulk_write_trace, expected_bulk_answers, hne, hend]
      refine ⟨base1, ?_, ?_, ?_, ?_, ?_, ?_⟩
      · rw [bulk_loop_step_cont K P _ cfg page data_array (m + 1) idx count offset log
          (by simp [hend]) (fun _ _ => rfl), ho1, hc1, h1, htrace]
      · rw [htrace]; exact h2
      · rw [htrace, h3, hL1, hexp]
        simp
      · rw [h4]; simp
      · intro i hi
        rcases Nat.eq_zero_or_pos i with hi0 | hipos
        · subst hi0
          rw [Nat.add_zero, Nat.add_zero, h6 offset (Or.inl (by omega)),
            List.getD_eq_getElem?_getD, List.getElem?_set_self (by omega)]
          rfl
        · have e := h5 (i - 1) (by omega)
          have e1 : offset + 1 + (i - 1) = offset + i := by omega
          have e2 : idx + 1 + (i - 1) = idx + i := by omega
          rw [e1, e2] at e
          exact e
      · intro j hj
        rw [h6 j (by omega), List.getD_eq_getElem?_getD, List.getElem?_set_ne (by omega),
          List.getD_eq_getElem?_getD]

/-- Claim C34. A client in bulk mode joined to a server with the same mode
tag and no bulk session open, a read-write word-array page of `n` words (not
wider than the page width of the client) with its backing memory, and
`num_words ≤ 255` words (`num_words` is a byte) for the registers
`offset_start`, ..., `offset_start + num_words - 1` inside the page; any
`max_in_flight`. Then `reg_mapped_client_write_array` returns SUCCESSFUL after
one receive-clear call and the calls of `bulk_write_trace` (a receive call
exactly after each packet tagged bulk-end); the server has answered the
packets as `expected_bulk_answers` lays down: nothing to a packet not tagged
bulk-end, and to a packet tagged bulk-end one bulk response with SUCCESSFUL and
a sequence number one less than the number of packets since the previous
bulk-end packet; no response waits and no bulk session is open at the end;
and the page holds word `i` of the array at `offset_start + i` and is
unchanged elsewhere. -/
theorem bulk_write_array_agrees (K : ClientConsts) (P : Protocol) (hP : P.Valid) (cb : Callback)
    (enc : request_flags → Nat) (inst : reg_mapped_server_inst_t) (cfg : reg_mapped_client_cfg_t)
    (page offset_start num_words n : Nat) (base_addr data_array : List Nat)
    (henc : encodes_flags P enc cfg.control_interface_mode)
    (hmode : cfg.transfer_mode = TransferMode.BULK)
    (hsame : inst.control_interface_mode = cfg.control_interface_mode)
    (hclosed : inst.in_bulk_request = false)
    (hp : page < inst.num_pages) (hp256 : page < 256)
    (hpage : page_at inst page = Page.mem_mapped_word Perm.READ_WRITE n base_addr)
    (hbase : n ≤ base_addr.length) (hn : n ≤ K.REG_MAPPED_PAGE_NUM_WORDS)
    (hwidth : K.REG_MAPPED_PAGE_NUM_WORDS ≤ 256)
    (hin : offset_start + num_words ≤ n) (hnum : num_words ≤ 255)
    (hdata : num_words ≤ data_array.length) (hwords : ∀ w, w ∈ data_array → w < 2 ^ 32) :
    ∃ base1,
      reg_mapped_client_write_array K P (server_transport P cb enc inst) cfg page offset_start
          data_array num_words [] =
        ((P.REG_MAPPED_RESULT_SUCCESSFUL : Int),
          TransportCall.clear_rx ::
            bulk_write_trace cfg page (data_array.take num_words) 0 offset_start) ∧
      (link_state P cb enc inst
          (TransportCall.clear_rx ::
            bulk_write_trace cfg page (data_array.take num_words) 0 offset_start)).answers =
        expected_bulk_answers P
          (bulk_write_trace cfg page (data_array.take num_words) 0 offset_start) 0 ∧
      (link_state P cb enc inst
          (TransportCall.clear_rx ::
            bulk_write_trace cfg page (data_array.take num_words) 0 offset_start)).waiting = [] ∧
      (link_state P cb enc inst
          (TransportCall.clear_rx ::
            bulk_write_trace cfg page (data_array.take num_words) 0
              offset_start)).server.in_bulk_request = false ∧
      page_at (link_state P cb enc inst
          (TransportCall.clear_rx ::
            bulk_write_trace cfg page (data_array.take num_words) 0 offset_start)).server page =
        Page.mem_mapped_word Perm.READ_WRITE n base1 ∧
      (∀ i, i < num_words → base1.getD (offset_start + i) 0 = data_array.getD i 0) ∧
      (∀ j, (j < offset_start ∨ offset_start + num_words ≤ j) →
        base1.getD j 0 = base_addr.getD j 0) := by
  have hrun : reg_mapped_client_write_array K P (server_transport P cb enc inst) cfg page
      offset_start data_array num_words [] =
      write_array_bulk_loop K P (server_transport P cb enc inst) cfg page data_array num_words 0
        0 offset_start [TransportCall.clear_rx] := by
    have hclear : (server_transport P cb enc inst).clear_rx_func [] = true := rfl
    unfold reg_mapped_client_write_array
    rw [if_neg (by omega)]
    simp only [hclear, hmode, Bool.not_true, Bool.false_eq_true, if_false, List.nil_append]
    rw [if_neg (by decide), if_pos trivial]
  have hstart : link_state P cb enc inst [TransportCall.clear_rx] =
      { server := inst, waiting := [], answers := [] } := rfl
  have hgetD : ∀ i, data_array.getD i 0 < 2 ^ 32 := by
    intro i
    rw [List.getD_eq_getElem?_getD]
    cases hi : data_array[i]? with
    | none => exact Nat.two_pow_pos 32
    | some w => exact hwords w (List.getElem?_mem hi)
  rw [hrun]
  cases num_words with
  | zero =>
    refine ⟨base_addr, ?_, ?_, ?_, ?_, ?_, ?_, ?_⟩
    · simp [write_array_bulk_loop, bulk_write_trace]
    · simp only [List.take_zero, bulk_write_trace, hstart, expected_bulk_answers]
    · simp only [List.take_zero, bulk_write_trace, hstart]
    · simp only [List.take_zero, bulk_write_trace, hstart]
      exact hclosed
    · simp only [List.take_zero, bulk_write_trace, hstart]
      exact hpage
    · intro i hi
      exact absurd hi (Nat.not_lt_zero i)
    · intro j _
      rfl
  | succ k =>
    have hready : link_ready cfg page n (link_state P cb enc inst [TransportCall.clear_rx]) 0
        base_addr := by
      rw [hstart]
      exact ⟨rfl, hp, hpage, hsame, Or.inl ⟨rfl, hclosed⟩⟩
    obtain ⟨base1, h1, h2, h3, _, h5, h6⟩ := bulk_loop_joined K P hP cb enc inst cfg henc page n
      hp256 data_array hgetD k 0 0 offset_start [TransportCall.clear_rx] base_addr hready
      (by omega) (by omega) (by omega) hbase (by omega)
    rw [List.drop_zero] at h1 h2 h3
    rw [hstart] at h3
    refine ⟨base1, ?_, ?_, ?_, ?_, ?_, ?_, ?_⟩
    · rw [h1]; rfl
    · exact h3
    · exact h2.1
    · exact link_ready_zero_iff cfg page n _ base1 h2
    · exact h2.2.2.1
    · intro i hi
      have e := h5 i (by omega)
      rw [Nat.zero_add] at e
      exact e
    · intro j hj
      exact h6 j (by omega)

/-- Witness of claim C34: the client of `demo_cfg` in bulk mode (mode tag 1,
`max_in_flight = 2`) joined to `demo_inst` writes the words 5, 6, 7 to the
registers 0, 1, 2 of page 0, a read-write word array of 3 words: packets with
the counts 0, 1 (bulk-end) and 0 (bulk-end), answered with the sequence
numbers 1 and 0. -/
theorem bulk_write_array_agrees_witness :
    (∃ base1,
      reg_mapped_client_write_array specClientConsts specProtocol
          (server_transport specProtocol demo_cb spec_flags_byte demo_inst)
          (demo_cfg TransferMode.BULK) 0 0 [5, 6, 7] 3 [] =
        ((specProtocol.REG_MAPPED_RESULT_SUCCESSFUL : Int),
          TransportCall.clear_rx ::
            bulk_write_trace (demo_cfg TransferMode.BULK) 0 (([5, 6, 7] : List Nat).take 3) 0 0) ∧
      (link_state specProtocol demo_cb spec_flags_byte demo_inst
          (TransportCall.clear_rx ::
            bulk_write_trace (demo_cfg TransferMode.BULK) 0 (([5, 6, 7] : List Nat).take 3) 0
              0)).answers =
        expected_bulk_answers specProtocol
          (bulk_write_trace (demo_cfg TransferMode.BULK) 0 (([5, 6, 7] : List Nat).take 3) 0 0) 0 ∧
      (link_state specProtocol demo_cb spec_flags_byte demo_inst
          (TransportCall.clear_rx ::
            bulk_write_trace (demo_cfg TransferMode.BULK) 0 (([5, 6, 7] : List Nat).take 3) 0
              0)).waiting = [] ∧
      (link_state specProtocol demo_cb spec_flags_byte demo_inst
          (TransportCall.clear_rx ::
            bulk_write_trace (demo_cfg TransferMode.BULK) 0 (([5, 6, 7] : List Nat).take 3) 0
              0)).server.in_bulk_request = false ∧
      page_at (link_state specProtocol demo_cb spec_flags_byte demo_inst
          (TransportCall.clear_rx ::
            bulk_write_trace (demo_cfg TransferMode.BULK) 0 (([5, 6, 7] : List Nat).take 3) 0
              0)).server 0 =
        Page.mem_mapped_word Perm.READ_WRITE 3 base1 ∧
      (∀ i, i < 3 → base1.getD (0 + i) 0 = ([5, 6, 7] : List Nat).getD i 0) ∧
      (∀ j, (j < 0 ∨ 0 + 3 ≤ j) → base1.getD j 0 = ([10, 20, 30] : List Nat).getD j 0)) ∧
    reg_mapped_client_write_array specClientConsts specProtocol
        (server_transport specProtocol demo_cb spec_flags_byte demo_inst)
        (demo_cfg TransferMode.BULK) 0 0 [5, 6, 7] 3 [] =
      (0, [TransportCall.clear_rx,
        TransportCall.tx (ClientRequest.write_pkt { write := true, multiword := false, bulk_req := true, bulk_end := false, mode := 1 } 0 0 0 5),
        TransportCall.tx (ClientRequest.write_pkt { write := true, multiword := false, bulk_req := true, bulk_end := true, mode := 1 } 1 0 1 6),
        TransportCall.rx ResponseKind.write_bulk_pkt,
        TransportCall.tx (ClientRequest.write_pkt { write := true, multiword := false, bulk_req := true, bulk_end := true, mode := 1 } 0 0 2 7),
        TransportCall.rx ResponseKind.write_bulk_pkt]) ∧
    (link_state specProtocol demo_cb spec_flags_byte demo_inst
      (reg_mapped_client_write_array specClientConsts specProtocol
        (server_transport specProtocol demo_cb spec_flags_byte demo_inst)
        (demo_cfg TransferMode.BULK) 0 0 [5, 6, 7] 3 []).2).answers =
      [[], [Response.write_bulk_pkt 0 1], [Response.write_bulk_pkt 0 0]] ∧
    page_at (link_state specProtocol demo_cb spec_flags_byte demo_inst
      (reg_mapped_client_write_array specClientConsts specProtocol
        (server_transport specProtocol demo_cb spec_flags_byte demo_inst)
        (demo_cfg TransferMode.BULK) 0 0 [5, 6, 7] 3 []).2).server 0 =
      Page.mem_mapped_word Perm.READ_WRITE 3 [5, 6, 7] :=
  ⟨bulk_write_array_agrees specClientConsts specProtocol (by decide) demo_cb spec_flags_byte
    demo_inst (demo_cfg TransferMode.BULK) 0 0 3 3 [10, 20, 30] [5, 6, 7]
    (spec_flags_byte_encodes 1 (by decide)) rfl rfl rfl (by decide) (by decide) rfl
    (by decide) (by decide) (by decide) (by decide) (by decide) (by decide) (by decide),
   by rfl, by rfl, by rfl⟩

end Canmore
